import Mathlib

/-!
# imageui: an immediate-mode GUI engine (imageui.go)

A shallow embedding of `imageui.go` and a verification of its specification.

Modelling conventions.

* Go `int` is the 64-bit integer type.  The cursor arithmetic of `getBox` is
  Go's, with wrap-around (`addInt`, `subInt`).  The arithmetic of the drawing
  code (extents and insets of rectangles, text offsets, pixel coordinates) is
  exact, which is Go's as long as the values stay in the int range.  Runes and
  key codes are integers of `Int`.
* A Go `string` is its sequence of bytes (`GoString`).
* A run-time panic (assignment to an entry of a nil map, a failed type
  assertion, a method call on a nil `color.Color`) is the result `none`.
* Go maps are reference values.  The three maps of an `Input` record are
  addresses into `Window.heap`, so that the struct copy `w.curInput = w.input`
  shares the maps exactly as the Go assignment does.  The mutator map and the
  widget-state map are referenced from the window only and are held by value;
  `none` is the nil map.
* `Status` holds a pointer to its window in Go; here the window is passed to
  `Status.Clicked` and `Status.Focused` explicitly.
* Go leaves the order in which `range` visits a map unspecified: `TextField`
  takes the order of its loop as an argument, and the statements about it hold
  for every permutation of the entries of the map.
* The packages `image`, `image/color`, `image/draw` and `pixfont` are outside
  the repository; the parts used by `imageui.go` are modelled in the first
  section.
-/

namespace ImageUI

/-! ## The Go library types used by the engine -/

/-- A Go string, as its sequence of bytes. -/
abbrev GoString := List Nat

/-! ### Go integers -/

/-- The smallest Go `int`. -/
def intMin : Int := -9223372036854775808

/-- The largest Go `int`. -/
def intMax : Int := 9223372036854775807

/-- The integers that are a Go `int`. -/
def isInt (x : Int) : Bool := decide (intMin ≤ x) && decide (x ≤ intMax)

/-- The Go `int` that an exact result wraps around to. -/
def wrapInt (x : Int) : Int := (x - intMin) % 18446744073709551616 + intMin

/-- The Go sum `a + b` of two ints, with wrap-around.  An integer of the
model that is no Go `int` (none arises from Go ints) is added exactly. -/
def addInt (a b : Int) : Int := if isInt a && isInt b then wrapInt (a + b) else a + b

/-- The Go difference `a - b` of two ints, with wrap-around.  An integer of
the model that is no Go `int` is subtracted exactly. -/
def subInt (a b : Int) : Int := if isInt a && isInt b then wrapInt (a - b) else a - b

/-! ### Geometry, colours and images -/

/-- The Go type `image.Point`. -/
structure Point where
  X : Int
  Y : Int
deriving DecidableEq, Repr

/-- The Go type `image.Rectangle`. -/
structure Rectangle where
  Min : Point
  Max : Point
deriving DecidableEq, Repr

/-- The zero rectangle `image.ZR`. -/
def ZR : Rectangle := ⟨⟨0, 0⟩, ⟨0, 0⟩⟩

/-- The constructor `image.Rect`: it swaps the coordinates of an axis whose
minimum exceeds its maximum, so the result is always well formed. -/
def Rect (x0 y0 x1 y1 : Int) : Rectangle :=
  let xa := if x0 > x1 then x1 else x0
  let xb := if x0 > x1 then x0 else x1
  let ya := if y0 > y1 then y1 else y0
  let yb := if y0 > y1 then y0 else y1
  ⟨⟨xa, ya⟩, ⟨xb, yb⟩⟩

/-- The method `Point.In`: minimum bounds inclusive, maximum bounds exclusive. -/
def Point.In (p : Point) (r : Rectangle) : Bool :=
  decide (r.Min.X ≤ p.X) && decide (p.X < r.Max.X) &&
    decide (r.Min.Y ≤ p.Y) && decide (p.Y < r.Max.Y)

/-- The method `Rectangle.Dx`. -/
def Rectangle.Dx (r : Rectangle) : Int := r.Max.X - r.Min.X

/-- The method `Rectangle.Dy`. -/
def Rectangle.Dy (r : Rectangle) : Int := r.Max.Y - r.Min.Y

/-- The method `Rectangle.Empty`. -/
def Rectangle.Empty (r : Rectangle) : Bool :=
  decide (r.Min.X ≥ r.Max.X) || decide (r.Min.Y ≥ r.Max.Y)

/-- The method `Rectangle.Add`: translation by a point. -/
def Rectangle.Add (r : Rectangle) (p : Point) : Rectangle :=
  ⟨⟨r.Min.X + p.X, r.Min.Y + p.Y⟩, ⟨r.Max.X + p.X, r.Max.Y + p.Y⟩⟩

/-- The method `Rectangle.Intersect`. -/
def Rectangle.Intersect (r s : Rectangle) : Rectangle :=
  let minX := if r.Min.X < s.Min.X then s.Min.X else r.Min.X
  let minY := if r.Min.Y < s.Min.Y then s.Min.Y else r.Min.Y
  let maxX := if r.Max.X > s.Max.X then s.Max.X else r.Max.X
  let maxY := if r.Max.Y > s.Max.Y then s.Max.Y else r.Max.Y
  let t : Rectangle := ⟨⟨minX, minY⟩, ⟨maxX, maxY⟩⟩
  if t.Empty then ZR else t

/-- The method `Rectangle.Inset`; Go integer division truncates. -/
def Rectangle.Inset (r : Rectangle) (n : Int) : Rectangle :=
  let minX := if r.Dx < 2 * n then Int.tdiv (r.Min.X + r.Max.X) 2 else r.Min.X + n
  let maxX := if r.Dx < 2 * n then Int.tdiv (r.Min.X + r.Max.X) 2 else r.Max.X - n
  let minY := if r.Dy < 2 * n then Int.tdiv (r.Min.Y + r.Max.Y) 2 else r.Min.Y + n
  let maxY := if r.Dy < 2 * n then Int.tdiv (r.Min.Y + r.Max.Y) 2 else r.Max.Y - n
  ⟨⟨minX, minY⟩, ⟨maxX, maxY⟩⟩

/-- The dynamic types of `color.Color` values that the engine meets: the
constants of `image/color` are `Gray16` and `Alpha16` values, pixels are `RGBA`
values, and `RGBA64` stands for any other colour through its four channels. -/
inductive Color where
  | Gray16 (Y : Nat)
  | Alpha16 (A : Nat)
  | RGBA (R G B A : Nat)
  | RGBA64 (R G B A : Nat)
deriving DecidableEq, Repr

/-- The constant `color.White`. -/
def White : Color := Color.Gray16 0xffff

/-- The constant `color.Black`. -/
def Black : Color := Color.Gray16 0

/-- The constant `color.Opaque`. -/
def Opaque : Color := Color.Alpha16 0xffff

/-- The constant `color.Transparent`. -/
def Transparent : Color := Color.Alpha16 0

/-- The four 16-bit channels returned by the method `RGBA()` of a colour. -/
structure Channels where
  r : Nat
  g : Nat
  b : Nat
  a : Nat
deriving DecidableEq, Repr

/-- The method `RGBA()` of `color.Color`, alpha-premultiplied 16-bit channels. -/
def Color.channels : Color → Channels
  | Color.Gray16 y => ⟨y % 65536, y % 65536, y % 65536, 0xffff⟩
  | Color.Alpha16 a => ⟨a % 65536, a % 65536, a % 65536, a % 65536⟩
  | Color.RGBA r g b a =>
      ⟨(r % 256) * 0x101, (g % 256) * 0x101, (b % 256) * 0x101, (a % 256) * 0x101⟩
  | Color.RGBA64 r g b a => ⟨r % 65536, g % 65536, b % 65536, a % 65536⟩

/-- The method `Rectangle.At`: a rectangle seen as an image is opaque inside
its bounds and transparent outside. -/
def Rectangle.At (r : Rectangle) (x y : Int) : Color :=
  if (Point.mk x y).In r then Opaque else Transparent

/-- One pixel of an `image.RGBA`: four 8-bit channels. -/
structure Pixel where
  R : Nat
  G : Nat
  B : Nat
  A : Nat
deriving DecidableEq, Repr

/-- The Go type `image.RGBA`: its bounds and the pixel stored at each
coordinate.  A sub-image shares the pixels of its parent and has smaller
bounds. -/
structure RGBAImage where
  Rect : Rectangle
  pix : Int → Int → Pixel

/-- The constructor `image.NewRGBA`: all pixels are zero. -/
def NewRGBA (r : Rectangle) : RGBAImage := ⟨r, fun _ _ => ⟨0, 0, 0, 0⟩⟩

/-- The method `RGBA.Set`: nothing happens outside the bounds; inside, the
colour is converted by `color.RGBAModel`, which calls `RGBA()` on it, so a nil
colour panics. -/
def RGBAImage.Set (p : RGBAImage) (x y : Int) (c : Option Color) : Option RGBAImage :=
  if (Point.mk x y).In p.Rect then
    match c with
    | none => none
    | some c =>
      let ch := c.channels
      let px : Pixel := ⟨(ch.r / 256) % 256, (ch.g / 256) % 256, (ch.b / 256) % 256,
        (ch.a / 256) % 256⟩
      some { p with pix := fun x' y' => if x' = x ∧ y' = y then px else p.pix x' y' }
  else some p

/-- The method `RGBA.SubImage`. -/
def RGBAImage.SubImage (p : RGBAImage) (r : Rectangle) : RGBAImage :=
  let r' := r.Intersect p.Rect
  if r'.Empty then { p with Rect := ZR } else { p with Rect := r' }

/-- The bounds of an `image.Uniform`. -/
def uniformBounds : Rectangle := ⟨⟨-1000000000, -1000000000⟩, ⟨1000000000, 1000000000⟩⟩

/-- The compositing operators of `image/draw`. -/
inductive Op where
  | Over
  | Src
deriving DecidableEq, Repr

/-- One channel of `drawFillOver`: `(d * a / m + s) >> 8` with `m = 0xffff`
and `a = (m - sa) * 0x101`. -/
def overChannel (d s sa : Nat) : Nat := (((d * ((0xffff - sa) * 0x101)) / 0xffff + s) / 256) % 256

/-- The clipping step of `draw.Draw` for a uniform source drawn from
`image.ZP`: the rectangle is cut down to the destination bounds and to the
bounds of the source translated by the rectangle's corner. -/
def clipUniform (dst : RGBAImage) (r : Rectangle) : Rectangle :=
  (r.Intersect dst.Rect).Intersect (uniformBounds.Add r.Min)

/-- The fill loops `drawFillSrc` and `drawFillOver` of `image/draw` on an
already clipped rectangle; an opaque source drawn with `Over` is copied. -/
def drawFill (dst : RGBAImage) (r : Rectangle) (c : Color) (op : Op) : RGBAImage :=
  let ch := c.channels
  let fill : Pixel → Pixel := fun d =>
    if op = Op.Src ∨ ch.a = 0xffff then
      ⟨(ch.r / 256) % 256, (ch.g / 256) % 256, (ch.b / 256) % 256, (ch.a / 256) % 256⟩
    else
      ⟨overChannel d.R ch.r ch.a, overChannel d.G ch.g ch.a, overChannel d.B ch.b ch.a,
        overChannel d.A ch.a ch.a⟩
  { dst with pix := fun x y => if (Point.mk x y).In r then fill (dst.pix x y) else dst.pix x y }

/-- The call `draw.Draw(dst, r, &image.Uniform{c}, image.ZP, op)` with a
colour that is not nil. -/
def drawUniformColor (dst : RGBAImage) (r : Rectangle) (c : Color) (op : Op) : RGBAImage :=
  if (clipUniform dst r).Empty then dst else drawFill dst (clipUniform dst r) c op

/-- The call `draw.Draw(dst, r, &image.Uniform{c}, image.ZP, op)`: an empty
clipped rectangle returns before the colour is looked at, otherwise a nil
colour panics. -/
def drawUniform (dst : RGBAImage) (r : Rectangle) (c : Option Color) (op : Op) :
    Option RGBAImage :=
  if (clipUniform dst r).Empty then some dst
  else
    match c with
    | none => none
    | some c => some (drawFill dst (clipUniform dst r) c op)

/-- Modelled from the spec: the glyph-rendering capability (package `pixfont`,
not part of the repository).  It measures the pixel width of a string and
draws a string by setting, in the given colour, the pixels of its glyphs;
`ink s` lists the offsets of those pixels from the drawing position. -/
structure PixFont where
  MeasureString : GoString → Int
  ink : GoString → List (Int × Int)

/-- The method `PixFont.DrawString`: every glyph pixel is written with `Set`
on the destination image. -/
def PixFont.DrawString (f : PixFont) (dr : RGBAImage) (x y : Int) (s : GoString)
    (clr : Option Color) : Option RGBAImage :=
  (f.ink s).foldl (fun acc o => acc.bind fun img => img.Set (x + o.1) (y + o.2) clr) (some dr)

/-- The function `strings.Split(s, "\n")`, written with an accumulator for the
current (reversed) piece; the result always has at least one element. -/
def splitLinesAux : List Nat → List Nat → List GoString
  | [], cur => [cur.reverse]
  | b :: bs, cur => if b = 10 then cur.reverse :: splitLinesAux bs [] else splitLinesAux bs (b :: cur)

/-- The function `strings.Split(s, "\n")`. -/
def splitLines (s : GoString) : List GoString := splitLinesAux s []

/-! ## Go maps -/

/-- The lookup `m[k]` with the comma-ok result. -/
def mapGet {K V : Type} [DecidableEq K] : List (K × V) → K → Option V
  | [], _ => none
  | (k', v) :: m, k => if k' = k then some v else mapGet m k

/-- The assignment `m[k] = v`. -/
def mapSet {K V : Type} [DecidableEq K] : List (K × V) → K → V → List (K × V)
  | [], k, v => [(k, v)]
  | (k', v') :: m, k, v => if k' = k then (k, v) :: m else (k', v') :: mapSet m k v

/-- The statement `delete(m, k)`. -/
def mapDel {K V : Type} [DecidableEq K] : List (K × V) → K → List (K × V)
  | [], _ => []
  | (k', v') :: m, k => if k' = k then mapDel m k else (k', v') :: mapDel m k

/-! ## The engine: data model (imageui.go, lines 13 to 61) -/

/-- The dynamic values stored behind `interface{}` by the engine: `int`
(widths and heights) and `bool` (centering). -/
inductive Value where
  | int (n : Int)
  | bool (b : Bool)
deriving DecidableEq, Repr

/-- The three booleans of the anonymous struct `Mouse` and of `mouseTrigger`. -/
structure MouseButtons where
  Left : Bool
  Right : Bool
  Middle : Bool
deriving DecidableEq, Repr

/-- The Go type `Input`.  The three map fields are references: an address in
the window's heap of maps, or `none` for the nil map. -/
structure Input where
  Keys : Option Nat
  KeyTriggers : Option Nat
  Chars : Option Nat
  MouseX : Int
  MouseY : Int
  Mouse : MouseButtons
deriving DecidableEq, Repr

/-- One entry of the mutator map: the struct with fields `keep` and `val`. -/
structure Mutator where
  keep : Bool
  val : Value
deriving DecidableEq, Repr

/-- The Go type `Window`, with the heap that holds the maps referenced from
the two `Input` records. -/
structure Window where
  Width : Int
  Height : Int
  buffer : RGBAImage
  font : PixFont
  FG : Option Color
  BG : Option Color
  curX : Int
  curY : Int
  nextY : Int
  nextX : Int
  lastY : Int
  curWidth : Int
  focusID : GoString
  input : Input
  curInput : Input
  mouseTrigger : MouseButtons
  widgetState : Option (List (GoString × Value))
  mutators : Option (List (GoString × Mutator))
  heap : List (List (Int × Bool))

/-- The Go type `Status`; the window it points to is passed to its methods. -/
structure Status where
  id : GoString
  rect : Rectangle
deriving DecidableEq, Repr

/-- The mutator name "nextwidth". -/
def nextwidthName : GoString := [110, 101, 120, 116, 119, 105, 100, 116, 104]

/-- The mutator name "nextheight". -/
def nextheightName : GoString := [110, 101, 120, 116, 104, 101, 105, 103, 104, 116]

/-- The mutator name "center". -/
def centerName : GoString := [99, 101, 110, 116, 101, 114]

/-- The contents of the map behind a reference; a nil map reads as empty. -/
def Window.deref (w : Window) (r : Option Nat) : List (Int × Bool) :=
  match r with
  | none => []
  | some a => w.heap.getD a []

/-- The entry stored under a name in the mutator map, if any. -/
def Window.mutator? (w : Window) (name : GoString) : Option Mutator :=
  match w.mutators with
  | none => none
  | some m => mapGet m name

/-! ## Mutators (lines 63 to 87) -/

/-- The method `setMutator`: assignment to an entry of a nil map panics. -/
def Window.setMutator (w : Window) (name : GoString) (val : Value) : Option Window :=
  match w.mutators with
  | none => none
  | some m => some { w with mutators := some (mapSet m name ⟨false, val⟩) }

/-- The method `keep`. -/
def Window.keep (w : Window) (name : GoString) : Window :=
  match w.mutators with
  | none => w
  | some m =>
    match mapGet m name with
    | some mu => { w with mutators := some (mapSet m name { mu with keep := true }) }
    | none => w

/-- The method `getMutator`: the value read and the window afterwards. -/
def Window.getMutator (w : Window) (name : GoString) (defval : Value) : Value × Window :=
  match w.mutators with
  | none => (defval, w)
  | some m =>
    match mapGet m name with
    | some mu =>
      if mu.keep then
        (mu.val, { w with mutators := some (mapSet m name { mu with keep := false }) })
      else
        (mu.val, { w with mutators := some (mapDel m name) })
    | none => (defval, w)

/-! ## Input ingestion (lines 89 to 117) -/

/-- The assignment `m[k] = v` through a map reference: a nil map panics. -/
def heapAssign (h : List (List (Int × Bool))) (r : Option Nat) (k : Int) (v : Bool) :
    Option (List (List (Int × Bool))) :=
  match r with
  | none => none
  | some a => if a < h.length then some (h.set a (mapSet (h.getD a []) k v)) else none

/-- The method `MousePos`. -/
def Window.MousePos (w : Window) (x y : Int) : Window :=
  { w with input := { w.input with MouseX := x, MouseY := y } }

/-- The method `MouseDown`. -/
def Window.MouseDown (w : Window) (button : Int) : Window :=
  if button = 1 then
    { w with input := { w.input with Mouse := { w.input.Mouse with Left := true } } }
  else w

/-- The method `MouseUp`. -/
def Window.MouseUp (w : Window) (button : Int) : Window :=
  if button = 1 then
    { w with input := { w.input with Mouse := { w.input.Mouse with Left := false } } }
  else w

/-- The method `KeyDown`. -/
def Window.KeyDown (w : Window) (key : Int) : Option Window :=
  match heapAssign w.heap w.input.Keys key true with
  | none => none
  | some h1 =>
    match heapAssign h1 w.input.KeyTriggers key true with
    | none => none
    | some h2 => some { w with heap := h2 }

/-- The method `KeyUp`. -/
def Window.KeyUp (w : Window) (key : Int) : Option Window :=
  match heapAssign w.heap w.input.Keys key false with
  | none => none
  | some h1 => some { w with heap := h1 }

/-- The method `Char`. -/
def Window.Char (w : Window) (char : Int) : Option Window :=
  match heapAssign w.heap w.input.Chars char true with
  | none => none
  | some h1 => some { w with heap := h1 }

/-! ## Status (lines 119 to 143) -/

/-- The method `status`. -/
def Window.status (_w : Window) (rect : Rectangle) : Status := ⟨[], rect⟩

/-- The method `statusID`. -/
def Window.statusID (_w : Window) (rect : Rectangle) (id : GoString) : Status := ⟨id, rect⟩

/-- The method `Status.Clicked`, on the window the status points to. -/
def Status.Clicked (s : Status) (w : Window) : Bool :=
  let mx := w.curInput.MouseX
  let my := w.curInput.MouseY
  if w.mouseTrigger.Left && decide (s.rect.At mx my = Opaque) then true else false

/-- The method `Status.Focused`, on the window the status points to. -/
def Status.Focused (s : Status) (w : Window) : Bool :=
  decide (w.focusID = s.id)

/-! ## Construction and widget state (lines 145 to 166) -/

/-- The function `NewWindow`; the default font of `pixfont` is a parameter.
The three maps of the pending input are allocated, every other map and both
colours are nil.  The model covers the sizes for which `image.NewRGBA`
returns: it panics when four times the number of pixels is no Go `int`. -/
def NewWindow (font : PixFont) (w h : Int) : Window :=
  { Width := w, Height := h,
    buffer := NewRGBA (Rect 0 0 w h),
    font := font,
    FG := none, BG := none,
    curX := 0, curY := 0, nextY := 0, nextX := 0, lastY := 0, curWidth := 0,
    focusID := [],
    input := ⟨some 0, some 1, some 2, 0, 0, ⟨false, false, false⟩⟩,
    curInput := ⟨none, none, none, 0, 0, ⟨false, false, false⟩⟩,
    mouseTrigger := ⟨false, false, false⟩,
    widgetState := none,
    mutators := none,
    heap := [[], [], []] }

/-- The method `ClearState`. -/
def Window.ClearState (w : Window) : Window := { w with widgetState := some [] }

/-- The method `getState`: storing the default in a nil map panics. -/
def Window.getState (w : Window) (id : GoString) (dflt : Value) : Option (Value × Window) :=
  match w.widgetState with
  | none => none
  | some m =>
    match mapGet m id with
    | some state => some (state, w)
    | none => some (dflt, { w with widgetState := some (mapSet m id dflt) })

/-! ## Frame start (lines 168 to 188) -/

/-- The method `StartFrame`.  The two fresh maps of the pending input are
allocated at the end of the heap; the map of held keys is not replaced. -/
def Window.StartFrame (w : Window) : Window :=
  { w with
    curX := 0, curY := 0,
    nextX := 0, nextY := 0, lastY := 0,
    FG := some White,
    BG := some Black,
    buffer := drawUniformColor w.buffer w.buffer.Rect Black Op.Src,
    curWidth := w.Width,
    mouseTrigger :=
      ⟨if (w.curInput.Mouse.Left != w.input.Mouse.Left) && w.input.Mouse.Left then true
        else false, false, false⟩,
    curInput := w.input,
    input := { w.input with
      KeyTriggers := some w.heap.length, Chars := some (w.heap.length + 1) },
    heap := w.heap ++ [[], []],
    mutators := some [] }

/-! ## Layout (lines 190 to 210) -/

/-- The method `getBox`: both type assertions to `int` can panic, and the
three int operations wrap around. -/
def Window.getBox (w : Window) (height : Int) : Option (Rectangle × Window) :=
  match w.getMutator nextwidthName (Value.int (subInt w.curWidth w.curX)) with
  | (Value.int width, w1) =>
    match w1.getMutator nextheightName (Value.int height) with
    | (Value.int height, w2) =>
      let rect := Rect w2.curX w2.curY (addInt w2.curX width) (addInt w2.curY height)
      let w3 := { w2 with
        nextX := addInt w2.curX width, lastY := w2.curY, curX := 0
        curY := addInt w2.curY height }
      some (rect, if w3.curY < w3.nextY then { w3 with curY := w3.nextY } else w3)
    | (Value.bool _, _) => none
  | (Value.bool _, _) => none

/-- The method `SameLine`. -/
def Window.SameLine (w : Window) : Window :=
  let w1 := if w.nextY < w.curY then { w with nextY := w.curY } else w
  { w1 with curY := w1.lastY, curX := w1.nextX }

/-! ## Drawing and widgets (lines 212 to 277) -/

/-- The method `Center`. -/
def Window.Center (w : Window) : Option Window := w.setMutator centerName (Value.bool true)

/-- The loop of the method `text` over the remaining lines, with the line
index and the running `textX`; the type assertion to `bool` can panic.  The
sub-image shares its pixels with the buffer. -/
def Window.textLoop (rect : Rectangle) : List GoString → Int → Int → Window → Option Window
  | [], _, _, w => some w
  | line :: rest, i, textX, w =>
    match w.getMutator centerName (Value.bool false) with
    | (Value.bool c, w1) =>
      let textX1 := if c then textX + Int.tdiv (rect.Dx - w1.font.MeasureString line) 2 else textX
      match w1.font.DrawString (w1.buffer.SubImage rect) textX1 (rect.Min.Y + i * 8) line w1.FG with
      | none => none
      | some sub =>
        Window.textLoop rect rest (i + 1) textX1 { w1 with buffer := { w1.buffer with pix := sub.pix } }
    | (Value.int _, _) => none

/-- The method `text`. -/
def Window.text (w : Window) (rect : Rectangle) (text : GoString) : Option Window :=
  Window.textLoop rect (splitLines text) 0 rect.Min.X w

/-- The method `Text`. -/
def Window.Text (w : Window) (text : GoString) : Option Window :=
  match w.getBox 12 with
  | none => none
  | some (rect, w1) =>
    match drawUniform w1.buffer rect w1.BG Op.Over with
    | none => none
    | some buf => Window.text { w1 with buffer := buf } (rect.Inset 2) text

/-- The body of the inner loop of the method `box` at column `x`, row `y`. -/
def Window.boxPixel (w : Window) (rect : Rectangle) (buf : RGBAImage) (x y : Int) :
    Option RGBAImage :=
  if x = 0 ∨ x = rect.Dx - 1 ∨ y = 0 ∨ y = rect.Dy - 1 then
    buf.Set (x + rect.Min.X) (y + rect.Min.Y) w.FG
  else
    buf.Set (x + rect.Min.X) (y + rect.Min.Y) w.BG

/-- The method `box`: the fill, then the two nested loops over the columns
and rows of the rectangle. -/
def Window.box (w : Window) (rect : Rectangle) : Option Window :=
  match drawUniform w.buffer rect w.BG Op.Over with
  | none => none
  | some buf0 =>
    match (List.range rect.Dx.toNat).foldl (fun acc x =>
        (List.range rect.Dy.toNat).foldl (fun acc y =>
          acc.bind fun buf => w.boxPixel rect buf (x : Int) (y : Int)) acc) (some buf0) with
    | none => none
    | some buf => some { w with buffer := buf }

/-- The method `Box`. -/
def Window.Box (w : Window) : Option (Status × Window) :=
  match w.getBox 12 with
  | none => none
  | some (rect, w1) =>
    match w1.box rect with
    | none => none
    | some w2 => some (w2.status rect, w2)

/-- The method `NextWidth`. -/
def Window.NextWidth (w : Window) (width : Int) : Option Window :=
  w.setMutator nextwidthName (Value.int width)

/-- The method `NextHeight`. -/
def Window.NextHeight (w : Window) (height : Int) : Option Window :=
  w.setMutator nextheightName (Value.int height)

/-- The method `Button`. -/
def Window.Button (w : Window) (id : GoString) (text : GoString) : Option (Status × Window) :=
  match w.getBox 12 with
  | none => none
  | some (rect, w1) =>
    match w1.box rect with
    | none => none
    | some w2 =>
      let s := w2.statusID rect id
      let w3 := if s.Clicked w2 then { w2 with focusID := id } else w2
      match w3.text (rect.Inset 2) text with
      | none => none
      | some w4 => some (s, w4)

/-- The Go type `textFieldState` (lines 279 to 281); no code uses it. -/
structure textFieldState where
  cPos : Int
deriving DecidableEq, Repr

/-! ## The text field (lines 283 to 307) -/

/-- The conversion `string(key)` of a rune: its UTF-8 encoding, and the
encoding of U+FFFD for a value that is no valid code point. -/
def runeString (r : Int) : GoString :=
  if r < 0 ∨ r > 0x10FFFF ∨ (0xD800 ≤ r ∧ r ≤ 0xDFFF) then [0xEF, 0xBF, 0xBD]
  else
    let n := r.toNat
    if n < 0x80 then [n]
    else if n < 0x800 then [0xC0 + n / 64, 0x80 + n % 64]
    else if n < 0x10000 then [0xE0 + n / 4096, 0x80 + (n / 64) % 64, 0x80 + n % 64]
    else [0xF0 + n / 262144, 0x80 + (n / 4096) % 64, 0x80 + (n / 64) % 64, 0x80 + n % 64]

/-- The body of the loop of `TextField` for one entry of the character map:
backspace (rune 8) cuts the last byte off a non-empty text with the slice
`text[:len(text)-1]`, any other pressed rune is appended as `string(key)`. -/
def textFieldKey (text : GoString) (key : Int) (press : Bool) : GoString :=
  if press then
    if key = 8 then
      if text.length > 0 then text.take (text.length - 1) else text
    else text ++ runeString key
  else text

/-- The method `TextField`.  Go leaves the order in which `range` visits the
entries of a map unspecified; `order` is the sequence in which the loop
visits the entries of `w.curInput.Chars`, a permutation of the entries of that
map.  The result is the returned text, the status and the window. -/
def Window.TextField (w : Window) (id : GoString) (text : GoString)
    (order : List (Int × Bool)) : Option (GoString × Status × Window) :=
  match w.getBox 12 with
  | none => none
  | some (rect, w1) =>
    match w1.box rect with
    | none => none
    | some w2 =>
      let s := w2.statusID rect id
      let w3 := if s.Clicked w2 then { w2 with focusID := id } else w2
      let text1 :=
        if s.Focused w3 then order.foldl (fun t e => textFieldKey t e.1 e.2) text else text
      match w3.text (rect.Inset 2) text1 with
      | none => none
      | some w4 => some (text1, s, w4)

/-! ## Frame end (lines 309 to 311) -/

/-- The method `EndFrame`. -/
def Window.EndFrame (w : Window) : RGBAImage := w.buffer

/-! ## The frame invariant and the resolved size of a box -/

/-- An absent entry or an entry holding an `int`. -/
def typedInt : Option Mutator → Bool
  | none => true
  | some e =>
    match e.val with
    | Value.int _ => true
    | Value.bool _ => false

/-- An absent entry or an entry holding a `bool`. -/
def typedBool : Option Mutator → Bool
  | none => true
  | some e =>
    match e.val with
    | Value.int _ => false
    | Value.bool _ => true

/-- The state of a window inside a frame: both colours are set and the
entries of the three mutators hold values of the type their setters store
(`NextWidth` and `NextHeight` an `int`, `Center` a `bool`).  `StartFrame`
establishes it and every widget and layout call keeps it. -/
def Window.InFrame (w : Window) : Bool :=
  typedInt (w.mutator? nextwidthName) && typedInt (w.mutator? nextheightName) &&
    typedBool (w.mutator? centerName) && w.FG.isSome && w.BG.isSome

/-- The width `getBox` resolves, in the words of the specification: the
pending "nextwidth" override if there is one, else the line limit minus the
current x, the Go difference `w.curWidth-w.curX`. -/
def Window.resolvedWidth (w : Window) : Int :=
  match w.mutator? nextwidthName with
  | some ⟨_, Value.int n⟩ => n
  | _ => subInt w.curWidth w.curX

/-- The height `getBox` resolves, in the words of the specification: the
pending "nextheight" override if there is one, else the requested height. -/
def Window.resolvedHeight (w : Window) (height : Int) : Int :=
  match w.mutator? nextheightName with
  | some ⟨_, Value.int n⟩ => n
  | _ => height

/-- The mutator map after `getBox` has read both overrides. -/
def Window.afterGetBox (w : Window) (height : Int) : Option (List (GoString × Mutator)) :=
  ((w.getMutator nextwidthName (Value.int (subInt w.curWidth w.curX))).2.getMutator
    nextheightName (Value.int height)).2.mutators

/-- The window `getBox` leaves behind, as given by `getBox_spec`. -/
def Window.afterBox (w : Window) (height : Int) : Window :=
  { w with
    mutators := w.afterGetBox height
    nextX := addInt w.curX w.resolvedWidth
    lastY := w.curY
    curX := 0
    curY := if addInt w.curY (w.resolvedHeight height) < w.nextY then w.nextY
      else addInt w.curY (w.resolvedHeight height) }

/-- The rectangle `getBox` returns, as given by `getBox_spec`. -/
def Window.boxRect (w : Window) (height : Int) : Rectangle :=
  Rect w.curX w.curY (addInt w.curX w.resolvedWidth)
    (addInt w.curY (w.resolvedHeight height))

/-! ## Runs of widgets on one line -/

/-- The four widget calls of the engine, with their arguments. -/
inductive Widget where
  | box
  | text (t : GoString)
  | button (id t : GoString)
  | textField (id t : GoString) (order : List (Int × Bool))

/-- One widget call: the rectangle the widget obtains from `getBox(12)` (for
`Text`, which returns nothing, the rectangle `getBox(12)` gives on the same
window) and the window afterwards. -/
def Window.widget (w : Window) : Widget → Option (Rectangle × Window)
  | Widget.box => w.Box.map fun p => (p.1.rect, p.2)
  | Widget.text t =>
    match w.getBox 12 with
    | none => none
    | some (r, _) => (w.Text t).map fun w3 => (r, w3)
  | Widget.button id t => (w.Button id t).map fun p => (p.1.rect, p.2)
  | Widget.textField id t order => (w.TextField id t order).map fun p => (p.2.1.rect, p.2.2)

/-- One widget placed with a given size: `NextWidth(width)`,
`NextHeight(height)`, then the widget call. -/
def Window.place (w : Window) (width height : Int) (k : Widget) : Option (Rectangle × Window) :=
  match w.NextWidth width with
  | none => none
  | some w1 =>
    match w1.NextHeight height with
    | none => none
    | some w2 => w2.widget k

/-- The widgets that continue a run: each one is preceded by `SameLine()`.
The result lists the rectangles in order, with the window after the last
widget. -/
def Window.placeMore (w : Window) : List (Int × Int × Widget) → Option (List Rectangle × Window)
  | [] => some ([], w)
  | (width, height, k) :: rest =>
    match w.SameLine.place width height k with
    | none => none
    | some (r, w1) => (Window.placeMore w1 rest).map fun p => (r :: p.1, p.2)

/-- A run of widgets joined by `SameLine()` calls: widget 1, `SameLine`,
widget 2, and so on. -/
def Window.placeRun (w : Window) (first : Int × Int × Widget)
    (rest : List (Int × Int × Widget)) : Option (List Rectangle × Window) :=
  match w.place first.1 first.2.1 first.2.2 with
  | none => none
  | some (r, w1) => (w1.placeMore rest).map fun p => (r :: p.1, p.2)

/-! ## The drawing calls of the text primitive -/

/-- The calls `w.font.DrawString(sub-image, x, y, line, w.FG)` that the loop of
`text` makes, in order, each as its x, its y and its line: the loop of
`Window.textLoop` with the drawing left out. -/
def Window.textCalls (rect : Rectangle) : List GoString → Int → Int → Window →
    List (Int × Int × GoString)
  | [], _, _, _ => []
  | line :: rest, i, textX, w =>
    match w.getMutator centerName (Value.bool false) with
    | (Value.bool c, w1) =>
      let textX1 := if c then textX + Int.tdiv (rect.Dx - w1.font.MeasureString line) 2 else textX
      (textX1, rect.Min.Y + i * 8, line) :: Window.textCalls rect rest (i + 1) textX1 w1
    | (Value.int _, _) => []

/-- The drawing calls of `w.text(rect, text)`. -/
def Window.textDraws (w : Window) (rect : Rectangle) (text : GoString) :
    List (Int × Int × GoString) :=
  Window.textCalls rect (splitLines text) 0 rect.Min.X w

/-- A list of `DrawString` calls made one after the other on the sub-image of
`rect` of a buffer; the sub-image shares its pixels with the buffer. -/
def drawCalls (f : PixFont) (clr : Option Color) (rect : Rectangle) :
    List (Int × Int × GoString) → RGBAImage → Option RGBAImage
  | [], buf => some buf
  | (x, y, s) :: rest, buf =>
    match f.DrawString (buf.SubImage rect) x y s clr with
    | none => none
    | some sub => drawCalls f clr rect rest { buf with pix := sub.pix }

/-- Drawing calls that put every line at the same x, line i at
y = top + 8 * i: what the specification says of text that is not centered. -/
def plainCalls (rect : Rectangle) : List GoString → Int → Int → List (Int × Int × GoString)
  | [], _, _ => []
  | line :: rest, i, x => (x, rect.Min.Y + i * 8, line) :: plainCalls rect rest (i + 1) x

/-- Drawing calls that center every line by its own measured width, line i at
x = left + (width - measured width of line i) / 2 and y = top + 8 * i: what
the specification says of centered text. -/
def centeredCalls (rect : Rectangle) (f : PixFont) : List GoString → Int →
    List (Int × Int × GoString)
  | [], _ => []
  | line :: rest, i =>
    (rect.Min.X + Int.tdiv (rect.Dx - f.MeasureString line) 2, rect.Min.Y + i * 8, line) ::
      centeredCalls rect f rest (i + 1)

/-- The call `Char(c)` made a number of times in a row. -/
def Window.CharTimes (w : Window) (c : Int) : Nat → Option Window
  | 0 => some w
  | k + 1 =>
    match w.Char c with
    | none => none
    | some w1 => Window.CharTimes w1 c k

/-! ## Concrete windows used to evaluate the statements -/

/-- A font that draws nothing, for concrete evaluations. -/
def blankFont : PixFont := ⟨fun _ => 0, fun _ => []⟩

/-- A 200 by 100 window at the start of its first frame. -/
def frameWindow : Window := (NewWindow blankFont 200 100).StartFrame

/-- A 200 by 100 window whose frame starts with a press of the primary
button at (100, 6). -/
def clickWindow : Window :=
  (((NewWindow blankFont 200 100).MousePos 100 6).MouseDown 1).StartFrame

/-- The first frame of a 200 by 100 window after `NextWidth(50)`. -/
def narrowWindow : Window := (frameWindow.NextWidth 50).getD frameWindow

/-- A 200 by 100 window after `MousePos(100, 6)`, `MouseDown(1)` and
`Char('\b')`, before its first frame. -/
def backspaceTyped : Window :=
  ((((NewWindow blankFont 200 100).MousePos 100 6).MouseDown 1).Char 8).getD
    (NewWindow blankFont 200 100)

/-- The first frame of a 200 by 100 window after `NextWidth(50)` and
`keep("nextwidth")`. -/
def keptWindow : Window := narrowWindow.keep nextwidthName

/-- A 3 by 20 window at the start of its first frame. -/
def tinyFrame : Window := (NewWindow blankFont 3 20).StartFrame

/-- A font that draws nothing and measures 8 pixels for every byte. -/
def monoFont : PixFont := ⟨fun s => 8 * (s.length : Int), fun _ => []⟩

/-- The first frame of a 200 by 100 window with the font `monoFont`, after
`NextWidth(104)`, `NextHeight(44)` and `Center()`. -/
def centeredWindow : Window :=
  ((((NewWindow monoFont 200 100).StartFrame.NextWidth 104).bind
    fun w => w.NextHeight 44).bind fun w => w.Center).getD (NewWindow monoFont 200 100)

/-! # Verification -/

/-! ## Go integers -/

theorem wrapInt_of_range (x : Int) (h1 : intMin ≤ x) (h2 : x ≤ intMax) : wrapInt x = x := by
  unfold wrapInt
  unfold intMin intMax at *
  omega

theorem isInt_iff (x : Int) : isInt x = true ↔ (intMin ≤ x ∧ x ≤ intMax) := by
  simp [isInt]

/-- The Go sum is the exact sum when the exact sum is an int. -/
theorem addInt_of_range (a b : Int) (h1 : intMin ≤ a + b) (h2 : a + b ≤ intMax) :
    addInt a b = a + b := by
  unfold addInt
  split
  · exact wrapInt_of_range _ h1 h2
  · rfl

/-- Adding a non-negative integer is exact when the sum does not exceed the
largest int. -/
theorem addInt_of_nonneg (a b : Int) (hb : 0 ≤ b) (h : a + b ≤ intMax) :
    addInt a b = a + b := by
  unfold addInt
  split
  · rename_i hc
    simp only [Bool.and_eq_true, isInt_iff] at hc
    exact wrapInt_of_range _ (by omega) h
  · rfl

theorem addInt_zero (a : Int) : addInt a 0 = a := by
  unfold addInt
  split
  · rename_i hc
    simp only [Bool.and_eq_true, isInt_iff] at hc
    rw [Int.add_zero]
    exact wrapInt_of_range _ hc.1.1 hc.1.2
  · exact Int.add_zero a

theorem subInt_of_range (a b : Int) (h1 : intMin ≤ a - b) (h2 : a - b ≤ intMax) :
    subInt a b = a - b := by
  unfold subInt
  split
  · exact wrapInt_of_range _ h1 h2
  · rfl

/-! ## Lemmas on maps -/

theorem mapGet_mapSet_same {K V : Type} [DecidableEq K] (m : List (K × V)) (k : K) (v : V) :
    mapGet (mapSet m k v) k = some v := by
  induction m with
  | nil => simp [mapSet, mapGet]
  | cons e m ih =>
    obtain ⟨k', v'⟩ := e
    by_cases h : k' = k
    · simp [mapSet, mapGet, h]
    · simp [mapSet, mapGet, h, ih]

theorem mapGet_mapSet_other {K V : Type} [DecidableEq K] (m : List (K × V)) (k k0 : K) (v : V)
    (h0 : k0 ≠ k) : mapGet (mapSet m k v) k0 = mapGet m k0 := by
  induction m with
  | nil => simp [mapSet, mapGet, Ne.symm h0]
  | cons e m ih =>
    obtain ⟨k', v'⟩ := e
    by_cases h : k' = k
    · subst h
      simp [mapSet, mapGet, Ne.symm h0]
    · by_cases h1 : k' = k0
      · subst h1
        simp [mapSet, mapGet, h]
      · simp [mapSet, mapGet, h, h1, ih]

theorem mapGet_mapDel_same {K V : Type} [DecidableEq K] (m : List (K × V)) (k : K) :
    mapGet (mapDel m k) k = none := by
  induction m with
  | nil => simp [mapDel, mapGet]
  | cons e m ih =>
    obtain ⟨k', v'⟩ := e
    by_cases h : k' = k
    · simp [mapDel, h, ih]
    · simp [mapDel, mapGet, h, ih]

theorem mapGet_mapDel_other {K V : Type} [DecidableEq K] (m : List (K × V)) (k k0 : K)
    (h0 : k0 ≠ k) : mapGet (mapDel m k) k0 = mapGet m k0 := by
  induction m with
  | nil => simp [mapDel, mapGet]
  | cons e m ih =>
    obtain ⟨k', v'⟩ := e
    by_cases h : k' = k
    · subst h
      simp [mapDel, mapGet, Ne.symm h0, ih]
    · by_cases h1 : k' = k0
      · subst h1
        simp [mapDel, mapGet, h]
      · simp [mapDel, mapGet, h, h1, ih]

/-! ## Hit testing -/

theorem At_eq_Opaque_iff (r : Rectangle) (x y : Int) :
    r.At x y = Opaque ↔ (r.Min.X ≤ x ∧ x < r.Max.X ∧ r.Min.Y ≤ y ∧ y < r.Max.Y) := by
  unfold Rectangle.At Point.In
  by_cases h : (r.Min.X ≤ x ∧ x < r.Max.X ∧ r.Min.Y ≤ y ∧ y < r.Max.Y)
  · obtain ⟨h1, h2, h3, h4⟩ := h
    simp [h1, h2, h3, h4]
  · have : ¬ ((decide (r.Min.X ≤ x) && decide (x < r.Max.X) && decide (r.Min.Y ≤ y) &&
        decide (y < r.Max.Y)) = true) := by
      simpa [and_assoc] using h
    simp only [this, h, iff_false]
    simp [Opaque, Transparent]

theorem Clicked_iff (s : Status) (w : Window) :
    s.Clicked w = true ↔ (w.mouseTrigger.Left = true ∧
      s.rect.Min.X ≤ w.curInput.MouseX ∧ w.curInput.MouseX < s.rect.Max.X ∧
      s.rect.Min.Y ≤ w.curInput.MouseY ∧ w.curInput.MouseY < s.rect.Max.Y) := by
  unfold Status.Clicked
  simp [At_eq_Opaque_iff]

/-- C1: `Clicked` on a status with rectangle R is true exactly when the
press-edge flag of the primary button is set and the active mouse position P
satisfies R.Min.X <= P.x < R.Max.X and R.Min.Y <= P.y < R.Max.Y; hence it is
false for P at or beyond the right or bottom bound, for P before the left or
top bound, and for every empty rectangle. -/
theorem C1_clicked_iff_trigger_and_inside (w : Window) (s : Status) :
    (s.Clicked w = true ↔ (w.mouseTrigger.Left = true ∧
      s.rect.Min.X ≤ w.curInput.MouseX ∧ w.curInput.MouseX < s.rect.Max.X ∧
      s.rect.Min.Y ≤ w.curInput.MouseY ∧ w.curInput.MouseY < s.rect.Max.Y)) ∧
    (s.rect.Max.X ≤ w.curInput.MouseX → s.Clicked w = false) ∧
    (s.rect.Max.Y ≤ w.curInput.MouseY → s.Clicked w = false) ∧
    (w.curInput.MouseX < s.rect.Min.X → s.Clicked w = false) ∧
    (w.curInput.MouseY < s.rect.Min.Y → s.Clicked w = false) ∧
    (s.rect.Empty = true → s.Clicked w = false) := by
  have key := Clicked_iff s w
  refine ⟨key, ?_, ?_, ?_, ?_, ?_⟩
  · intro h
    cases hc : s.Clicked w with
    | false => rfl
    | true => have := key.mp hc; omega
  · intro h
    cases hc : s.Clicked w with
    | false => rfl
    | true => have := key.mp hc; omega
  · intro h
    cases hc : s.Clicked w with
    | false => rfl
    | true => have := key.mp hc; omega
  · intro h
    cases hc : s.Clicked w with
    | false => rfl
    | true => have := key.mp hc; omega
  · intro h
    cases hc : s.Clicked w with
    | false => rfl
    | true =>
      have := key.mp hc
      simp [Rectangle.Empty] at h
      omega



/-- Witness for C1: a press at (100, 6) clicks the rectangle (0,0)-(200,12), and the
same press does not click a rectangle whose right bound is 100 nor an empty one. -/
theorem C1_clicked_iff_trigger_and_inside_witness :
    (Status.mk [] (Rect 0 0 200 12)).Clicked clickWindow = true ∧
    (Status.mk [] (Rect 0 0 100 12)).Clicked clickWindow = false ∧
    (Status.mk [] (Rect 0 0 200 6)).Clicked clickWindow = false ∧
    (Status.mk [] (Rect 101 0 200 12)).Clicked clickWindow = false ∧
    (Status.mk [] (Rect 0 7 200 12)).Clicked clickWindow = false ∧
    (Status.mk [] (Rect 0 0 0 12)).Clicked clickWindow = false :=
  ⟨(C1_clicked_iff_trigger_and_inside clickWindow ⟨[], Rect 0 0 200 12⟩).1.mpr (by decide),
   (C1_clicked_iff_trigger_and_inside clickWindow ⟨[], Rect 0 0 100 12⟩).2.1 (by decide),
   (C1_clicked_iff_trigger_and_inside clickWindow ⟨[], Rect 0 0 200 6⟩).2.2.1 (by decide),
   (C1_clicked_iff_trigger_and_inside clickWindow ⟨[], Rect 101 0 200 12⟩).2.2.2.1 (by decide),
   (C1_clicked_iff_trigger_and_inside clickWindow ⟨[], Rect 0 7 200 12⟩).2.2.2.2.1 (by decide),
   (C1_clicked_iff_trigger_and_inside clickWindow ⟨[], Rect 0 0 0 12⟩).2.2.2.2.2 (by decide)⟩


/-! ## Mutators -/

theorem getMutator_absent (u : Window) (n : GoString) (d : Value) (h : u.mutator? n = none) :
    u.getMutator n d = (d, u) := by
  unfold Window.getMutator
  unfold Window.mutator? at h
  cases hm : u.mutators with
  | none => rfl
  | some m =>
    rw [hm] at h
    simp only at h
    simp [h]

theorem keep_absent (u : Window) (n : GoString) (h : u.mutator? n = none) : u.keep n = u := by
  unfold Window.keep
  unfold Window.mutator? at h
  cases hm : u.mutators with
  | none => rfl
  | some m =>
    rw [hm] at h
    simp only at h
    simp [h]

theorem getMutator_present (u : Window) (m : List (GoString × Mutator)) (n : GoString)
    (d : Value) (e : Mutator) (hm : u.mutators = some m) (he : mapGet m n = some e) :
    u.getMutator n d =
      (e.val, if e.keep then { u with mutators := some (mapSet m n { e with keep := false }) }
        else { u with mutators := some (mapDel m n) }) := by
  unfold Window.getMutator
  rw [hm]
  simp only [he]
  split <;> rfl

/-- C2: after `setMutator(name, v)` the first `getMutator(name, d)` returns v
and removes the entry (every other entry stays), an immediately following
`getMutator(name, d)` returns the default d; and `getMutator` on a name with
no entry returns the default and leaves the window, hence the store,
unchanged. -/
theorem C2_mutator_round_trip (w : Window) (m : List (GoString × Mutator))
    (hm : w.mutators = some m) (name : GoString) (v d : Value) :
    (∃ w1, w.setMutator name v = some w1 ∧
      (w1.getMutator name d).1 = v ∧
      (w1.getMutator name d).2.mutator? name = none ∧
      (∀ n, n ≠ name → (w1.getMutator name d).2.mutator? n = w.mutator? n) ∧
      ((w1.getMutator name d).2.getMutator name d).1 = d) ∧
    (∀ (u : Window) (n : GoString) (d0 : Value), u.mutator? n = none →
      u.getMutator n d0 = (d0, u)) := by
  refine ⟨⟨{ w with mutators := some (mapSet m name ⟨false, v⟩) }, ?_, ?_⟩, getMutator_absent⟩
  · simp [Window.setMutator, hm]
  · have hg := getMutator_present { w with mutators := some (mapSet m name ⟨false, v⟩) }
      (mapSet m name ⟨false, v⟩) name d ⟨false, v⟩ rfl (mapGet_mapSet_same m name ⟨false, v⟩)
    simp only [Bool.false_eq_true, if_false] at hg
    rw [hg]
    have habs : Window.mutator?
        { w with mutators := some (mapDel (mapSet m name ⟨false, v⟩) name) } name = none := by
      simp [Window.mutator?, mapGet_mapDel_same]
    refine ⟨rfl, habs, ?_, ?_⟩
    · intro n hn
      simp [Window.mutator?, hm, mapGet_mapDel_other _ _ _ hn, mapGet_mapSet_other _ _ _ _ hn]
    · rw [getMutator_absent _ _ _ habs]

/-- Witness for C2: on a window at the start of a frame, "w" set to 5 is read once as 5
and then as the default 0. -/
theorem C2_mutator_round_trip_witness :
    ∃ w1, frameWindow.setMutator [119] (Value.int 5) = some w1 ∧
      (w1.getMutator [119] (Value.int 0)).1 = Value.int 5 ∧
      ((w1.getMutator [119] (Value.int 0)).2.getMutator [119] (Value.int 0)).1 = Value.int 0 :=
  match (C2_mutator_round_trip frameWindow [] rfl [119] (Value.int 5) (Value.int 0)).1 with
  | ⟨w1, h1, h2, _, _, h5⟩ => ⟨w1, h1, h2, h5⟩

/-- C3: after `setMutator(name, v)` and `keep(name)`, two successive
`getMutator(name, d)` calls both return v and a third returns the default d;
`keep(name)` on a name with no entry changes nothing. -/
theorem C3_mutator_keep (w : Window) (m : List (GoString × Mutator))
    (hm : w.mutators = some m) (name : GoString) (v d : Value) :
    (∃ w1, w.setMutator name v = some w1 ∧
      ((w1.keep name).getMutator name d).1 = v ∧
      (((w1.keep name).getMutator name d).2.getMutator name d).1 = v ∧
      ((((w1.keep name).getMutator name d).2.getMutator name d).2.getMutator name d).1 = d) ∧
    (∀ (u : Window) (n : GoString), u.mutator? n = none → u.keep n = u) := by
  refine ⟨⟨{ w with mutators := some (mapSet m name ⟨false, v⟩) }, ?_, ?_⟩, keep_absent⟩
  · simp [Window.setMutator, hm]
  · have hk : Window.keep { w with mutators := some (mapSet m name ⟨false, v⟩) } name =
        { w with mutators := some (mapSet (mapSet m name ⟨false, v⟩) name ⟨true, v⟩) } := by
      simp [Window.keep, mapGet_mapSet_same]
    rw [hk]
    have hg1 := getMutator_present
      { w with mutators := some (mapSet (mapSet m name ⟨false, v⟩) name ⟨true, v⟩) }
      _ name d ⟨true, v⟩ rfl (mapGet_mapSet_same _ name (Mutator.mk true v))
    simp only [if_true] at hg1
    rw [hg1]
    have hg2 := getMutator_present
      { w with mutators := some (mapSet (mapSet (mapSet m name ⟨false, v⟩) name ⟨true, v⟩)
        name ⟨false, v⟩) }
      _ name d ⟨false, v⟩ rfl (mapGet_mapSet_same _ name (Mutator.mk false v))
    simp only [Bool.false_eq_true, if_false] at hg2
    refine ⟨rfl, ?_, ?_⟩
    · exact congrArg Prod.fst hg2
    · have h3 : (Window.getMutator
          { w with mutators := some (mapSet (mapSet (mapSet m name ⟨false, v⟩) name ⟨true, v⟩)
            name ⟨false, v⟩) } name d).2.mutator? name = none := by
        rw [hg2]
        simp [Window.mutator?, mapGet_mapDel_same]
      exact congrArg Prod.fst (getMutator_absent _ name d h3)

/-- Witness for C3: on a window at the start of a frame, "w" set to 5 and kept is read
twice as 5 and then as the default 0. -/
theorem C3_mutator_keep_witness :
    ∃ w1, frameWindow.setMutator [119] (Value.int 5) = some w1 ∧
      ((w1.keep [119]).getMutator [119] (Value.int 0)).1 = Value.int 5 ∧
      (((w1.keep [119]).getMutator [119] (Value.int 0)).2.getMutator [119] (Value.int 0)).1
        = Value.int 5 ∧
      ((((w1.keep [119]).getMutator [119] (Value.int 0)).2.getMutator [119]
        (Value.int 0)).2.getMutator [119] (Value.int 0)).1 = Value.int 0 :=
  (C3_mutator_keep frameWindow [] rfl [119] (Value.int 5) (Value.int 0)).1

theorem StartFrame_getMutator (u : Window) (n : GoString) (d : Value) :
    u.StartFrame.getMutator n d = (d, u.StartFrame) :=
  getMutator_absent _ n d (by simp [Window.mutator?, Window.StartFrame, mapGet])

/-- C4: `StartFrame` discards every mutator whatever its keep flag: after
`setMutator(name, v)`, `keep(name)` (the entry is then present with its keep
flag set) and `StartFrame`, `getMutator` returns the default for that name and
for every other name, and the same holds after `StartFrame` on any window. -/
theorem C4_start_frame_discards_mutators (w : Window) (m : List (GoString × Mutator))
    (hm : w.mutators = some m) (name : GoString) (v d : Value) :
    (∃ w1, w.setMutator name v = some w1 ∧
      (w1.keep name).mutator? name = some ⟨true, v⟩ ∧
      ((w1.keep name).StartFrame.getMutator name d).1 = d ∧
      (∀ (n : GoString) (d0 : Value), ((w1.keep name).StartFrame.getMutator n d0).1 = d0)) ∧
    (∀ (u : Window) (n : GoString) (d0 : Value), (u.StartFrame.getMutator n d0).1 = d0) ∧
    (∀ (u : Window), u.StartFrame.mutators = some []) := by
  have hgen : ∀ (u : Window) (n : GoString) (d0 : Value),
      (u.StartFrame.getMutator n d0).1 = d0 :=
    fun u n d0 => congrArg Prod.fst (StartFrame_getMutator u n d0)
  refine ⟨⟨{ w with mutators := some (mapSet m name ⟨false, v⟩) }, ?_, ?_, hgen _ _ _,
    fun n d0 => hgen _ n d0⟩, hgen, fun u => rfl⟩
  · simp [Window.setMutator, hm]
  · simp [Window.keep, Window.mutator?, mapGet_mapSet_same]

/-- Witness for C4: "w" set to 5 and kept in the first frame reads as the default 0
after the next `StartFrame`. -/
theorem C4_start_frame_discards_mutators_witness :
    ∃ w1, frameWindow.setMutator [119] (Value.int 5) = some w1 ∧
      (w1.keep [119]).mutator? [119] = some ⟨true, Value.int 5⟩ ∧
      ((w1.keep [119]).StartFrame.getMutator [119] (Value.int 0)).1 = Value.int 0 :=
  match (C4_start_frame_discards_mutators frameWindow [] rfl [119] (Value.int 5)
    (Value.int 0)).1 with
  | ⟨w1, h1, h2, h3, _⟩ => ⟨w1, h1, h2, h3⟩

/-! ## Frame start -/

theorem StartFrame_trigger (w : Window) :
    w.StartFrame.mouseTrigger.Left = true ↔
      (w.curInput.Mouse.Left = false ∧ w.input.Mouse.Left = true) := by
  simp only [Window.StartFrame]
  cases w.curInput.Mouse.Left <;> cases w.input.Mouse.Left <;> simp

theorem StartFrame_iterate_mouse (n : Nat) (w : Window) :
    (Nat.iterate Window.StartFrame n w).input.Mouse = w.input.Mouse ∧
    (0 < n → (Nat.iterate Window.StartFrame n w).curInput.Mouse = w.input.Mouse) := by
  induction n generalizing w with
  | zero => simp
  | succ n ih =>
    rw [Function.iterate_succ_apply]
    have h := ih w.StartFrame
    have h0 : w.StartFrame.input.Mouse = w.input.Mouse := rfl
    refine ⟨h.1.trans h0, fun _ => ?_⟩
    cases n with
    | zero => rfl
    | succ k => exact (h.2 (Nat.succ_pos k)).trans h0

/-- C5: after `StartFrame` the primary-button trigger is true exactly when
the button was not held in the previous active snapshot and is held in the
pending snapshot.  Hence it is true on the first frame after `MouseDown(1)`
when the button was not held before, false on every later frame while the
button stays held, false on any frame whose previous active snapshot had the
button held, and false on every frame while the button is released. -/
theorem C5_press_edge_trigger (w : Window) :
    (w.StartFrame.mouseTrigger.Left = true ↔
      (w.curInput.Mouse.Left = false ∧ w.input.Mouse.Left = true)) ∧
    (w.curInput.Mouse.Left = false → (w.MouseDown 1).StartFrame.mouseTrigger.Left = true) ∧
    (∀ n : Nat, (Nat.iterate Window.StartFrame (n + 1)
      (w.MouseDown 1).StartFrame).mouseTrigger.Left = false) ∧
    (w.curInput.Mouse.Left = true → w.StartFrame.mouseTrigger.Left = false) ∧
    (w.input.Mouse.Left = false → w.StartFrame.mouseTrigger.Left = false) ∧
    (∀ n : Nat, (Nat.iterate Window.StartFrame (n + 1)
      (w.MouseUp 1)).mouseTrigger.Left = false) := by
  have hf : ∀ u : Window, ¬ (u.curInput.Mouse.Left = false ∧ u.input.Mouse.Left = true) →
      u.StartFrame.mouseTrigger.Left = false := by
    intro u hu
    cases hc : u.StartFrame.mouseTrigger.Left with
    | false => rfl
    | true => exact absurd ((StartFrame_trigger u).mp hc) hu
  refine ⟨StartFrame_trigger w, ?_, ?_, ?_, ?_, ?_⟩
  · intro h
    exact (StartFrame_trigger _).mpr ⟨by simpa [Window.MouseDown] using h,
      by simp [Window.MouseDown]⟩
  · intro n
    rw [Function.iterate_succ_apply']
    apply hf
    rintro ⟨h1, h2⟩
    cases n with
    | zero =>
      simp only [Function.iterate_zero, id_eq] at h1 h2
      have e1 : (w.MouseDown 1).StartFrame.curInput.Mouse.Left = true := by
        simp [Window.StartFrame, Window.MouseDown]
      rw [e1] at h1
      exact Bool.noConfusion h1
    | succ k =>
      have h := StartFrame_iterate_mouse (k + 1) (w.MouseDown 1).StartFrame
      rw [h.1] at h2
      rw [h.2 (Nat.succ_pos k)] at h1
      rw [h2] at h1
      exact Bool.noConfusion h1
  · intro h
    apply hf
    rintro ⟨h1, _⟩
    rw [h] at h1
    exact Bool.noConfusion h1
  · intro h
    apply hf
    rintro ⟨_, h2⟩
    rw [h] at h2
    exact Bool.noConfusion h2
  · intro n
    rw [Function.iterate_succ_apply']
    apply hf
    rintro ⟨_, h2⟩
    have h := (StartFrame_iterate_mouse n (w.MouseUp 1)).1
    rw [h] at h2
    simp [Window.MouseUp] at h2

/-- Witness for C5: on a new window, the frame after `MouseDown(1)` has the trigger, a
frame whose active snapshot holds the button has not, and a frame with the
button released has not. -/
theorem C5_press_edge_trigger_witness :
    ((NewWindow blankFont 200 100).MouseDown 1).StartFrame.mouseTrigger.Left = true ∧
    clickWindow.StartFrame.mouseTrigger.Left = false ∧
    frameWindow.StartFrame.mouseTrigger.Left = false :=
  ⟨(C5_press_edge_trigger (NewWindow blankFont 200 100)).2.1 rfl,
   (C5_press_edge_trigger clickWindow).2.2.2.1 rfl,
   (C5_press_edge_trigger frameWindow).2.2.2.2.1 rfl⟩

theorem getD_append_empties (h : List (List (Int × Bool))) (a : Nat) :
    (h ++ [[], []]).getD a [] = h.getD a [] := by
  induction h generalizing a with
  | nil =>
    match a with
    | 0 => rfl
    | 1 => rfl
    | _ + 2 => rfl
  | cons x h ih =>
    cases a with
    | zero => rfl
    | succ a => simpa using ih a

theorem StartFrame_deref (w : Window) (r : Option Nat) : w.StartFrame.deref r = w.deref r := by
  cases r with
  | none => rfl
  | some a => exact getD_append_empties w.heap a

/-- C6: after `StartFrame` the active input record equals the pending record
as it was before the call (the same maps of held keys, key triggers and typed
characters with their contents as before the call, the same mouse position
and button states); the pending trigger map and character map are empty; and
the pending held keys, mouse position and button states are unchanged. -/
theorem C6_start_frame_snapshot (w : Window) :
    w.StartFrame.curInput = w.input ∧
    w.StartFrame.deref w.StartFrame.curInput.Keys = w.deref w.input.Keys ∧
    w.StartFrame.deref w.StartFrame.curInput.KeyTriggers = w.deref w.input.KeyTriggers ∧
    w.StartFrame.deref w.StartFrame.curInput.Chars = w.deref w.input.Chars ∧
    w.StartFrame.deref w.StartFrame.input.KeyTriggers = [] ∧
    w.StartFrame.deref w.StartFrame.input.Chars = [] ∧
    w.StartFrame.input.Keys = w.input.Keys ∧
    w.StartFrame.deref w.StartFrame.input.Keys = w.deref w.input.Keys ∧
    w.StartFrame.input.MouseX = w.input.MouseX ∧
    w.StartFrame.input.MouseY = w.input.MouseY ∧
    w.StartFrame.input.Mouse = w.input.Mouse := by
  have hc : w.StartFrame.curInput = w.input := rfl
  have hk : w.StartFrame.input.Keys = w.input.Keys := rfl
  refine ⟨hc, ?_, ?_, ?_, ?_, ?_, hk, ?_, rfl, rfl, rfl⟩
  · rw [hc]; exact StartFrame_deref w _
  · rw [hc]; exact StartFrame_deref w _
  · rw [hc]; exact StartFrame_deref w _
  · show (w.heap ++ [[], []]).getD w.heap.length [] = []
    rw [getD_append_empties]
    exact List.getD_eq_default _ _ (Nat.le_refl _)
  · show (w.heap ++ [[], []]).getD (w.heap.length + 1) [] = []
    rw [getD_append_empties]
    exact List.getD_eq_default _ _ (Nat.le_succ _)
  · rw [hk]; exact StartFrame_deref w _

/-- C7 (divergence): the map of held keys is shared by the pending and the
active input after `StartFrame`, so `KeyDown` in the middle of a frame changes
the active snapshot: on a new 200 by 100 window, after `StartFrame` the active
held-key map is empty, and after `KeyDown(65)` it holds 65. -/
theorem C7_key_down_changes_active_keys :
    frameWindow.deref frameWindow.curInput.Keys = [] ∧
    ∃ w1, frameWindow.KeyDown 65 = some w1 ∧ w1.deref w1.curInput.Keys = [(65, true)] :=
  ⟨rfl, _, rfl, rfl⟩

/-! ## Layout -/

theorem getMutator_fields (w : Window) (n : GoString) (d : Value) :
    (w.getMutator n d).2 = { w with mutators := (w.getMutator n d).2.mutators } := by
  unfold Window.getMutator
  split
  · rfl
  · split
    · split <;> rfl
    · rfl

theorem getMutator_val (w : Window) (n : GoString) (d : Value) :
    (w.getMutator n d).1 = match w.mutator? n with
      | some e => e.val
      | none => d := by
  unfold Window.getMutator Window.mutator?
  cases hm : w.mutators with
  | none => rfl
  | some m =>
    simp only
    cases he : mapGet m n with
    | none => rfl
    | some e => simp only; split <;> rfl

theorem getMutator_mutator?_other (w : Window) (n : GoString) (d : Value) (n0 : GoString)
    (h : n0 ≠ n) : (w.getMutator n d).2.mutator? n0 = w.mutator? n0 := by
  cases hm : w.mutators with
  | none => rw [getMutator_absent w n d (by simp [Window.mutator?, hm])]
  | some m =>
    cases he : mapGet m n with
    | none => rw [getMutator_absent w n d (by simp [Window.mutator?, hm, he])]
    | some e =>
      rw [getMutator_present w m n d e hm he]
      cases e.keep
      · simp [Window.mutator?, hm, mapGet_mapDel_other _ _ _ h]
      · simp [Window.mutator?, hm, mapGet_mapSet_other _ _ _ _ h]

theorem getMutator_mutator?_same (w : Window) (n : GoString) (d : Value) :
    (w.getMutator n d).2.mutator? n = match w.mutator? n with
      | some e => if e.keep then some { e with keep := false } else none
      | none => none := by
  cases hm : w.mutators with
  | none =>
    have h0 : w.mutator? n = none := by simp [Window.mutator?, hm]
    rw [getMutator_absent w n d h0, h0]
  | some m =>
    cases he : mapGet m n with
    | none =>
      have h0 : w.mutator? n = none := by simp [Window.mutator?, hm, he]
      rw [getMutator_absent w n d h0, h0]
    | some e =>
      have h0 : w.mutator? n = some e := by simp [Window.mutator?, hm, he]
      rw [getMutator_present w m n d e hm he, h0]
      cases hk : e.keep
      · simp [Window.mutator?, mapGet_mapDel_same, hk]
      · simp [Window.mutator?, mapGet_mapSet_same, hk]

theorem typedInt_getMutator_same (w : Window) (n : GoString) (d : Value)
    (h : typedInt (w.mutator? n) = true) : typedInt ((w.getMutator n d).2.mutator? n) = true := by
  rw [getMutator_mutator?_same]
  cases he : w.mutator? n with
  | none => rfl
  | some e =>
    rw [he] at h
    simp only
    split
    · simpa [typedInt] using h
    · rfl

theorem typedBool_getMutator_same (w : Window) (n : GoString) (d : Value)
    (h : typedBool (w.mutator? n) = true) :
    typedBool ((w.getMutator n d).2.mutator? n) = true := by
  rw [getMutator_mutator?_same]
  cases he : w.mutator? n with
  | none => rfl
  | some e =>
    rw [he] at h
    simp only
    split
    · simpa [typedBool] using h
    · rfl

theorem peek_width (w : Window) (d : Value) (hw : typedInt (w.mutator? nextwidthName) = true)
    (hd : d = Value.int (subInt w.curWidth w.curX)) :
    (match w.mutator? nextwidthName with
      | some e => e.val
      | none => d) = Value.int w.resolvedWidth := by
  unfold Window.resolvedWidth
  cases he : w.mutator? nextwidthName with
  | none => simp [hd]
  | some e =>
    obtain ⟨k, v⟩ := e
    rw [he] at hw
    cases v with
    | int n => rfl
    | bool b => simp [typedInt] at hw

theorem peek_height (w : Window) (height : Int)
    (hh : typedInt (w.mutator? nextheightName) = true) :
    (match w.mutator? nextheightName with
      | some e => e.val
      | none => Value.int height) = Value.int (w.resolvedHeight height) := by
  unfold Window.resolvedHeight
  cases he : w.mutator? nextheightName with
  | none => rfl
  | some e =>
    obtain ⟨k, v⟩ := e
    rw [he] at hh
    cases v with
    | int n => rfl
    | bool b => simp [typedInt] at hh

theorem getBox_spec (w : Window) (height : Int)
    (hw : typedInt (w.mutator? nextwidthName) = true)
    (hh : typedInt (w.mutator? nextheightName) = true) :
    w.getBox height = some
      (Rect w.curX w.curY (addInt w.curX w.resolvedWidth)
          (addInt w.curY (w.resolvedHeight height)),
        { w with
          mutators := w.afterGetBox height
          nextX := addInt w.curX w.resolvedWidth
          lastY := w.curY
          curX := 0
          curY := if addInt w.curY (w.resolvedHeight height) < w.nextY then w.nextY
            else addInt w.curY (w.resolvedHeight height) }) := by
  unfold Window.getBox Window.afterGetBox
  have h1v := getMutator_val w nextwidthName (Value.int (subInt w.curWidth w.curX))
  rw [peek_width w _ hw rfl] at h1v
  have h1f := getMutator_fields w nextwidthName (Value.int (subInt w.curWidth w.curX))
  have h1o := getMutator_mutator?_other w nextwidthName (Value.int (subInt w.curWidth w.curX))
    nextheightName (by decide)
  generalize w.getMutator nextwidthName (Value.int (subInt w.curWidth w.curX)) = p1 at *
  obtain ⟨a, w1⟩ := p1
  simp only at h1v h1f h1o
  subst h1v
  simp only
  have h2v := getMutator_val w1 nextheightName (Value.int height)
  rw [h1o, peek_height w height hh] at h2v
  have h2f := getMutator_fields w1 nextheightName (Value.int height)
  generalize w1.getMutator nextheightName (Value.int height) = p2 at *
  obtain ⟨b, w2⟩ := p2
  simp only at h2v h2f
  subst h2v
  simp only
  generalize w2.mutators = mm2 at h2f ⊢
  subst h2f
  generalize w1.mutators = mm1 at h1f
  subst h1f
  split <;> rfl

/-! ## Drawing never fails once the colours are set -/

theorem Set_some (p : RGBAImage) (x y : Int) (c : Color) :
    ∃ q, p.Set x y (some c) = some q := by
  unfold RGBAImage.Set
  split
  · exact ⟨_, rfl⟩
  · exact ⟨_, rfl⟩

theorem drawUniform_some (dst : RGBAImage) (r : Rectangle) (c : Color) (op : Op) :
    ∃ q, drawUniform dst r (some c) op = some q := by
  unfold drawUniform
  split
  · exact ⟨_, rfl⟩
  · exact ⟨_, rfl⟩

theorem foldl_some {α β : Type} (g : Option β → α → Option β)
    (hg : ∀ b a, ∃ b', g (some b) a = some b') (l : List α) (b : β) :
    ∃ b', l.foldl g (some b) = some b' := by
  induction l generalizing b with
  | nil => exact ⟨b, rfl⟩
  | cons a l ih =>
    obtain ⟨b1, h1⟩ := hg b a
    rw [List.foldl_cons, h1]
    exact ih b1

theorem DrawString_some (f : PixFont) (dr : RGBAImage) (x y : Int) (s : GoString) (c : Color) :
    ∃ q, f.DrawString dr x y s (some c) = some q := by
  unfold PixFont.DrawString
  apply foldl_some
  intro b a
  exact Set_some b _ _ c

theorem boxPixel_some (w : Window) (rect : Rectangle) (buf : RGBAImage) (x y : Int)
    (fg bg : Color) (hF : w.FG = some fg) (hB : w.BG = some bg) :
    ∃ q, w.boxPixel rect buf x y = some q := by
  unfold Window.boxPixel
  rw [hF, hB]
  split
  · exact Set_some _ _ _ _
  · exact Set_some _ _ _ _

theorem box_spec (w : Window) (rect : Rectangle) (hF : w.FG.isSome = true)
    (hB : w.BG.isSome = true) : ∃ buf, w.box rect = some { w with buffer := buf } := by
  obtain ⟨fg, hfg⟩ := Option.isSome_iff_exists.mp hF
  obtain ⟨bg, hbg⟩ := Option.isSome_iff_exists.mp hB
  unfold Window.box
  obtain ⟨b0, h0⟩ := drawUniform_some w.buffer rect bg Op.Over
  rw [hbg, h0]
  simp only
  obtain ⟨b1, h1⟩ := foldl_some (fun acc (x : Nat) =>
      (List.range rect.Dy.toNat).foldl (fun acc (y : Nat) =>
        acc.bind fun buf => w.boxPixel rect buf (x : Int) (y : Int)) acc)
    (by
      intro b a
      apply foldl_some
      intro b2 a2
      exact boxPixel_some w rect b2 _ _ fg bg hfg hbg)
    (List.range rect.Dx.toNat) b0
  rw [h1]
  exact ⟨b1, rfl⟩

theorem textLoop_spec (rect : Rectangle) (lines : List GoString) :
    ∀ (i textX : Int) (w : Window), w.FG.isSome = true →
      typedBool (w.mutator? centerName) = true →
      ∃ w', Window.textLoop rect lines i textX w = some w' ∧
        w' = { w with buffer := w'.buffer, mutators := w'.mutators } ∧
        (∀ n, n ≠ centerName → w'.mutator? n = w.mutator? n) ∧
        typedBool (w'.mutator? centerName) = true := by
  induction lines with
  | nil =>
    intro i textX w _ hc
    exact ⟨w, rfl, rfl, fun _ _ => rfl, hc⟩
  | cons line rest ih =>
    intro i textX w hF hc
    obtain ⟨fg, hfg⟩ := Option.isSome_iff_exists.mp hF
    unfold Window.textLoop
    have h1v := getMutator_val w centerName (Value.bool false)
    have h1f := getMutator_fields w centerName (Value.bool false)
    have h1o := getMutator_mutator?_other w centerName (Value.bool false)
    have h1s := typedBool_getMutator_same w centerName (Value.bool false) hc
    generalize w.getMutator centerName (Value.bool false) = p1 at *
    obtain ⟨a, w1⟩ := p1
    simp only at h1v h1f h1o h1s
    have ha : ∃ c, a = Value.bool c := by
      rw [h1v]
      cases he : w.mutator? centerName with
      | none => exact ⟨false, rfl⟩
      | some e =>
        rw [he] at hc
        obtain ⟨k, v⟩ := e
        cases v with
        | int n => simp [typedBool] at hc
        | bool b => exact ⟨b, rfl⟩
    obtain ⟨c, rfl⟩ := ha
    simp only
    have hF1 : w1.FG = some fg := by rw [h1f]; exact hfg
    have hdraw : ∃ sub, w1.font.DrawString (w1.buffer.SubImage rect)
        (if c = true then textX + Int.tdiv (rect.Dx - w1.font.MeasureString line) 2 else textX)
        (rect.Min.Y + i * 8) line w1.FG = some sub := by
      rw [hF1]
      exact DrawString_some _ _ _ _ _ _
    obtain ⟨sub, hsub⟩ := hdraw
    rw [hsub]
    simp only
    obtain ⟨w', hw', hf', ho', hs'⟩ := ih (i + 1)
      (if c = true then textX + Int.tdiv (rect.Dx - w1.font.MeasureString line) 2 else textX)
      { w1 with buffer := { w1.buffer with pix := sub.pix } }
      (by show w1.FG.isSome = true; rw [hF1]; rfl) h1s
    refine ⟨w', hw', ?_, ?_, hs'⟩
    · rw [hf', h1f]
    · intro n hn
      rw [ho' n hn]
      exact h1o n hn

theorem text_spec (w : Window) (rect : Rectangle) (t : GoString) (hF : w.FG.isSome = true)
    (hc : typedBool (w.mutator? centerName) = true) :
    ∃ w', w.text rect t = some w' ∧
      w' = { w with buffer := w'.buffer, mutators := w'.mutators } ∧
      (∀ n, n ≠ centerName → w'.mutator? n = w.mutator? n) ∧
      typedBool (w'.mutator? centerName) = true :=
  textLoop_spec rect (splitLines t) 0 rect.Min.X w hF hc

/-! ## The frame invariant is kept by the widget calls -/

theorem InFrame_iff (w : Window) :
    w.InFrame = true ↔ (typedInt (w.mutator? nextwidthName) = true ∧
      typedInt (w.mutator? nextheightName) = true ∧
      typedBool (w.mutator? centerName) = true ∧ w.FG.isSome = true ∧ w.BG.isSome = true) := by
  simp [Window.InFrame, Bool.and_eq_true, and_assoc]

theorem StartFrame_InFrame (w : Window) : w.StartFrame.InFrame = true := rfl

theorem getBox_eq (w : Window) (height : Int) (h : w.InFrame = true) :
    w.getBox height = some (w.boxRect height, w.afterBox height) := by
  obtain ⟨h1, h2, _⟩ := (InFrame_iff w).mp h
  exact getBox_spec w height h1 h2

theorem afterBox_mutator?_other (w : Window) (height : Int) (n : GoString)
    (h1 : n ≠ nextwidthName) (h2 : n ≠ nextheightName) :
    (w.afterBox height).mutator? n = w.mutator? n := by
  have e : (w.afterBox height).mutator? n =
      ((w.getMutator nextwidthName (Value.int (subInt w.curWidth w.curX))).2.getMutator
        nextheightName (Value.int height)).2.mutator? n := rfl
  rw [e, getMutator_mutator?_other _ _ _ _ h2, getMutator_mutator?_other _ _ _ _ h1]

theorem afterBox_mutator?_absent (w : Window) (height : Int) (n : GoString)
    (h : w.mutator? n = none) : (w.afterBox height).mutator? n = none := by
  have e : (w.afterBox height).mutator? n =
      ((w.getMutator nextwidthName (Value.int (subInt w.curWidth w.curX))).2.getMutator
        nextheightName (Value.int height)).2.mutator? n := rfl
  rw [e]
  have step : ∀ (u : Window) (k : GoString) (d : Value), u.mutator? n = none →
      (u.getMutator k d).2.mutator? n = none := by
    intro u k d hu
    by_cases hk : n = k
    · subst hk
      rw [getMutator_mutator?_same, hu]
    · rw [getMutator_mutator?_other _ _ _ _ hk, hu]
  exact step _ _ _ (step _ _ _ h)

theorem afterBox_InFrame (w : Window) (height : Int) (h : w.InFrame = true) :
    (w.afterBox height).InFrame = true := by
  obtain ⟨h1, h2, h3, h4, h5⟩ := (InFrame_iff w).mp h
  refine (InFrame_iff _).mpr ⟨?_, ?_, ?_, h4, h5⟩
  · have e : (w.afterBox height).mutator? nextwidthName =
        ((w.getMutator nextwidthName (Value.int (subInt w.curWidth w.curX))).2.getMutator
          nextheightName (Value.int height)).2.mutator? nextwidthName := rfl
    rw [e, getMutator_mutator?_other _ _ _ _ (by decide)]
    exact typedInt_getMutator_same _ _ _ h1
  · have e : (w.afterBox height).mutator? nextheightName =
        ((w.getMutator nextwidthName (Value.int (subInt w.curWidth w.curX))).2.getMutator
          nextheightName (Value.int height)).2.mutator? nextheightName := rfl
    rw [e]
    apply typedInt_getMutator_same
    rw [getMutator_mutator?_other _ _ _ _ (by decide)]
    exact h2
  · rw [afterBox_mutator?_other w height centerName (by decide) (by decide)]
    exact h3

theorem Text_spec (w : Window) (t : GoString) (h : w.InFrame = true) :
    ∃ w', w.Text t = some w' ∧
      w' = { w.afterBox 12 with buffer := w'.buffer, mutators := w'.mutators } ∧
      (∀ n, n ≠ centerName → w'.mutator? n = (w.afterBox 12).mutator? n) ∧
      w'.InFrame = true := by
  have hb := afterBox_InFrame w 12 h
  obtain ⟨h1, h2, h3, h4, h5⟩ := (InFrame_iff _).mp hb
  have hdraw : ∃ buf, drawUniform (w.afterBox 12).buffer (w.boxRect 12) (w.afterBox 12).BG
      Op.Over = some buf := by
    obtain ⟨bg, hbg⟩ := Option.isSome_iff_exists.mp h5
    rw [hbg]
    exact drawUniform_some _ _ _ _
  obtain ⟨buf, hbuf⟩ := hdraw
  unfold Window.Text
  rw [getBox_eq w 12 h]
  simp only
  rw [hbuf]
  simp only
  obtain ⟨w', hw', hf', ho', hs'⟩ := text_spec { w.afterBox 12 with buffer := buf }
    ((w.boxRect 12).Inset 2) t h4 h3
  have hfg : w'.FG = (w.afterBox 12).FG := by
      have e := congrArg Window.FG hf'
      exact e
  have hbg : w'.BG = (w.afterBox 12).BG := by
      have e := congrArg Window.BG hf'
      exact e
  refine ⟨w', hw', hf', ho', ?_⟩
  refine (InFrame_iff _).mpr ⟨?_, ?_, hs', ?_, ?_⟩
  · rw [ho' _ (by decide)]; exact h1
  · rw [ho' _ (by decide)]; exact h2
  · rw [hfg]; exact h4
  · rw [hbg]; exact h5

theorem Button_spec (w : Window) (id t : GoString) (h : w.InFrame = true) :
    ∃ w', w.Button id t = some (⟨id, w.boxRect 12⟩, w') ∧
      w' = { w.afterBox 12 with
        buffer := w'.buffer
        mutators := w'.mutators
        focusID := if (Status.mk id (w.boxRect 12)).Clicked w then id else w.focusID } ∧
      (∀ n, n ≠ centerName → w'.mutator? n = (w.afterBox 12).mutator? n) ∧
      w'.InFrame = true := by
  have hb := afterBox_InFrame w 12 h
  obtain ⟨h1, h2, h3, h4, h5⟩ := (InFrame_iff _).mp hb
  unfold Window.Button
  rw [getBox_eq w 12 h]
  simp only
  obtain ⟨buf, hbuf⟩ := box_spec (w.afterBox 12) (w.boxRect 12) h4 h5
  rw [hbuf]
  simp only
  have hcl : (Window.statusID { w.afterBox 12 with buffer := buf } (w.boxRect 12) id).Clicked
      { w.afterBox 12 with buffer := buf } = (Status.mk id (w.boxRect 12)).Clicked w := rfl
  rw [hcl]
  cases hc : (Status.mk id (w.boxRect 12)).Clicked w with
  | false =>
    obtain ⟨w', hw', hf', ho', hs'⟩ := text_spec { w.afterBox 12 with buffer := buf }
      ((w.boxRect 12).Inset 2) t h4 h3
    have hfg : w'.FG = (w.afterBox 12).FG := by
      have e := congrArg Window.FG hf'
      exact e
    have hbg : w'.BG = (w.afterBox 12).BG := by
      have e := congrArg Window.BG hf'
      exact e
    simp only [Bool.false_eq_true, if_false]
    rw [hw']
    refine ⟨w', rfl, hf', ho', ?_⟩
    refine (InFrame_iff _).mpr ⟨?_, ?_, hs', ?_, ?_⟩
    · rw [ho' _ (by decide)]; exact h1
    · rw [ho' _ (by decide)]; exact h2
    · rw [hfg]; exact h4
    · rw [hbg]; exact h5
  | true =>
    obtain ⟨w', hw', hf', ho', hs'⟩ := text_spec
      { ({ w.afterBox 12 with buffer := buf } : Window) with focusID := id }
      ((w.boxRect 12).Inset 2) t h4 h3
    have hfg : w'.FG = (w.afterBox 12).FG := by
      have e := congrArg Window.FG hf'
      exact e
    have hbg : w'.BG = (w.afterBox 12).BG := by
      have e := congrArg Window.BG hf'
      exact e
    simp only [if_true]
    rw [hw']
    refine ⟨w', rfl, hf', ho', ?_⟩
    refine (InFrame_iff _).mpr ⟨?_, ?_, hs', ?_, ?_⟩
    · rw [ho' _ (by decide)]; exact h1
    · rw [ho' _ (by decide)]; exact h2
    · rw [hfg]; exact h4
    · rw [hbg]; exact h5

/-! ## Flow layout -/

theorem Rect_of_le (x0 y0 x1 y1 : Int) (hx : x0 ≤ x1) (hy : y0 ≤ y1) :
    Rect x0 y0 x1 y1 = ⟨⟨x0, y0⟩, ⟨x1, y1⟩⟩ := by
  unfold Rect
  have h1 : ¬ x0 > x1 := by omega
  have h2 : ¬ y0 > y1 := by omega
  simp [h1, h2]

theorem Rect_Y_of_le (x0 y0 x1 y1 : Int) (hy : y0 ≤ y1) :
    (Rect x0 y0 x1 y1).Min.Y = y0 ∧ (Rect x0 y0 x1 y1).Max.Y = y1 := by
  unfold Rect
  have h2 : ¬ y0 > y1 := by omega
  simp [h2]

theorem resolvedHeight_absent (w : Window) (height : Int)
    (h : w.mutator? nextheightName = none) : w.resolvedHeight height = height := by
  unfold Window.resolvedHeight
  rw [h]

theorem boxRect_of_fields (w : Window) (height x y cw : Int) (hx : w.curX = x)
    (hy : w.curY = y) (hcw : w.curWidth = cw) (m1 : w.mutator? nextwidthName = none)
    (m2 : w.mutator? nextheightName = none) :
    w.boxRect height = Rect x y (addInt x (subInt cw x)) (addInt y height) := by
  unfold Window.boxRect Window.resolvedWidth Window.resolvedHeight
  rw [m1, m2, hx, hy, hcw]

theorem afterBox_curY_of_fields (w : Window) (height y ny : Int) (hy : w.curY = y)
    (hn : w.nextY = ny) (m2 : w.mutator? nextheightName = none) :
    (w.afterBox height).curY = if addInt y height < ny then ny else addInt y height := by
  have e : (w.afterBox height).curY =
      if addInt w.curY (w.resolvedHeight height) < w.nextY then w.nextY
        else addInt w.curY (w.resolvedHeight height) := rfl
  rw [e, resolvedHeight_absent w height m2, hy, hn]

/-- C8 (counterexample): in the first frame of a 200 by 100 window,
`NextHeight(9223372036854775802)` and `Text("")` leave a window inside a
frame, with no override pending, whose cursor y is 9223372036854775802.  Of
two `Text` calls made there, the first has the bottom edge `curY + 12` wrap
around: its rectangle spans y from -9223372036854775802 to
9223372036854775802 and the cursor returns to y 0.  The second rectangle is
(0,0)-(200,12): its top is above the bottom of the first, and the point (0,0)
lies in both. -/
theorem C8_text_flow_overflow_counterexample :
    ∃ w0 w1 r1 wa w2 r2 wb,
      frameWindow.NextHeight 9223372036854775802 = some w0 ∧ w0.Text [] = some w1 ∧
      w1.InFrame = true ∧ w1.mutator? nextwidthName = none ∧
      w1.mutator? nextheightName = none ∧
      w1.getBox 12 = some (r1, wa) ∧ w1.Text [] = some w2 ∧
      w2.getBox 12 = some (r2, wb) ∧
      r1 = ⟨⟨0, -9223372036854775802⟩, ⟨200, 9223372036854775802⟩⟩ ∧
      r2 = ⟨⟨0, 0⟩, ⟨200, 12⟩⟩ ∧
      r2.Min.Y < r1.Max.Y ∧
      (Point.mk 0 0).In r1 = true ∧ (Point.mk 0 0).In r2 = true := by
  have h0 : frameWindow.NextHeight 9223372036854775802 =
      some { frameWindow with
        mutators := some [(nextheightName, ⟨false, Value.int 9223372036854775802⟩)] } := rfl
  obtain ⟨w1, hT1, hf1, ho1, hin1⟩ := Text_spec
    { frameWindow with
      mutators := some [(nextheightName, ⟨false, Value.int 9223372036854775802⟩)] } [] rfl
  obtain ⟨w2, hT2, hf2, ho2, hin2⟩ := Text_spec w1 [] hin1
  have x1 : w1.curX = 0 := by
    have e := congrArg Window.curX hf1
    exact e
  have y1 : w1.curY = 9223372036854775802 := by
    have e := congrArg Window.curY hf1
    have e2 : (Window.afterBox { frameWindow with
        mutators := some [(nextheightName, ⟨false, Value.int 9223372036854775802⟩)] }
        12).curY = 9223372036854775802 := by decide
    exact e.trans e2
  have n1 : w1.nextY = 0 := by
    have e := congrArg Window.nextY hf1
    exact e
  have c1 : w1.curWidth = 200 := by
    have e := congrArg Window.curWidth hf1
    exact e
  have m1 : w1.mutator? nextwidthName = none := by
    rw [ho1 _ (by decide)]
    rfl
  have m2 : w1.mutator? nextheightName = none := by
    rw [ho1 _ (by decide)]
    rfl
  have x2 : w2.curX = 0 := by
    have e := congrArg Window.curX hf2
    exact e
  have y2 : w2.curY = 0 := by
    have e := congrArg Window.curY hf2
    have e2 := afterBox_curY_of_fields w1 12 9223372036854775802 0 y1 n1 m2
    rw [e, e2]
    decide
  have c2 : w2.curWidth = 200 := by
    have e := congrArg Window.curWidth hf2
    exact e.trans c1
  have m3 : w2.mutator? nextwidthName = none := by
    rw [ho2 _ (by decide)]
    exact afterBox_mutator?_absent w1 12 _ m1
  have m4 : w2.mutator? nextheightName = none := by
    rw [ho2 _ (by decide)]
    exact afterBox_mutator?_absent w1 12 _ m2
  have hr1 : w1.boxRect 12 = ⟨⟨0, -9223372036854775802⟩, ⟨200, 9223372036854775802⟩⟩ :=
    (boxRect_of_fields w1 12 _ _ _ x1 y1 c1 m1 m2).trans (by decide)
  have hr2 : w2.boxRect 12 = ⟨⟨0, 0⟩, ⟨200, 12⟩⟩ :=
    (boxRect_of_fields w2 12 _ _ _ x2 y2 c2 m3 m4).trans (by decide)
  refine ⟨_, w1, w1.boxRect 12, w1.afterBox 12, w2, w2.boxRect 12, w2.afterBox 12,
    h0, hT1, hin1, m1, m2, getBox_eq w1 12 hin1, hT2, getBox_eq w2 12 hin2, hr1, hr2,
    ?_, ?_, ?_⟩
  · rw [hr1, hr2]
    decide
  · rw [hr1]
    decide
  · rw [hr2]
    decide

/-- C8 (amended): inside a frame with no height override pending (a pending
width override changes nothing here), in which the cursor y plus 24 and the
recorded bottom of the previous line plus 12 do not exceed the largest int,
two `Text` calls with no `SameLine` between them both succeed, and the
rectangles they obtain from `getBox(12)` are such that the top of the second
is at or below the bottom of the first and strictly below the top of the
first, so no point lies in both rectangles. -/
theorem C8_text_flow_below (w : Window) (t1 t2 : GoString) (hin : w.InFrame = true)
    (hh : w.mutator? nextheightName = none)
    (hy : w.curY + 24 ≤ intMax) (hn : w.nextY + 12 ≤ intMax) :
    ∃ r1 wa w1 r2 wb w2,
      w.getBox 12 = some (r1, wa) ∧ w.Text t1 = some w1 ∧
      w1.getBox 12 = some (r2, wb) ∧ w1.Text t2 = some w2 ∧
      r1.Max.Y ≤ r2.Min.Y ∧ r1.Min.Y < r2.Min.Y ∧
      (∀ p : Point, ¬ (p.In r1 = true ∧ p.In r2 = true)) := by
  obtain ⟨w1, hT1, hf1, ho1, hin1⟩ := Text_spec w t1 hin
  obtain ⟨w2, hT2, _, _, _⟩ := Text_spec w1 t2 hin1
  have hh1 : w1.mutator? nextheightName = none := by
    rw [ho1 _ (by decide)]
    exact afterBox_mutator?_absent w 12 _ hh
  have ha1 : addInt w.curY 12 = w.curY + 12 :=
    addInt_of_nonneg _ _ (by decide) (by omega)
  have hY1 : w1.curY = if w.curY + 12 < w.nextY then w.nextY else w.curY + 12 := by
    have e := congrArg Window.curY hf1
    have e2 := afterBox_curY_of_fields w 12 _ _ rfl rfl hh
    rw [ha1] at e2
    exact e.trans e2
  have hle : w.curY + 12 ≤ w1.curY := by
    rw [hY1]
    split <;> omega
  have hle2 : w1.curY + 12 ≤ intMax := by
    rw [hY1]
    split <;> omega
  have ha2 : addInt w1.curY 12 = w1.curY + 12 :=
    addInt_of_nonneg _ _ (by decide) hle2
  have hr1 := Rect_Y_of_le w.curX w.curY (addInt w.curX w.resolvedWidth) (w.curY + 12)
    (by omega)
  have hr2 := Rect_Y_of_le w1.curX w1.curY (addInt w1.curX w1.resolvedWidth) (w1.curY + 12)
    (by omega)
  have hb1 : w.boxRect 12 =
      Rect w.curX w.curY (addInt w.curX w.resolvedWidth) (w.curY + 12) := by
    unfold Window.boxRect
    rw [resolvedHeight_absent w 12 hh, ha1]
  have hb2 : w1.boxRect 12 =
      Rect w1.curX w1.curY (addInt w1.curX w1.resolvedWidth) (w1.curY + 12) := by
    unfold Window.boxRect
    rw [resolvedHeight_absent w1 12 hh1, ha2]
  refine ⟨w.boxRect 12, w.afterBox 12, w1, w1.boxRect 12, w1.afterBox 12, w2,
    getBox_eq w 12 hin, hT1, getBox_eq w1 12 hin1, hT2, ?_, ?_, ?_⟩
  · rw [hb1, hb2, hr1.2, hr2.1]
    exact hle
  · rw [hb1, hb2, hr1.1, hr2.1]
    omega
  · rintro p ⟨hp1, hp2⟩
    rw [hb1] at hp1
    rw [hb2] at hp2
    simp only [Point.In, Bool.and_eq_true, decide_eq_true_eq] at hp1 hp2
    rw [hr1.2] at hp1
    rw [hr2.1] at hp2
    omega

/-- Witness for C8: the first frame of a 200 by 100 window is a frame with no override
pending and the cursor at y 0, so two `Text` calls there are placed one below the
other. -/
theorem C8_text_flow_below_witness :
    ∃ r1 wa w1 r2 wb w2,
      frameWindow.getBox 12 = some (r1, wa) ∧ frameWindow.Text [104, 105] = some w1 ∧
      w1.getBox 12 = some (r2, wb) ∧ w1.Text [104, 111] = some w2 ∧
      r1.Max.Y ≤ r2.Min.Y ∧ r1.Min.Y < r2.Min.Y ∧
      (∀ p : Point, ¬ (p.In r1 = true ∧ p.In r2 = true)) :=
  C8_text_flow_below frameWindow [104, 105] [104, 111] rfl rfl (by decide) (by decide)

theorem resolvedWidth_congr (u v : Window) (h1 : u.mutator? nextwidthName = v.mutator? nextwidthName)
    (h2 : u.curWidth = v.curWidth) (h3 : u.curX = v.curX) :
    u.resolvedWidth = v.resolvedWidth := by
  unfold Window.resolvedWidth
  rw [h1, h2, h3]

theorem resolvedHeight_congr (u v : Window) (height : Int)
    (h1 : u.mutator? nextheightName = v.mutator? nextheightName) :
    u.resolvedHeight height = v.resolvedHeight height := by
  unfold Window.resolvedHeight
  rw [h1]

theorem SameLine_InFrame (w : Window) (h : w.InFrame = true) : w.SameLine.InFrame = true := by
  have e : w.SameLine.InFrame = w.InFrame := by
    unfold Window.SameLine
    split <;> rfl
  rw [e]
  exact h

/-- C9 (counterexample): in the first frame of a 200 by 100 window,
`NextWidth(300)`, `Button("a", "X")`, `SameLine()`, `Button("b", "Y")` gives
button a the non-negative width 300 and right edge 300, and button b the left
edge 200. -/
theorem C9_same_line_counterexample :
    ∃ w0 sa wa sb wb,
      frameWindow.NextWidth 300 = some w0 ∧
      w0.Button [97] [88] = some (sa, wa) ∧
      wa.SameLine.Button [98] [89] = some (sb, wb) ∧
      sa.rect.Dx = 300 ∧ sa.rect.Max.X = 300 ∧ sb.rect.Min.X = 200 ∧
      sb.rect.Min.X ≠ sa.rect.Max.X := by
  have h0 : frameWindow.NextWidth 300 =
      some { frameWindow with mutators := some [(nextwidthName, ⟨false, Value.int 300⟩)] } := rfl
  obtain ⟨wa, hBa, hfa, hoa, hia⟩ := Button_spec
    { frameWindow with mutators := some [(nextwidthName, ⟨false, Value.int 300⟩)] } [97] [88] rfl
  obtain ⟨wb, hBb, _, _, _⟩ := Button_spec wa.SameLine [98] [89] (SameLine_InFrame wa hia)
  have e1 : wa.SameLine.curX = 300 := by
    have e : wa.SameLine.curX = wa.nextX := by
      unfold Window.SameLine
      split <;> rfl
    rw [e, congrArg Window.nextX hfa]
    rfl
  have e2 : wa.SameLine.curY = 0 := by
    have e : wa.SameLine.curY = wa.lastY := by
      unfold Window.SameLine
      split <;> rfl
    rw [e, congrArg Window.lastY hfa]
    rfl
  have e3 : wa.SameLine.curWidth = 200 := by
    have e : wa.SameLine.curWidth = wa.curWidth := by
      unfold Window.SameLine
      split <;> rfl
    rw [e, congrArg Window.curWidth hfa]
    rfl
  have m1 : wa.SameLine.mutator? nextwidthName = none := by
    have e : wa.SameLine.mutator? nextwidthName = wa.mutator? nextwidthName := by
      unfold Window.SameLine
      split <;> rfl
    rw [e, hoa _ (by decide)]
    rfl
  have m2 : wa.SameLine.mutator? nextheightName = none := by
    have e : wa.SameLine.mutator? nextheightName = wa.mutator? nextheightName := by
      unfold Window.SameLine
      split <;> rfl
    rw [e, hoa _ (by decide)]
    rfl
  have hrb : wa.SameLine.boxRect 12 = ⟨⟨200, 0⟩, ⟨300, 12⟩⟩ := by
    unfold Window.boxRect Window.resolvedWidth Window.resolvedHeight
    rw [m1, m2, e1, e2, e3]
    rfl
  refine ⟨_, _, wa, _, wb, h0, hBa, hBb, ?_, ?_, ?_, ?_⟩
  · rfl
  · rfl
  · show (wa.SameLine.boxRect 12).Min.X = 200
    rw [hrb]
  · show (wa.SameLine.boxRect 12).Min.X ≠ 300
    rw [hrb]
    decide

theorem SameLine_eq (w : Window) :
    w.SameLine = { w with
      nextY := if w.nextY < w.curY then w.curY else w.nextY
      curY := w.lastY
      curX := w.nextX } := by
  unfold Window.SameLine
  split <;> rfl

theorem afterBox_mutator?_height (w : Window) (height : Int) :
    (w.afterBox height).mutator? nextheightName =
      match w.mutator? nextheightName with
      | some e => if e.keep then some { e with keep := false } else none
      | none => none := by
  have e : (w.afterBox height).mutator? nextheightName =
      ((w.getMutator nextwidthName (Value.int (subInt w.curWidth w.curX))).2.getMutator
        nextheightName (Value.int height)).2.mutator? nextheightName := rfl
  rw [e, getMutator_mutator?_same, getMutator_mutator?_other _ _ _ _ (by decide)]

theorem second_height_nonneg (w : Window) (hha : 0 ≤ w.resolvedHeight 12) :
    0 ≤ (w.afterBox 12).SameLine.resolvedHeight 12 := by
  have e : (w.afterBox 12).SameLine.mutator? nextheightName =
      (w.afterBox 12).mutator? nextheightName := by
    rw [SameLine_eq]
    rfl
  unfold Window.resolvedHeight at hha ⊢
  rw [e, afterBox_mutator?_height]
  cases he : w.mutator? nextheightName with
  | none => simp
  | some en =>
    obtain ⟨k, v⟩ := en
    rw [he] at hha
    cases k <;> cases v <;> simp_all

/-- C9 (amended): inside a frame in which the width and the height resolved
for the first button and the width resolved for the second button are
non-negative, and in which no edge of the two rectangles overflows (the
current x plus the first width, that sum plus the second width, and the
current y plus either resolved height do not exceed the largest int),
`Button(a, x)`, `SameLine()`, `Button(b, y)` both succeed, the two
rectangles have the same top y-coordinate, and the left edge of the second
equals the right edge of the first.  Here `w.afterBox 12` is the window that
the `getBox(12)` call of the first button leaves, so the hypotheses on
`(w.afterBox 12).SameLine` speak of the width and the height resolved for the
second button, as the last two conjuncts restate; the height resolved for the
second button is then non-negative as well. -/
theorem C9_same_line_nonnegative_sizes (w : Window) (a x b y : GoString)
    (hin : w.InFrame = true)
    (hwa : 0 ≤ w.resolvedWidth) (hha : 0 ≤ w.resolvedHeight 12)
    (hwb : 0 ≤ (w.afterBox 12).SameLine.resolvedWidth)
    (hxa : w.curX + w.resolvedWidth ≤ intMax)
    (hya : w.curY + w.resolvedHeight 12 ≤ intMax)
    (hxb : w.curX + w.resolvedWidth + (w.afterBox 12).SameLine.resolvedWidth ≤ intMax)
    (hyb : w.curY + (w.afterBox 12).SameLine.resolvedHeight 12 ≤ intMax) :
    ∃ sa wa sb wb,
      w.Button a x = some (sa, wa) ∧ wa.SameLine.Button b y = some (sb, wb) ∧
      sb.rect.Min.Y = sa.rect.Min.Y ∧ sb.rect.Min.X = sa.rect.Max.X ∧
      wa.SameLine.resolvedWidth = (w.afterBox 12).SameLine.resolvedWidth ∧
      wa.SameLine.resolvedHeight 12 = (w.afterBox 12).SameLine.resolvedHeight 12 := by
  have hhb := second_height_nonneg w hha
  obtain ⟨wa, hBa, hfa, hoa, hia⟩ := Button_spec w a x hin
  obtain ⟨wb, hBb, _, _, _⟩ := Button_spec wa.SameLine b y (SameLine_InFrame wa hia)
  have hax : addInt w.curX w.resolvedWidth = w.curX + w.resolvedWidth :=
    addInt_of_nonneg _ _ hwa hxa
  have hay : addInt w.curY (w.resolvedHeight 12) = w.curY + w.resolvedHeight 12 :=
    addInt_of_nonneg _ _ hha hya
  have hX : wa.SameLine.curX = w.curX + w.resolvedWidth := by
    rw [SameLine_eq]
    have e : wa.nextX = addInt w.curX w.resolvedWidth := by
      have e0 := congrArg Window.nextX hfa
      exact e0
    exact e.trans hax
  have hY : wa.SameLine.curY = w.curY := by
    rw [SameLine_eq]
    have e := congrArg Window.lastY hfa
    exact e
  have hmw : wa.SameLine.mutator? nextwidthName =
      (w.afterBox 12).SameLine.mutator? nextwidthName := by
    rw [SameLine_eq, SameLine_eq]
    exact hoa _ (by decide)
  have hmh : wa.SameLine.mutator? nextheightName =
      (w.afterBox 12).SameLine.mutator? nextheightName := by
    rw [SameLine_eq, SameLine_eq]
    exact hoa _ (by decide)
  have hW : wa.SameLine.resolvedWidth = (w.afterBox 12).SameLine.resolvedWidth := by
    apply resolvedWidth_congr _ _ hmw
    · rw [SameLine_eq, SameLine_eq]
      have e := congrArg Window.curWidth hfa
      exact e
    · rw [hX, SameLine_eq]
      exact hax.symm
  have hH : wa.SameLine.resolvedHeight 12 = (w.afterBox 12).SameLine.resolvedHeight 12 :=
    resolvedHeight_congr _ _ 12 hmh
  have hbx : addInt wa.SameLine.curX wa.SameLine.resolvedWidth =
      wa.SameLine.curX + wa.SameLine.resolvedWidth := by
    apply addInt_of_nonneg
    · rw [hW]
      exact hwb
    · rw [hX, hW]
      exact hxb
  have hby : addInt wa.SameLine.curY (wa.SameLine.resolvedHeight 12) =
      wa.SameLine.curY + wa.SameLine.resolvedHeight 12 := by
    apply addInt_of_nonneg
    · rw [hH]
      exact hhb
    · rw [hY, hH]
      exact hyb
  have ra := Rect_of_le w.curX w.curY (w.curX + w.resolvedWidth)
    (w.curY + w.resolvedHeight 12) (by omega) (by omega)
  have rb := Rect_of_le wa.SameLine.curX wa.SameLine.curY
    (wa.SameLine.curX + wa.SameLine.resolvedWidth)
    (wa.SameLine.curY + wa.SameLine.resolvedHeight 12) (by omega) (by omega)
  have hra : w.boxRect 12 = ⟨⟨w.curX, w.curY⟩,
      ⟨w.curX + w.resolvedWidth, w.curY + w.resolvedHeight 12⟩⟩ := by
    unfold Window.boxRect
    rw [hax, hay, ra]
  have hrb : wa.SameLine.boxRect 12 = ⟨⟨wa.SameLine.curX, wa.SameLine.curY⟩,
      ⟨wa.SameLine.curX + wa.SameLine.resolvedWidth,
        wa.SameLine.curY + wa.SameLine.resolvedHeight 12⟩⟩ := by
    unfold Window.boxRect
    rw [hbx, hby, rb]
  refine ⟨_, wa, _, wb, hBa, hBb, ?_, ?_, hW, hH⟩
  · show (wa.SameLine.boxRect 12).Min.Y = (w.boxRect 12).Min.Y
    rw [hra, hrb]
    exact hY
  · show (wa.SameLine.boxRect 12).Min.X = (w.boxRect 12).Max.X
    rw [hra, hrb]
    exact hX

/-- Witness for C9: after `NextWidth(50)` in the first frame of a 200 by 100 window the
three sizes are non-negative (50 and 12, then 150) and the edges are 50, 200 and 12. -/
theorem C9_same_line_nonnegative_sizes_witness :
    ∃ sa wa sb wb,
      narrowWindow.Button [97] [88] = some (sa, wa) ∧
      wa.SameLine.Button [98] [89] = some (sb, wb) ∧
      sb.rect.Min.Y = sa.rect.Min.Y ∧ sb.rect.Min.X = sa.rect.Max.X ∧
      wa.SameLine.resolvedWidth = (narrowWindow.afterBox 12).SameLine.resolvedWidth ∧
      wa.SameLine.resolvedHeight 12 =
        (narrowWindow.afterBox 12).SameLine.resolvedHeight 12 :=
  C9_same_line_nonnegative_sizes narrowWindow [97] [88] [98] [89] rfl (by decide) (by decide)
    (by decide) (by decide) (by decide) (by decide) (by decide)

/-! ## Focus -/

/-- C10: when a press-edge is active and the active mouse position lies in
the rectangle that `Button(b1, t)` receives from `getBox(12)`, the call
succeeds and sets the focus to b1 (its status is focused); afterwards, for
every identifier b2 other than b1, `Button(b2, t2)` succeeds and, when it is
not itself clicked, its status is not focused, and a later `Button(b1, t3)`
succeeds with a focused status whether or not it is clicked. -/
theorem C10_focus_transfer (w : Window) (b1 t : GoString) (r : Rectangle) (wg : Window)
    (hin : w.InFrame = true) (htrig : w.mouseTrigger.Left = true)
    (hr : w.getBox 12 = some (r, wg))
    (hp : (Point.mk w.curInput.MouseX w.curInput.MouseY).In r = true) :
    ∃ s1 w1, w.Button b1 t = some (s1, w1) ∧ s1.rect = r ∧ s1.Clicked w1 = true ∧
      w1.focusID = b1 ∧ s1.Focused w1 = true ∧
      ∀ b2 t2 : GoString, b2 ≠ b1 →
        ∃ s2 w2, w1.Button b2 t2 = some (s2, w2) ∧
          (s2.Clicked w2 = false →
            s2.Focused w2 = false ∧
            ∀ t3 : GoString, ∃ s3 w3, w2.Button b1 t3 = some (s3, w3) ∧
              s3.Focused w3 = true) := by
  obtain ⟨w1, hB1, hf1, _, hi1⟩ := Button_spec w b1 t hin
  have hrr : r = w.boxRect 12 := by
    have e := getBox_eq w 12 hin
    rw [hr] at e
    injection e with e
    exact congrArg Prod.fst e
  have hc1 : (Status.mk b1 (w.boxRect 12)).Clicked w = true := by
    rw [← hrr]
    have hp' := hp
    simp only [Point.In, Bool.and_eq_true, decide_eq_true_eq] at hp'
    exact (Clicked_iff _ _).mpr ⟨htrig, hp'.1.1.1, hp'.1.1.2, hp'.1.2, hp'.2⟩
  have hfoc1 : w1.focusID = b1 := by
    have e := congrArg Window.focusID hf1
    simp only [hc1, if_true] at e
    exact e
  have hcl1 : (Status.mk b1 (w.boxRect 12)).Clicked w1 = true := by
    have e1 := congrArg Window.curInput hf1
    have e2 := congrArg Window.mouseTrigger hf1
    have : (Status.mk b1 (w.boxRect 12)).Clicked w1 = (Status.mk b1 (w.boxRect 12)).Clicked w := by
      unfold Status.Clicked
      rw [e1, e2]
      rfl
    rw [this]
    exact hc1
  refine ⟨_, w1, hB1, hrr.symm, hcl1, hfoc1, by simp [Status.Focused, hfoc1], ?_⟩
  intro b2 t2 hne
  obtain ⟨w2, hB2, hf2, _, hi2⟩ := Button_spec w1 b2 t2 hi1
  refine ⟨_, w2, hB2, ?_⟩
  intro hnc
  have hcl2 : (Status.mk b2 (w1.boxRect 12)).Clicked w1 = false := by
    have e1 := congrArg Window.curInput hf2
    have e2 := congrArg Window.mouseTrigger hf2
    have : (Status.mk b2 (w1.boxRect 12)).Clicked w2 = (Status.mk b2 (w1.boxRect 12)).Clicked w1 := by
      unfold Status.Clicked
      rw [e1, e2]
      rfl
    rw [← this]
    exact hnc
  have hfoc2 : w2.focusID = b1 := by
    have e := congrArg Window.focusID hf2
    simp only [hcl2, Bool.false_eq_true, if_false] at e
    exact e.trans hfoc1
  refine ⟨by simp [Status.Focused, hfoc2, Ne.symm hne], ?_⟩
  intro t3
  obtain ⟨w3, hB3, hf3, _, _⟩ := Button_spec w2 b1 t3 hi2
  refine ⟨_, w3, hB3, ?_⟩
  have hfoc3 : w3.focusID = b1 := by
    have e := congrArg Window.focusID hf3
    rw [e]
    show (if _ then b1 else w2.focusID) = b1
    split
    · rfl
    · exact hfoc2
  simp [Status.Focused, hfoc3]

/-- Witness for C10: the frame that starts with a press at (100, 6) on a 200 by 100
window gives the first button the rectangle (0,0)-(200,12), which holds the
mouse position. -/
theorem C10_focus_transfer_witness :
    ∃ s1 w1, clickWindow.Button [98, 49] [79, 75] = some (s1, w1) ∧
      s1.rect = Rect 0 0 200 12 ∧ s1.Clicked w1 = true ∧
      w1.focusID = [98, 49] ∧ s1.Focused w1 = true ∧
      ∀ b2 t2 : GoString, b2 ≠ [98, 49] →
        ∃ s2 w2, w1.Button b2 t2 = some (s2, w2) ∧
          (s2.Clicked w2 = false →
            s2.Focused w2 = false ∧
            ∀ t3 : GoString, ∃ s3 w3, w2.Button [98, 49] t3 = some (s3, w3) ∧
              s3.Focused w3 = true) :=
  C10_focus_transfer clickWindow [98, 49] [79, 75] (Rect 0 0 200 12) _ rfl rfl rfl (by decide)

/-! ## What the input calls leave alone -/

theorem heapAssign_other (h h1 : List (List (Int × Bool))) (r : Option Nat) (k : Int)
    (v : Bool) (hs : heapAssign h r k v = some h1) (a : Nat) (ha : r ≠ some a) :
    h1.getD a [] = h.getD a [] := by
  unfold heapAssign at hs
  cases r with
  | none => simp at hs
  | some b =>
    simp only at hs
    split at hs
    · injection hs with hs
      subst hs
      have hne : b ≠ a := fun e => ha (by rw [e])
      simp [List.getD, List.getElem?_set_ne hne]
    · simp at hs

/-- The mouse calls leave the active input record and every map alone. -/
theorem mouse_calls_keep_active (w : Window) (x y button : Int) :
    (w.MousePos x y).curInput = w.curInput ∧ (w.MousePos x y).heap = w.heap ∧
    (w.MouseDown button).curInput = w.curInput ∧ (w.MouseDown button).heap = w.heap ∧
    (w.MouseUp button).curInput = w.curInput ∧ (w.MouseUp button).heap = w.heap := by
  refine ⟨rfl, rfl, ?_, ?_, ?_, ?_⟩
  · unfold Window.MouseDown; split <;> rfl
  · unfold Window.MouseDown; split <;> rfl
  · unfold Window.MouseUp; split <;> rfl
  · unfold Window.MouseUp; split <;> rfl

/-- The key and character calls leave the active input record alone and
write only to the maps of the pending record: `KeyDown` to its `Keys` and
`KeyTriggers` maps, `KeyUp` to its `Keys` map, `Char` to its `Chars` map. -/
theorem key_calls_write_pending_maps (w w1 : Window) (k : Int) :
    (w.KeyDown k = some w1 → w1.curInput = w.curInput ∧
      ∀ a, w.input.Keys ≠ some a → w.input.KeyTriggers ≠ some a →
        w1.heap.getD a [] = w.heap.getD a []) ∧
    (w.KeyUp k = some w1 → w1.curInput = w.curInput ∧
      ∀ a, w.input.Keys ≠ some a → w1.heap.getD a [] = w.heap.getD a []) ∧
    (w.Char k = some w1 → w1.curInput = w.curInput ∧
      ∀ a, w.input.Chars ≠ some a → w1.heap.getD a [] = w.heap.getD a []) := by
  refine ⟨?_, ?_, ?_⟩
  · intro h
    unfold Window.KeyDown at h
    cases h1 : heapAssign w.heap w.input.Keys k true with
    | none => simp [h1] at h
    | some ha =>
      cases h2 : heapAssign ha w.input.KeyTriggers k true with
      | none => simp [h1, h2] at h
      | some hb =>
        simp only [h1, h2] at h
        injection h with h
        subst h
        refine ⟨rfl, fun a n1 n2 => ?_⟩
        exact (heapAssign_other _ _ _ _ _ h2 a n2).trans (heapAssign_other _ _ _ _ _ h1 a n1)
  · intro h
    unfold Window.KeyUp at h
    cases h1 : heapAssign w.heap w.input.Keys k false with
    | none => simp [h1] at h
    | some ha =>
      simp only [h1] at h
      injection h with h
      subst h
      exact ⟨rfl, fun a n1 => heapAssign_other _ _ _ _ _ h1 a n1⟩
  · intro h
    unfold Window.Char at h
    cases h1 : heapAssign w.heap w.input.Chars k true with
    | none => simp [h1] at h
    | some ha =>
      simp only [h1] at h
      injection h with h
      subst h
      exact ⟨rfl, fun a n1 => heapAssign_other _ _ _ _ _ h1 a n1⟩

/-- After `StartFrame` the active and the pending record share the map of held
keys, while the trigger and character maps of the pending record are new. -/
theorem StartFrame_shares_keys (w : Window) :
    w.StartFrame.curInput.Keys = w.StartFrame.input.Keys ∧
    w.StartFrame.input.KeyTriggers = some w.heap.length ∧
    w.StartFrame.input.Chars = some (w.heap.length + 1) :=
  ⟨rfl, rfl, rfl⟩

/-! ## The frame invariant is kept by the remaining calls -/

theorem setMutator_mutator? (w w1 : Window) (n : GoString) (v : Value)
    (h : w.setMutator n v = some w1) (n0 : GoString) :
    w1.mutator? n0 = if n0 = n then some ⟨false, v⟩ else w.mutator? n0 := by
  unfold Window.setMutator at h
  cases hm : w.mutators with
  | none => simp [hm] at h
  | some m =>
    simp only [hm] at h
    injection h with h
    subst h
    by_cases e : n0 = n
    · subst e
      simp [Window.mutator?, mapGet_mapSet_same]
    · simp [Window.mutator?, hm, e, mapGet_mapSet_other _ _ _ _ e]

theorem setMutator_fields (w w1 : Window) (n : GoString) (v : Value)
    (h : w.setMutator n v = some w1) : w1 = { w with mutators := w1.mutators } := by
  unfold Window.setMutator at h
  cases hm : w.mutators with
  | none => simp [hm] at h
  | some m =>
    simp only [hm] at h
    injection h with h
    subst h
    rfl

theorem NextWidth_InFrame (w w1 : Window) (width : Int) (h : w.NextWidth width = some w1)
    (hin : w.InFrame = true) : w1.InFrame = true := by
  obtain ⟨_, h2, h3, h4, h5⟩ := (InFrame_iff w).mp hin
  have hm := setMutator_mutator? w w1 _ _ h
  have hf := setMutator_fields w w1 _ _ h
  refine (InFrame_iff _).mpr ⟨?_, ?_, ?_, ?_, ?_⟩
  · rw [hm]; rfl
  · rw [hm, if_neg (by decide)]; exact h2
  · rw [hm, if_neg (by decide)]; exact h3
  · rw [hf]; exact h4
  · rw [hf]; exact h5

theorem NextHeight_InFrame (w w1 : Window) (height : Int)
    (h : w.NextHeight height = some w1) (hin : w.InFrame = true) : w1.InFrame = true := by
  obtain ⟨h1, _, h3, h4, h5⟩ := (InFrame_iff w).mp hin
  have hm := setMutator_mutator? w w1 _ _ h
  have hf := setMutator_fields w w1 _ _ h
  refine (InFrame_iff _).mpr ⟨?_, ?_, ?_, ?_, ?_⟩
  · rw [hm, if_neg (by decide)]; exact h1
  · rw [hm]; rfl
  · rw [hm, if_neg (by decide)]; exact h3
  · rw [hf]; exact h4
  · rw [hf]; exact h5

theorem Center_InFrame (w w1 : Window) (h : w.Center = some w1) (hin : w.InFrame = true) :
    w1.InFrame = true := by
  obtain ⟨h1, h2, _, h4, h5⟩ := (InFrame_iff w).mp hin
  have hm := setMutator_mutator? w w1 _ _ h
  have hf := setMutator_fields w w1 _ _ h
  refine (InFrame_iff _).mpr ⟨?_, ?_, ?_, ?_, ?_⟩
  · rw [hm, if_neg (by decide)]; exact h1
  · rw [hm, if_neg (by decide)]; exact h2
  · rw [hm]; rfl
  · rw [hf]; exact h4
  · rw [hf]; exact h5

theorem Box_spec (w : Window) (h : w.InFrame = true) :
    ∃ w', w.Box = some (⟨[], w.boxRect 12⟩, w') ∧
      w' = { w.afterBox 12 with buffer := w'.buffer } ∧ w'.InFrame = true := by
  have hb := afterBox_InFrame w 12 h
  obtain ⟨_, _, _, h4, h5⟩ := (InFrame_iff _).mp hb
  unfold Window.Box
  rw [getBox_eq w 12 h]
  simp only
  obtain ⟨buf, hbuf⟩ := box_spec (w.afterBox 12) (w.boxRect 12) h4 h5
  rw [hbuf]
  exact ⟨_, rfl, rfl, hb⟩

theorem input_calls_InFrame (w : Window) (hin : w.InFrame = true) (x y k : Int) :
    (w.MousePos x y).InFrame = true ∧ (w.MouseDown k).InFrame = true ∧
    (w.MouseUp k).InFrame = true ∧
    (∀ w1, w.KeyDown k = some w1 → w1.InFrame = true) ∧
    (∀ w1, w.KeyUp k = some w1 → w1.InFrame = true) ∧
    (∀ w1, w.Char k = some w1 → w1.InFrame = true) := by
  refine ⟨hin, ?_, ?_, ?_, ?_, ?_⟩
  · unfold Window.MouseDown; split <;> exact hin
  · unfold Window.MouseUp; split <;> exact hin
  · intro w1 h
    unfold Window.KeyDown at h
    split at h
    · simp at h
    · split at h
      · simp at h
      · injection h with h
        subst h
        exact hin
  · intro w1 h
    unfold Window.KeyUp at h
    split at h
    · simp at h
    · injection h with h
      subst h
      exact hin
  · intro w1 h
    unfold Window.Char at h
    split at h
    · simp at h
    · injection h with h
      subst h
      exact hin

/-- The height of the first button matters as well: in the first frame of a
200 by 100 window, `NextHeight(-5)`, `Button("a", "X")`, `SameLine()`,
`Button("b", "Y")` gives button a the top -5 and button b the top 0. -/
theorem same_line_negative_height :
    ∃ w0 sa wa sb wb,
      frameWindow.NextHeight (-5) = some w0 ∧
      w0.Button [97] [88] = some (sa, wa) ∧
      wa.SameLine.Button [98] [89] = some (sb, wb) ∧
      sa.rect.Dx = 200 ∧ sa.rect.Min.Y = -5 ∧ sb.rect.Min.Y = 0 := by
  have h0 : frameWindow.NextHeight (-5) =
      some { frameWindow with mutators := some [(nextheightName, ⟨false, Value.int (-5)⟩)] } :=
    rfl
  obtain ⟨wa, hBa, hfa, hoa, hia⟩ := Button_spec
    { frameWindow with mutators := some [(nextheightName, ⟨false, Value.int (-5)⟩)] }
    [97] [88] rfl
  obtain ⟨wb, hBb, _, _, _⟩ := Button_spec wa.SameLine [98] [89] (SameLine_InFrame wa hia)
  have e1 : wa.SameLine.curX = 200 := by
    rw [SameLine_eq]
    have e := congrArg Window.nextX hfa
    exact e
  have e2 : wa.SameLine.curY = 0 := by
    rw [SameLine_eq]
    have e := congrArg Window.lastY hfa
    exact e
  have e3 : wa.SameLine.curWidth = 200 := by
    rw [SameLine_eq]
    have e := congrArg Window.curWidth hfa
    exact e
  have m1 : wa.SameLine.mutator? nextwidthName = none := by
    rw [SameLine_eq]
    exact hoa _ (by decide)
  have m2 : wa.SameLine.mutator? nextheightName = none := by
    rw [SameLine_eq]
    exact hoa _ (by decide)
  have hrb : wa.SameLine.boxRect 12 = ⟨⟨200, 0⟩, ⟨200, 12⟩⟩ := by
    unfold Window.boxRect Window.resolvedWidth Window.resolvedHeight
    rw [m1, m2, e1, e2, e3]
    rfl
  refine ⟨_, _, wa, _, wb, h0, hBa, hBb, ?_, ?_, ?_⟩
  · rfl
  · rfl
  · show (wa.SameLine.boxRect 12).Min.Y = 0
    rw [hrb]

/-! ## What a widget call can change, whether or not it fails -/

theorem getBox_fields (w : Window) (height : Int) (r : Rectangle) (w' : Window)
    (hg : w.getBox height = some (r, w')) :
    w' = { w with
      mutators := w'.mutators, nextX := w'.nextX, lastY := w'.lastY
      curX := w'.curX, curY := w'.curY } := by
  unfold Window.getBox at hg
  have h1f := getMutator_fields w nextwidthName (Value.int (subInt w.curWidth w.curX))
  generalize w.getMutator nextwidthName (Value.int (subInt w.curWidth w.curX)) = p1 at *
  obtain ⟨a, w1⟩ := p1
  cases a with
  | bool b => simp at hg
  | int width =>
    simp only at hg h1f
    have h2f := getMutator_fields w1 nextheightName (Value.int height)
    generalize w1.getMutator nextheightName (Value.int height) = p2 at *
    obtain ⟨b, w2⟩ := p2
    cases b with
    | bool b => simp at hg
    | int ht =>
      simp only at hg h2f
      generalize w2.mutators = mm2 at h2f
      subst h2f
      generalize w1.mutators = mm1 at h1f
      subst h1f
      injection hg with hg
      injection hg with _ hw
      subst hw
      split <;> rfl

theorem box_fields (w : Window) (rect : Rectangle) (w' : Window) (hb : w.box rect = some w') :
    w' = { w with buffer := w'.buffer } := by
  unfold Window.box at hb
  split at hb
  · simp at hb
  · split at hb
    · simp at hb
    · injection hb with hb
      subst hb
      rfl

theorem textLoop_fields (rect : Rectangle) (lines : List GoString) :
    ∀ (i textX : Int) (w w' : Window), Window.textLoop rect lines i textX w = some w' →
      w' = { w with buffer := w'.buffer, mutators := w'.mutators } := by
  induction lines with
  | nil =>
    intro i textX w w' h
    simp only [Window.textLoop] at h
    injection h with h
    subst h
    rfl
  | cons line rest ih =>
    intro i textX w w' h
    unfold Window.textLoop at h
    have h1f := getMutator_fields w centerName (Value.bool false)
    generalize w.getMutator centerName (Value.bool false) = p1 at *
    obtain ⟨a, w1⟩ := p1
    cases a with
    | int n => simp at h
    | bool c =>
      simp only at h h1f
      split at h
      · simp at h
      · have e := ih _ _ _ _ h
        rw [e]
        generalize w1.mutators = mm1 at h1f
        subst h1f
        rfl

theorem text_fields (w : Window) (rect : Rectangle) (t : GoString) (w' : Window)
    (h : w.text rect t = some w') :
    w' = { w with buffer := w'.buffer, mutators := w'.mutators } :=
  textLoop_fields rect (splitLines t) 0 rect.Min.X w w' h

theorem Clicked_congr (s : Status) (u v : Window) (h1 : u.curInput = v.curInput)
    (h2 : u.mouseTrigger = v.mouseTrigger) : s.Clicked u = s.Clicked v := by
  unfold Status.Clicked
  rw [h1, h2]

theorem Button_effect (w : Window) (id t : GoString) (s : Status) (w' : Window)
    (h : w.Button id t = some (s, w')) :
    s.id = id ∧ w'.curInput = w.curInput ∧ w'.mouseTrigger = w.mouseTrigger ∧
      w'.focusID = if s.Clicked w' then id else w.focusID := by
  unfold Window.Button at h
  cases hg : w.getBox 12 with
  | none => simp [hg] at h
  | some p =>
    obtain ⟨rect, w1⟩ := p
    have e1 := getBox_fields w 12 rect w1 hg
    simp only [hg] at h
    cases hb : w1.box rect with
    | none => simp [hb] at h
    | some w2 =>
      have e2 := box_fields w1 rect w2 hb
      simp only [hb] at h
      split at h
      · simp at h
      · rename_i w4 ht
        have e3 := text_fields _ _ _ _ ht
        injection h with h
        injection h with hs hw
        subst hs hw
        have c1 : w2.curInput = w.curInput := by
          have a := congrArg Window.curInput e2
          have b := congrArg Window.curInput e1
          exact a.trans b
        have c2 : w2.mouseTrigger = w.mouseTrigger := by
          have a := congrArg Window.mouseTrigger e2
          have b := congrArg Window.mouseTrigger e1
          exact a.trans b
        have c3 : w2.focusID = w.focusID := by
          have a := congrArg Window.focusID e2
          have b := congrArg Window.focusID e1
          exact a.trans b
        cases hc : (w2.statusID rect id).Clicked w2 with
        | false =>
          simp only [hc, Bool.false_eq_true, if_false] at e3
          have d1 : w4.curInput = w2.curInput := by
            have a := congrArg Window.curInput e3
            exact a
          have d2 : w4.mouseTrigger = w2.mouseTrigger := by
            have a := congrArg Window.mouseTrigger e3
            exact a
          have d3 : w4.focusID = w2.focusID := by
            have a := congrArg Window.focusID e3
            exact a
          have hc4 : (w2.statusID rect id).Clicked w4 = false := by
            rw [Clicked_congr _ w4 w2 d1 d2]
            exact hc
          refine ⟨rfl, d1.trans c1, d2.trans c2, ?_⟩
          rw [hc4]
          simp only [Bool.false_eq_true, if_false]
          exact d3.trans c3
        | true =>
          simp only [hc, if_true] at e3
          have d1 : w4.curInput = w2.curInput := by
            have a := congrArg Window.curInput e3
            exact a
          have d2 : w4.mouseTrigger = w2.mouseTrigger := by
            have a := congrArg Window.mouseTrigger e3
            exact a
          have d3 : w4.focusID = id := by
            have a := congrArg Window.focusID e3
            exact a
          have hc4 : (w2.statusID rect id).Clicked w4 = true := by
            rw [Clicked_congr _ w4 w2 d1 d2]
            exact hc
          refine ⟨rfl, d1.trans c1, d2.trans c2, ?_⟩
          rw [hc4]
          simp only [if_true]
          exact d3

theorem TextField_effect (w : Window) (id t : GoString) (order : List (Int × Bool))
    (t' : GoString) (s : Status) (w' : Window)
    (h : w.TextField id t order = some (t', s, w')) :
    s.id = id ∧ w'.curInput = w.curInput ∧ w'.mouseTrigger = w.mouseTrigger ∧
      w'.focusID = (if s.Clicked w' then id else w.focusID) ∧
      t' = if w'.focusID = id then order.foldl (fun x e => textFieldKey x e.1 e.2) t
        else t := by
  unfold Window.TextField at h
  cases hg : w.getBox 12 with
  | none => simp [hg] at h
  | some p =>
    obtain ⟨rect, w1⟩ := p
    have e1 := getBox_fields w 12 rect w1 hg
    simp only [hg] at h
    cases hb : w1.box rect with
    | none => simp [hb] at h
    | some w2 =>
      have e2 := box_fields w1 rect w2 hb
      simp only [hb] at h
      split at h
      · simp at h
      · rename_i w4 ht
        have e3 := text_fields _ _ _ _ ht
        injection h with h
        injection h with hs hw
        injection hw with hs2 hw
        subst hs hs2 hw
        have c1 : w2.curInput = w.curInput := by
          have a := congrArg Window.curInput e2
          have b := congrArg Window.curInput e1
          exact a.trans b
        have c2 : w2.mouseTrigger = w.mouseTrigger := by
          have a := congrArg Window.mouseTrigger e2
          have b := congrArg Window.mouseTrigger e1
          exact a.trans b
        have c3 : w2.focusID = w.focusID := by
          have a := congrArg Window.focusID e2
          have b := congrArg Window.focusID e1
          exact a.trans b
        cases hc : (w2.statusID rect id).Clicked w2 with
        | false =>
          simp only [hc, Bool.false_eq_true, if_false] at e3 ⊢
          have d1 : w4.curInput = w2.curInput := by
            have a := congrArg Window.curInput e3
            exact a
          have d2 : w4.mouseTrigger = w2.mouseTrigger := by
            have a := congrArg Window.mouseTrigger e3
            exact a
          have d3 : w4.focusID = w2.focusID := by
            have a := congrArg Window.focusID e3
            exact a
          have hc4 : (w2.statusID rect id).Clicked w4 = false := by
            rw [Clicked_congr _ w4 w2 d1 d2]
            exact hc
          refine ⟨rfl, d1.trans c1, d2.trans c2, ?_, ?_⟩
          · rw [hc4]
            simp only [Bool.false_eq_true, if_false]
            exact d3.trans c3
          · rw [d3]
            simp [Status.Focused, Window.statusID]
        | true =>
          simp only [hc, if_true] at e3 ⊢
          have d1 : w4.curInput = w2.curInput := by
            have a := congrArg Window.curInput e3
            exact a
          have d2 : w4.mouseTrigger = w2.mouseTrigger := by
            have a := congrArg Window.mouseTrigger e3
            exact a
          have d3 : w4.focusID = id := by
            have a := congrArg Window.focusID e3
            exact a
          have hc4 : (w2.statusID rect id).Clicked w4 = true := by
            rw [Clicked_congr _ w4 w2 d1 d2]
            exact hc
          refine ⟨rfl, d1.trans c1, d2.trans c2, ?_, ?_⟩
          · rw [hc4]
            simp only [if_true]
            exact d3
          · rw [d3]
            simp [Status.Focused, Window.statusID]

theorem TextField_spec (w : Window) (id t : GoString) (order : List (Int × Bool))
    (h : w.InFrame = true) :
    ∃ t' w', w.TextField id t order = some (t', ⟨id, w.boxRect 12⟩, w') ∧
      w' = { w.afterBox 12 with
        buffer := w'.buffer
        mutators := w'.mutators
        focusID := if (Status.mk id (w.boxRect 12)).Clicked w then id else w.focusID } ∧
      (∀ n, n ≠ centerName → w'.mutator? n = (w.afterBox 12).mutator? n) ∧
      w'.InFrame = true := by
  have hb := afterBox_InFrame w 12 h
  obtain ⟨h1, h2, h3, h4, h5⟩ := (InFrame_iff _).mp hb
  unfold Window.TextField
  rw [getBox_eq w 12 h]
  simp only
  obtain ⟨buf, hbuf⟩ := box_spec (w.afterBox 12) (w.boxRect 12) h4 h5
  rw [hbuf]
  simp only
  have hcl : (Window.statusID { w.afterBox 12 with buffer := buf } (w.boxRect 12) id).Clicked
      { w.afterBox 12 with buffer := buf } = (Status.mk id (w.boxRect 12)).Clicked w := rfl
  rw [hcl]
  cases hc : (Status.mk id (w.boxRect 12)).Clicked w with
  | false =>
    simp only [Bool.false_eq_true, if_false]
    obtain ⟨w', hw', hf', ho', hs'⟩ := text_spec { w.afterBox 12 with buffer := buf }
      ((w.boxRect 12).Inset 2)
      (if (Window.statusID { w.afterBox 12 with buffer := buf } (w.boxRect 12) id).Focused
          { w.afterBox 12 with buffer := buf } = true then
        order.foldl (fun t e => textFieldKey t e.1 e.2) t else t) h4 h3
    have hfg : w'.FG = (w.afterBox 12).FG := by
      have e := congrArg Window.FG hf'
      exact e
    have hbg : w'.BG = (w.afterBox 12).BG := by
      have e := congrArg Window.BG hf'
      exact e
    rw [hw']
    refine ⟨_, w', rfl, hf', ho', ?_⟩
    refine (InFrame_iff _).mpr ⟨?_, ?_, hs', ?_, ?_⟩
    · rw [ho' _ (by decide)]; exact h1
    · rw [ho' _ (by decide)]; exact h2
    · rw [hfg]; exact h4
    · rw [hbg]; exact h5
  | true =>
    simp only [if_true]
    obtain ⟨w', hw', hf', ho', hs'⟩ := text_spec
      { ({ w.afterBox 12 with buffer := buf } : Window) with focusID := id }
      ((w.boxRect 12).Inset 2)
      (if (Window.statusID { w.afterBox 12 with buffer := buf } (w.boxRect 12) id).Focused
          { ({ w.afterBox 12 with buffer := buf } : Window) with focusID := id } = true then
        order.foldl (fun t e => textFieldKey t e.1 e.2) t else t) h4 h3
    have hfg : w'.FG = (w.afterBox 12).FG := by
      have e := congrArg Window.FG hf'
      exact e
    have hbg : w'.BG = (w.afterBox 12).BG := by
      have e := congrArg Window.BG hf'
      exact e
    rw [hw']
    refine ⟨_, w', rfl, hf', ho', ?_⟩
    refine (InFrame_iff _).mpr ⟨?_, ?_, hs', ?_, ?_⟩
    · rw [ho' _ (by decide)]; exact h1
    · rw [ho' _ (by decide)]; exact h2
    · rw [hfg]; exact h4
    · rw [hbg]; exact h5

/-! ## The text field -/

/-- In a frame whose active character map holds backspace alone, `TextField`
on the focused widget succeeds and returns the text without its last byte (the
empty text stays empty), in whatever order the map is visited. -/
theorem TextField_backspace_drops_last_byte (w : Window) (id t : GoString)
    (order : List (Int × Bool)) (hin : w.InFrame = true)
    (hch : w.deref w.curInput.Chars = [(8, true)])
    (hord : order.Perm (w.deref w.curInput.Chars)) (hfoc : w.focusID = id) :
    ∃ s w', w.TextField id t order = some (t.take (t.length - 1), s, w') ∧
      s.Focused w' = true := by
  obtain ⟨t', w', hT, _, _, _⟩ := TextField_spec w id t order hin
  obtain ⟨_, _, _, hf, ht⟩ := TextField_effect w id t order t' _ w' hT
  have hfoc' : w'.focusID = id := by
    rw [hf]
    split
    · rfl
    · exact hfoc
  rw [hch] at hord
  have ho : order = [(8, true)] := List.perm_singleton.mp hord
  have ht' : t' = t.take (t.length - 1) := by
    rw [ht, if_pos hfoc', ho]
    simp only [List.foldl_cons, List.foldl_nil, textFieldKey, if_true]
    split
    · rfl
    · have h0 : t.length = 0 := by omega
      rw [List.length_eq_zero.mp h0]
      rfl
  rw [ht'] at hT
  exact ⟨_, w', hT, by simp [Status.Focused, hfoc']⟩

/-- C11 (divergence): on a 200 by 100 window, `MousePos(100, 6)`,
`MouseDown(1)`, `Char('\b')` and `StartFrame` give a frame whose active
character map is backspace alone; `TextField("f", "é")` is clicked, hence
focused, and returns the single byte 0xC3, the first half of the two-byte
character "é" (bytes 0xC3 0xA9), where the claim asks for the empty text. -/
theorem C11_backspace_cuts_last_byte :
    ∃ s w1,
      (((NewWindow blankFont 200 100).MousePos 100 6).MouseDown 1).Char 8 =
        some backspaceTyped ∧
      backspaceTyped.StartFrame.deref backspaceTyped.StartFrame.curInput.Chars =
        [(8, true)] ∧
      backspaceTyped.StartFrame.TextField [102] [195, 169] [(8, true)] =
        some ([195], s, w1) ∧
      s.Focused w1 = true ∧
      runeString 233 = [195, 169] := by
  obtain ⟨t', w1, hT, _, _, _⟩ := TextField_spec backspaceTyped.StartFrame [102] [195, 169]
    [(8, true)] rfl
  obtain ⟨_, hci, hmt, hf, ht⟩ := TextField_effect _ _ _ _ _ _ _ hT
  have hr : backspaceTyped.StartFrame.boxRect 12 = Rect 0 0 200 12 := by decide
  rw [hr] at hT hf
  have hcl : (Status.mk [102] (Rect 0 0 200 12)).Clicked w1 = true := by
    rw [Clicked_congr _ w1 backspaceTyped.StartFrame hci hmt]
    decide
  rw [hcl, if_pos rfl] at hf
  rw [hf, if_pos rfl] at ht
  have ht' : t' = [195] := by
    rw [ht]
    decide
  rw [ht'] at hT
  exact ⟨_, w1, rfl, rfl, hT, by simp [Status.Focused, hf], by decide⟩

/-! ## The end-to-end click scenario -/

/-- C12: on a window made by `NewWindow(200, 100)` with any font, frame 1
(`StartFrame`, then `Button("ok", "OK")`, the button never pressed) gives the
rectangle (0,0)-(200,12), a status that is not clicked, and leaves the focus
unset; after `MousePos(x, y)` at any point of that rectangle and
`MouseDown(1)`, frame 2 (`StartFrame`, then the same `Button`) gives a status
that is clicked and the focus "ok". -/
theorem C12_click_scenario (font : PixFont) (x y : Int)
    (hx0 : 0 ≤ x) (hx1 : x < 200) (hy0 : 0 ≤ y) (hy1 : y < 12) :
    ∃ s1 w1 s2 w2,
      (NewWindow font 200 100).StartFrame.Button [111, 107] [79, 75] = some (s1, w1) ∧
      s1.rect = Rect 0 0 200 12 ∧ s1.Clicked w1 = false ∧ w1.focusID = [] ∧
      ((w1.MousePos x y).MouseDown 1).StartFrame.Button [111, 107] [79, 75] =
        some (s2, w2) ∧
      s2.rect = Rect 0 0 200 12 ∧ s2.Clicked w2 = true ∧ w2.focusID = [111, 107] := by
  obtain ⟨w1, hB1, hf1, _, _⟩ := Button_spec (NewWindow font 200 100).StartFrame
    [111, 107] [79, 75] rfl
  obtain ⟨_, hci1, hmt1, hfo1⟩ := Button_effect _ _ _ _ _ hB1
  have hW : w1.Width = 200 := by
    have e := congrArg Window.Width hf1
    exact e
  have hI : w1.input = (NewWindow font 200 100).StartFrame.input := by
    have e := congrArg Window.input hf1
    exact e
  have hc1 : (Status.mk [111, 107] ((NewWindow font 200 100).StartFrame.boxRect 12)).Clicked w1
      = false := by
    rw [Clicked_congr _ w1 _ hci1 hmt1]
    rfl
  have hfoc1 : w1.focusID = [] := by
    rw [hfo1, hc1]
    rfl
  obtain ⟨w2, hB2, _, _, _⟩ := Button_spec ((w1.MousePos x y).MouseDown 1).StartFrame
    [111, 107] [79, 75] (StartFrame_InFrame _)
  obtain ⟨_, hci2, hmt2, hfo2⟩ := Button_effect _ _ _ _ _ hB2
  have hr2 : ((w1.MousePos x y).MouseDown 1).StartFrame.boxRect 12 = Rect 0 0 200 12 := by
    have e : ((w1.MousePos x y).MouseDown 1).StartFrame.boxRect 12 =
        Rect 0 0 (addInt 0 (subInt w1.Width 0)) (addInt 0 12) := rfl
    rw [e, hW]
    decide
  have hc2 : (Status.mk [111, 107] (Rect 0 0 200 12)).Clicked w2 = true := by
    rw [Clicked_congr _ w2 _ hci2 hmt2]
    apply (Clicked_iff _ _).mpr
    refine ⟨?_, ?_⟩
    · apply (StartFrame_trigger _).mpr
      refine ⟨?_, rfl⟩
      show w1.curInput.Mouse.Left = false
      rw [hci1]
      rfl
    · show (Rect 0 0 200 12).Min.X ≤ x ∧ x < (Rect 0 0 200 12).Max.X ∧
        (Rect 0 0 200 12).Min.Y ≤ y ∧ y < (Rect 0 0 200 12).Max.Y
      rw [Rect_of_le 0 0 200 12 (by omega) (by omega)]
      exact ⟨hx0, hx1, hy0, hy1⟩
  rw [hr2] at hB2 hfo2
  refine ⟨_, w1, _, w2, hB1, rfl, hc1, hfoc1, hB2, rfl, hc2, ?_⟩
  rw [hfo2, hc2]
  rfl

/-- Witness for C12: the centre (100, 6) of the button's rectangle. -/
theorem C12_click_scenario_witness :
    ∃ s1 w1 s2 w2,
      (NewWindow blankFont 200 100).StartFrame.Button [111, 107] [79, 75] = some (s1, w1) ∧
      s1.rect = Rect 0 0 200 12 ∧ s1.Clicked w1 = false ∧ w1.focusID = [] ∧
      ((w1.MousePos 100 6).MouseDown 1).StartFrame.Button [111, 107] [79, 75] =
        some (s2, w2) ∧
      s2.rect = Rect 0 0 200 12 ∧ s2.Clicked w2 = true ∧ w2.focusID = [111, 107] :=
  C12_click_scenario blankFont 100 6 (by decide) (by decide) (by decide) (by decide)

/-! ## Widget state -/

/-- Once the store of widget states is allocated (as `ClearState` does), the
lookup of an identifier with no stored state returns the default and stores
it: a later lookup returns it whatever the new default, also after any number
of `StartFrame` calls. -/
theorem getState_on_allocated_store (w : Window) (m : List (GoString × Value))
    (hm : w.widgetState = some m) (id : GoString) (d other : Value)
    (hid : mapGet m id = none) :
    ∃ w1, w.getState id d = some (d, w1) ∧
      (∀ n : Nat, ∃ w2, (Nat.iterate Window.StartFrame n w1).getState id other
        = some (d, w2)) ∧
      w1.ClearState.widgetState = some [] := by
  refine ⟨{ w with widgetState := some (mapSet m id d) }, ?_, ?_, rfl⟩
  · simp [Window.getState, hm, hid]
  · intro n
    have hk : ∀ (k : Nat) (u : Window),
        (Nat.iterate Window.StartFrame k u).widgetState = u.widgetState := by
      intro k
      induction k with
      | zero => intro u; rfl
      | succ k ih =>
        intro u
        rw [Function.iterate_succ_apply, ih]
        rfl
    have hs := hk n { w with widgetState := some (mapSet m id d) }
    simp only at hs
    refine ⟨Nat.iterate Window.StartFrame n { w with widgetState := some (mapSet m id d) }, ?_⟩
    simp only [Window.getState, hs, mapGet_mapSet_same]

/-- C13 (divergence): `NewWindow` leaves the map of widget states nil, and
neither `StartFrame` nor any widget call allocates it, so on a new window, also
after `StartFrame`, `getState` panics on the assignment of the default to an
entry of a nil map instead of returning the default. -/
theorem C13_get_state_on_new_window_panics (font : PixFont) (width height : Int)
    (id : GoString) (d : Value) :
    (NewWindow font width height).widgetState = none ∧
    (NewWindow font width height).getState id d = none ∧
    (NewWindow font width height).StartFrame.getState id d = none :=
  ⟨rfl, rfl, rfl⟩

/-! ## The status of a box -/

theorem Box_effect (w : Window) (s : Status) (w' : Window) (h : w.Box = some (s, w')) :
    s.id = [] ∧ w'.focusID = w.focusID ∧ w'.curInput = w.curInput ∧
      w'.mouseTrigger = w.mouseTrigger := by
  unfold Window.Box at h
  cases hg : w.getBox 12 with
  | none => simp [hg] at h
  | some p =>
    obtain ⟨rect, w1⟩ := p
    have e1 := getBox_fields w 12 rect w1 hg
    simp only [hg] at h
    cases hb : w1.box rect with
    | none => simp [hb] at h
    | some w2 =>
      have e2 := box_fields w1 rect w2 hb
      simp only [hb] at h
      injection h with h
      injection h with hs hw
      subst hs hw
      refine ⟨rfl, ?_, ?_, ?_⟩
      · have a := congrArg Window.focusID e2
        have b := congrArg Window.focusID e1
        exact a.trans b
      · have a := congrArg Window.curInput e2
        have b := congrArg Window.curInput e1
        exact a.trans b
      · have a := congrArg Window.mouseTrigger e2
        have b := congrArg Window.mouseTrigger e1
        exact a.trans b

/-- The status of `Box()` carries the empty identifier, and it is focused
exactly when the focus identifier of the window is empty. -/
theorem Box_focused_iff (w : Window) (s : Status) (w' : Window) (h : w.Box = some (s, w')) :
    s.id = [] ∧ (s.Focused w' = true ↔ w.focusID = []) := by
  obtain ⟨hid, hf, _, _⟩ := Box_effect w s w' h
  refine ⟨hid, ?_⟩
  simp [Status.Focused, hid, hf]

/-- C14 (divergence): the focus identifier of a new window is the empty
string, which is also the identifier of the status of `Box()`; so on a new
200 by 100 window, and again after `StartFrame`, `Box()` succeeds and its
status is focused, where the claim asks for a status that is not. -/
theorem C14_box_focused_on_new_window :
    (∃ s w', (NewWindow blankFont 200 100).Box = some (s, w') ∧ s.id = [] ∧
      s.Focused w' = true) ∧
    (∃ s w', frameWindow.Box = some (s, w') ∧ s.id = [] ∧ s.Focused w' = true) := by
  refine ⟨⟨_, _, rfl, rfl, rfl⟩, ?_⟩
  obtain ⟨w', hB, _, _⟩ := Box_spec frameWindow rfl
  exact ⟨_, w', hB, rfl, ((Box_focused_iff _ _ _ hB).2).mpr rfl⟩

/-! ## Focus changes only by a click -/

theorem Text_effect (w : Window) (t : GoString) (w' : Window) (h : w.Text t = some w') :
    w'.focusID = w.focusID := by
  unfold Window.Text at h
  cases hg : w.getBox 12 with
  | none => simp [hg] at h
  | some p =>
    obtain ⟨rect, w1⟩ := p
    have e1 := getBox_fields w 12 rect w1 hg
    simp only [hg] at h
    split at h
    · simp at h
    · have e3 := text_fields _ _ _ _ h
      have a := congrArg Window.focusID e3
      have b := congrArg Window.focusID e1
      exact a.trans b

theorem setMutator_focusID (w w1 : Window) (n : GoString) (v : Value)
    (h : w.setMutator n v = some w1) : w1.focusID = w.focusID := by
  have e := congrArg Window.focusID (setMutator_fields w w1 n v h)
  exact e

theorem key_calls_focusID (w w1 : Window) (k : Int) :
    (w.KeyDown k = some w1 → w1.focusID = w.focusID) ∧
    (w.KeyUp k = some w1 → w1.focusID = w.focusID) ∧
    (w.Char k = some w1 → w1.focusID = w.focusID) := by
  refine ⟨?_, ?_, ?_⟩
  · intro h
    unfold Window.KeyDown at h
    split at h
    · simp at h
    · split at h
      · simp at h
      · injection h with h
        subst h
        rfl
  · intro h
    unfold Window.KeyUp at h
    split at h
    · simp at h
    · injection h with h
      subst h
      rfl
  · intro h
    unfold Window.Char at h
    split at h
    · simp at h
    · injection h with h
      subst h
      rfl

/-- C15: the focus identifier changes only by a click on an identified
widget.  `StartFrame`, `ClearState`, `SameLine`, `MousePos`, `MouseDown` and
`MouseUp` leave it unchanged (`EndFrame` only returns the buffer and has no
window to change); `KeyDown`, `KeyUp`, `Char`, `Center`, `NextWidth`,
`NextHeight`, `Box` and `Text` leave it unchanged whenever they return; and
`Button(id, t)` and `TextField(id, t)`, whenever they return, leave it
unchanged when their status is not clicked and set it to `id` when it is. -/
theorem C15_focus_changes_only_by_click (w : Window) :
    w.StartFrame.focusID = w.focusID ∧
    w.EndFrame = w.buffer ∧
    w.ClearState.focusID = w.focusID ∧
    w.SameLine.focusID = w.focusID ∧
    (∀ x y : Int, (w.MousePos x y).focusID = w.focusID) ∧
    (∀ b : Int, (w.MouseDown b).focusID = w.focusID) ∧
    (∀ b : Int, (w.MouseUp b).focusID = w.focusID) ∧
    (∀ (k : Int) (w' : Window), w.KeyDown k = some w' → w'.focusID = w.focusID) ∧
    (∀ (k : Int) (w' : Window), w.KeyUp k = some w' → w'.focusID = w.focusID) ∧
    (∀ (c : Int) (w' : Window), w.Char c = some w' → w'.focusID = w.focusID) ∧
    (∀ w' : Window, w.Center = some w' → w'.focusID = w.focusID) ∧
    (∀ (v : Int) (w' : Window), w.NextWidth v = some w' → w'.focusID = w.focusID) ∧
    (∀ (v : Int) (w' : Window), w.NextHeight v = some w' → w'.focusID = w.focusID) ∧
    (∀ (s : Status) (w' : Window), w.Box = some (s, w') → w'.focusID = w.focusID) ∧
    (∀ (t : GoString) (w' : Window), w.Text t = some w' → w'.focusID = w.focusID) ∧
    (∀ (id t : GoString) (s : Status) (w' : Window), w.Button id t = some (s, w') →
      w'.focusID = if s.Clicked w' then id else w.focusID) ∧
    (∀ (id t : GoString) (order : List (Int × Bool)) (t' : GoString) (s : Status)
      (w' : Window), w.TextField id t order = some (t', s, w') →
      w'.focusID = if s.Clicked w' then id else w.focusID) := by
  refine ⟨rfl, rfl, rfl, ?_, fun _ _ => rfl, ?_, ?_, ?_, ?_, ?_, ?_, ?_, ?_, ?_, ?_, ?_, ?_⟩
  · rw [SameLine_eq]
  · intro b
    unfold Window.MouseDown
    split <;> rfl
  · intro b
    unfold Window.MouseUp
    split <;> rfl
  · exact fun k w' h => (key_calls_focusID w w' k).1 h
  · exact fun k w' h => (key_calls_focusID w w' k).2.1 h
  · exact fun k w' h => (key_calls_focusID w w' k).2.2 h
  · exact fun w' h => setMutator_focusID w w' _ _ h
  · exact fun v w' h => setMutator_focusID w w' _ _ h
  · exact fun v w' h => setMutator_focusID w w' _ _ h
  · exact fun s w' h => (Box_effect w s w' h).2.1
  · exact fun t w' h => Text_effect w t w' h
  · exact fun id t s w' h => (Button_effect w id t s w' h).2.2.2
  · exact fun id t order t' s w' h => (TextField_effect w id t order t' s w' h).2.2.2.1

/-- Witness for C15: in the frame that starts with a press at (100, 6), `NextWidth(50)`
returns and keeps the focus, and `Button("b1", "OK")` returns with the focus
it sets by the rule. -/
theorem C15_focus_changes_only_by_click_witness :
    (∃ w', clickWindow.NextWidth 50 = some w' ∧ w'.focusID = clickWindow.focusID) ∧
    (∃ s w', clickWindow.Button [98, 49] [79, 75] = some (s, w') ∧
      w'.focusID = if s.Clicked w' then [98, 49] else clickWindow.focusID) :=
  ⟨⟨_, rfl, (C15_focus_changes_only_by_click clickWindow).2.2.2.2.2.2.2.2.2.2.2.1 50 _ rfl⟩,
   match Button_spec clickWindow [98, 49] [79, 75] rfl with
   | ⟨w', h, _⟩ => ⟨_, w', h,
      (C15_focus_changes_only_by_click clickWindow).2.2.2.2.2.2.2.2.2.2.2.2.2.2.2.1
        [98, 49] [79, 75] _ w' h⟩⟩

/-! ## The postcondition of getBox -/

theorem afterBox_mutator?_width (w : Window) (height : Int) :
    (w.afterBox height).mutator? nextwidthName =
      match w.mutator? nextwidthName with
      | some e => if e.keep then some { e with keep := false } else none
      | none => none := by
  have e : (w.afterBox height).mutator? nextwidthName =
      ((w.getMutator nextwidthName (Value.int (subInt w.curWidth w.curX))).2.getMutator
        nextheightName (Value.int height)).2.mutator? nextwidthName := rfl
  rw [e, getMutator_mutator?_other _ _ _ _ (by decide), getMutator_mutator?_same]

/-- C16 (counterexample): in the first frame of a 200 by 100 window, after
`NextWidth(50)` and `keep("nextwidth")`, `getBox(12)` returns the rectangle
(0,0)-(50,12) and a following `getBox(12)` with no new override returns
(0,12)-(50,24): the width override has not been consumed, the default width
is 200. -/
theorem C16_kept_override_counterexample :
    frameWindow.NextWidth 50 = some narrowWindow ∧
    ∃ w1 w2,
      keptWindow.getBox 12 = some (⟨⟨0, 0⟩, ⟨50, 12⟩⟩, w1) ∧
      w1.getBox 12 = some (⟨⟨0, 12⟩, ⟨50, 24⟩⟩, w2) ∧
      w1.mutator? nextwidthName = some ⟨false, Value.int 50⟩ ∧
      w1.curWidth - w1.curX = 200 :=
  ⟨rfl, _, _, rfl, rfl, rfl, rfl⟩

/-- C16 (amended): inside a frame, when the resolved width (the pending
"nextwidth" override if there is one, else the line limit minus the current
x) and the resolved height (the pending "nextheight" override if there is
one, else the requested height) are non-negative and neither the current x
plus the resolved width nor the current y plus the resolved height exceeds
the largest int, `getBox` returns the rectangle whose top-left corner is the
cursor position before the call and whose width and height are the resolved
values; afterwards the same-line continuation x is the rectangle's right
edge, the continuation y is its top, the cursor x is 0 and the cursor y is
the larger of the rectangle's bottom and the recorded maximum bottom.  An
override whose keep flag is not set has been consumed, one whose keep flag is
set stays pending with the flag cleared; so when no pending override had its
keep flag set, a following `getBox` with no new override uses the defaults:
it returns `image.Rect` of the cursor position, the cursor x plus the line
limit minus the cursor x, and the cursor y plus the requested height (the
sums and the difference being Go's). -/
theorem C16_get_box_postcondition (w : Window) (height : Int) (hin : w.InFrame = true)
    (hw : 0 ≤ w.resolvedWidth) (hh : 0 ≤ w.resolvedHeight height)
    (hx : w.curX + w.resolvedWidth ≤ intMax)
    (hy : w.curY + w.resolvedHeight height ≤ intMax) :
    ∃ r w', w.getBox height = some (r, w') ∧
      r.Min = ⟨w.curX, w.curY⟩ ∧ r.Dx = w.resolvedWidth ∧ r.Dy = w.resolvedHeight height ∧
      w'.nextX = r.Max.X ∧ w'.lastY = r.Min.Y ∧ w'.curX = 0 ∧
      w'.curY = max r.Max.Y w.nextY ∧
      (w'.mutator? nextwidthName =
        match w.mutator? nextwidthName with
        | some e => if e.keep then some { e with keep := false } else none
        | none => none) ∧
      (w'.mutator? nextheightName =
        match w.mutator? nextheightName with
        | some e => if e.keep then some { e with keep := false } else none
        | none => none) ∧
      ((∀ e, w.mutator? nextwidthName = some e → e.keep = false) →
        (∀ e, w.mutator? nextheightName = some e → e.keep = false) →
        ∀ h2 : Int, ∃ w2, w'.getBox h2 =
          some (Rect w'.curX w'.curY (addInt w'.curX (subInt w'.curWidth w'.curX))
            (addInt w'.curY h2), w2)) := by
  have hax : addInt w.curX w.resolvedWidth = w.curX + w.resolvedWidth :=
    addInt_of_nonneg _ _ hw hx
  have hay : addInt w.curY (w.resolvedHeight height) = w.curY + w.resolvedHeight height :=
    addInt_of_nonneg _ _ hh hy
  have hr : w.boxRect height =
      ⟨⟨w.curX, w.curY⟩, ⟨w.curX + w.resolvedWidth, w.curY + w.resolvedHeight height⟩⟩ := by
    unfold Window.boxRect
    rw [hax, hay]
    exact Rect_of_le _ _ _ _ (by omega) (by omega)
  have hnx : (w.afterBox height).nextX = w.curX + w.resolvedWidth := hax
  have hcy : (w.afterBox height).curY =
      if w.curY + w.resolvedHeight height < w.nextY then w.nextY
        else w.curY + w.resolvedHeight height := by
    have e : (w.afterBox height).curY =
        if addInt w.curY (w.resolvedHeight height) < w.nextY then w.nextY
          else addInt w.curY (w.resolvedHeight height) := rfl
    rw [hay] at e
    exact e
  refine ⟨w.boxRect height, w.afterBox height, getBox_eq w height hin, ?_, ?_, ?_, ?_, ?_, rfl,
    ?_, afterBox_mutator?_width w height, afterBox_mutator?_height w height, ?_⟩
  · rw [hr]
  · rw [hr]
    simp [Rectangle.Dx]
  · rw [hr]
    simp [Rectangle.Dy]
  · rw [hr]
    exact hnx
  · rw [hr]
    rfl
  · rw [hr, hcy]
    show (if w.curY + w.resolvedHeight height < w.nextY then w.nextY
      else w.curY + w.resolvedHeight height) = max (w.curY + w.resolvedHeight height) w.nextY
    split
    · rw [max_eq_right (by omega)]
    · rw [max_eq_left (by omega)]
  · intro kw kh h2
    have m1 : (w.afterBox height).mutator? nextwidthName = none := by
      rw [afterBox_mutator?_width]
      cases he : w.mutator? nextwidthName with
      | none => rfl
      | some e => simp [kw e he]
    have m2 : (w.afterBox height).mutator? nextheightName = none := by
      rw [afterBox_mutator?_height]
      cases he : w.mutator? nextheightName with
      | none => rfl
      | some e => simp [kh e he]
    refine ⟨(w.afterBox height).afterBox h2, ?_⟩
    rw [getBox_eq _ h2 (afterBox_InFrame w height hin)]
    unfold Window.boxRect Window.resolvedWidth Window.resolvedHeight
    rw [m1, m2]

/-- Witness for C16: after `NextWidth(50)` in the first frame of a 200 by 100 window the
resolved sizes are 50 and 12, the edges 50 and 12, and the override is not kept. -/
theorem C16_get_box_postcondition_witness :
    ∃ r w', narrowWindow.getBox 12 = some (r, w') ∧
      r.Min = ⟨0, 0⟩ ∧ r.Dx = 50 ∧ r.Dy = 12 ∧ w'.nextX = r.Max.X ∧ w'.curX = 0 ∧
      w'.mutator? nextwidthName = none ∧
      ∃ w2, w'.getBox 12 = some (Rect w'.curX w'.curY
        (addInt w'.curX (subInt w'.curWidth w'.curX)) (addInt w'.curY 12), w2) :=
  match C16_get_box_postcondition narrowWindow 12 rfl (by decide) (by decide) (by decide)
    (by decide) with
  | ⟨r, w', h1, h2, h3, h4, h5, _, h7, _, h9, _, h11⟩ =>
    ⟨r, w', h1, h2, h3, h4, h5, h7, h9,
      h11 (fun e he => by
          have h0 : narrowWindow.mutator? nextwidthName = some ⟨false, Value.int 50⟩ := rfl
          rw [h0] at he
          injection he with he
          rw [← he])
        (fun e he => by
          have h0 : narrowWindow.mutator? nextheightName = none := rfl
          rw [h0] at he
          exact Option.noConfusion he) 12⟩

/-- The range hypotheses of the amended C16 are needed.  In the first frame
of a 200 by 100 window, `NextWidth(50)`, `Box()`, `SameLine()` leave the
cursor at x 50; after `NextWidth(9223372036854775807)` the resolved width and
height are non-negative, and the right edge `50 + width` of `getBox(12)`
wraps around: the rectangle is (-9223372036854775759,0)-(50,12), whose left
edge is not the cursor x. -/
theorem getBox_overflow_mirrors :
    ∃ s w1 w2 r w3,
      frameWindow.NextWidth 50 = some narrowWindow ∧ narrowWindow.Box = some (s, w1) ∧
      w1.SameLine.NextWidth 9223372036854775807 = some w2 ∧
      w2.InFrame = true ∧ w2.curX = 50 ∧ w2.curY = 0 ∧
      w2.resolvedWidth = 9223372036854775807 ∧ w2.resolvedHeight 12 = 12 ∧
      w2.getBox 12 = some (r, w3) ∧
      r = ⟨⟨-9223372036854775759, 0⟩, ⟨50, 12⟩⟩ ∧ r.Min.X ≠ w2.curX := by
  obtain ⟨w1, hB, hf, hi1⟩ := Box_spec narrowWindow rfl
  have hm1 : w1.SameLine.mutators = some [] := by
    rw [SameLine_eq]
    have e := congrArg Window.mutators hf
    have e2 : (narrowWindow.afterBox 12).mutators = some [] := rfl
    exact e.trans e2
  have hN : ∃ w2, w1.SameLine.NextWidth 9223372036854775807 = some w2 := by
    simp [Window.NextWidth, Window.setMutator, hm1]
  obtain ⟨w2, h2⟩ := hN
  have hi2 := NextWidth_InFrame w1.SameLine w2 _ h2 (SameLine_InFrame w1 hi1)
  have hf2 := setMutator_fields w1.SameLine w2 _ _ h2
  have cX : w2.curX = 50 := by
    have a := congrArg Window.curX hf2
    have b : w1.SameLine.curX = 50 := by
      rw [SameLine_eq]
      have e := congrArg Window.nextX hf
      have e2 : (narrowWindow.afterBox 12).nextX = 50 := by decide
      exact e.trans e2
    exact a.trans b
  have cY : w2.curY = 0 := by
    have a := congrArg Window.curY hf2
    have b : w1.SameLine.curY = 0 := by
      rw [SameLine_eq]
      have e := congrArg Window.lastY hf
      exact e
    exact a.trans b
  have mw : w2.mutator? nextwidthName = some ⟨false, Value.int 9223372036854775807⟩ := by
    rw [setMutator_mutator? w1.SameLine w2 _ _ h2, if_pos rfl]
  have mh : w2.mutator? nextheightName = none := by
    rw [setMutator_mutator? w1.SameLine w2 _ _ h2, if_neg (by decide)]
    unfold Window.mutator?
    rw [hm1]
    rfl
  have hW : w2.resolvedWidth = 9223372036854775807 := by
    unfold Window.resolvedWidth
    rw [mw]
  have hH : w2.resolvedHeight 12 = 12 := resolvedHeight_absent w2 12 mh
  have hr : w2.boxRect 12 = ⟨⟨-9223372036854775759, 0⟩, ⟨50, 12⟩⟩ := by
    unfold Window.boxRect
    rw [hW, hH, cX, cY]
    decide
  refine ⟨_, w1, w2, w2.boxRect 12, w2.afterBox 12, rfl, hB, h2, hi2, cX, cY, hW, hH,
    getBox_eq w2 12 hi2, hr, ?_⟩
  rw [hr, cX]
  decide

/-! ## Runs of widgets -/

theorem getMutator_isSome (w : Window) (n : GoString) (d : Value) :
    (w.getMutator n d).2.mutators.isSome = w.mutators.isSome := by
  cases hm : w.mutators with
  | none => rw [getMutator_absent w n d (by simp [Window.mutator?, hm]), hm]
  | some m =>
    cases he : mapGet m n with
    | none => rw [getMutator_absent w n d (by simp [Window.mutator?, hm, he]), hm]
    | some e =>
      rw [getMutator_present w m n d e hm he]
      split <;> rfl

theorem afterBox_isSome (w : Window) (height : Int) :
    (w.afterBox height).mutators.isSome = w.mutators.isSome := by
  show (((w.getMutator nextwidthName (Value.int (subInt w.curWidth w.curX))).2.getMutator
    nextheightName (Value.int height)).2.mutators).isSome = w.mutators.isSome
  rw [getMutator_isSome, getMutator_isSome]

theorem textLoop_isSome (rect : Rectangle) (lines : List GoString) :
    ∀ (i textX : Int) (w w' : Window), Window.textLoop rect lines i textX w = some w' →
      w'.mutators.isSome = w.mutators.isSome := by
  induction lines with
  | nil =>
    intro i textX w w' h
    simp only [Window.textLoop] at h
    injection h with h
    subst h
    rfl
  | cons line rest ih =>
    intro i textX w w' h
    unfold Window.textLoop at h
    have h1 := getMutator_isSome w centerName (Value.bool false)
    generalize w.getMutator centerName (Value.bool false) = p1 at *
    obtain ⟨a, w1⟩ := p1
    cases a with
    | int n => simp at h
    | bool c =>
      simp only at h h1
      split at h
      · simp at h
      · have e := ih _ _ _ _ h
        rw [e]
        exact h1

theorem text_isSome (w : Window) (rect : Rectangle) (t : GoString) (w' : Window)
    (h : w.text rect t = some w') : w'.mutators.isSome = w.mutators.isSome :=
  textLoop_isSome rect (splitLines t) 0 rect.Min.X w w' h

/-- Inside a frame every widget call succeeds with the rectangle of `getBox`,
keeps the frame invariant and leaves the cursor where `getBox` put it. -/
theorem widget_calls_layout (w : Window) (hin : w.InFrame = true) (k : Widget) :
    ∃ w', w.widget k = some (w.boxRect 12, w') ∧
      w'.InFrame = true ∧ w'.mutators.isSome = w.mutators.isSome ∧
      w'.curX = 0 ∧ w'.curY = (w.afterBox 12).curY ∧ w'.lastY = w.curY ∧
      w'.nextY = w.nextY ∧ w'.nextX = addInt w.curX w.resolvedWidth ∧
      w'.curWidth = w.curWidth := by
  unfold Window.widget
  cases k with
  | box =>
    obtain ⟨w', hB, hf, hi⟩ := Box_spec w hin
    refine ⟨w', by simp only [hB]; rfl, hi, ?_, ?_, ?_, ?_, ?_, ?_, ?_⟩
    · have e := congrArg (fun u : Window => u.mutators.isSome) hf
      exact e.trans (afterBox_isSome w 12)
    · have e := congrArg Window.curX hf
      exact e
    · have e := congrArg Window.curY hf
      exact e
    · have e := congrArg Window.lastY hf
      exact e
    · have e := congrArg Window.nextY hf
      exact e
    · have e := congrArg Window.nextX hf
      exact e
    · have e := congrArg Window.curWidth hf
      exact e
  | text t =>
    obtain ⟨w', hT, hf, _, hi⟩ := Text_spec w t hin
    have hs : w'.mutators.isSome = w.mutators.isSome := by
      unfold Window.Text at hT
      rw [getBox_eq w 12 hin] at hT
      simp only at hT
      split at hT
      · simp at hT
      · exact (text_isSome _ _ _ _ hT).trans (afterBox_isSome w 12)
    refine ⟨w', by simp only [getBox_eq w 12 hin, hT]; rfl, hi, hs, ?_, ?_, ?_, ?_, ?_, ?_⟩
    · have e := congrArg Window.curX hf
      exact e
    · have e := congrArg Window.curY hf
      exact e
    · have e := congrArg Window.lastY hf
      exact e
    · have e := congrArg Window.nextY hf
      exact e
    · have e := congrArg Window.nextX hf
      exact e
    · have e := congrArg Window.curWidth hf
      exact e
  | button id t =>
    obtain ⟨w', hB, hf, _, hi⟩ := Button_spec w id t hin
    have hs : w'.mutators.isSome = w.mutators.isSome := by
      have hB' := hB
      unfold Window.Button at hB'
      rw [getBox_eq w 12 hin] at hB'
      simp only at hB'
      split at hB'
      · simp at hB'
      · rename_i w2 hbx
        have e2 := box_fields _ _ _ hbx
        split at hB'
        · simp at hB'
        · rename_i w4 ht
          injection hB' with hB'
          injection hB' with _ hw
          subst hw
          have e3 := text_isSome _ _ _ _ ht
          rw [e3]
          have e4 : w2.mutators.isSome = (w.afterBox 12).mutators.isSome := by
            have a := congrArg (fun u : Window => u.mutators.isSome) e2
            exact a
          have e5 : (if (w2.statusID (w.boxRect 12) id).Clicked w2 = true then
              { w2 with focusID := id } else w2).mutators.isSome = w2.mutators.isSome := by
            split <;> rfl
          rw [e5, e4]
          exact afterBox_isSome w 12
    refine ⟨w', by simp only [hB]; rfl, hi, hs, ?_, ?_, ?_, ?_, ?_, ?_⟩
    · have e := congrArg Window.curX hf
      exact e
    · have e := congrArg Window.curY hf
      exact e
    · have e := congrArg Window.lastY hf
      exact e
    · have e := congrArg Window.nextY hf
      exact e
    · have e := congrArg Window.nextX hf
      exact e
    · have e := congrArg Window.curWidth hf
      exact e
  | textField id t order =>
    obtain ⟨t', w', hB, hf, _, hi⟩ := TextField_spec w id t order hin
    have hs : w'.mutators.isSome = w.mutators.isSome := by
      have hB' := hB
      unfold Window.TextField at hB'
      rw [getBox_eq w 12 hin] at hB'
      simp only at hB'
      split at hB'
      · simp at hB'
      · rename_i w2 hbx
        have e2 := box_fields _ _ _ hbx
        split at hB'
        · simp at hB'
        · rename_i w4 ht
          injection hB' with hB'
          injection hB' with _ hw
          injection hw with _ hw
          subst hw
          have e3 := text_isSome _ _ _ _ ht
          rw [e3]
          have e4 : w2.mutators.isSome = (w.afterBox 12).mutators.isSome := by
            have a := congrArg (fun u : Window => u.mutators.isSome) e2
            exact a
          have e5 : (if (w2.statusID (w.boxRect 12) id).Clicked w2 = true then
              { w2 with focusID := id } else w2).mutators.isSome = w2.mutators.isSome := by
            split <;> rfl
          rw [e5, e4]
          exact afterBox_isSome w 12
    refine ⟨w', by simp only [hB]; rfl, hi, hs, ?_, ?_, ?_, ?_, ?_, ?_⟩
    · have e := congrArg Window.curX hf
      exact e
    · have e := congrArg Window.curY hf
      exact e
    · have e := congrArg Window.lastY hf
      exact e
    · have e := congrArg Window.nextY hf
      exact e
    · have e := congrArg Window.nextX hf
      exact e
    · have e := congrArg Window.curWidth hf
      exact e

theorem place_layout (w : Window) (hin : w.InFrame = true) (hs : w.mutators.isSome = true)
    (width height : Int) (k : Widget) :
    ∃ w', w.place width height k =
        some (Rect w.curX w.curY (addInt w.curX width) (addInt w.curY height), w') ∧
      w'.InFrame = true ∧ w'.mutators.isSome = true ∧
      w'.curX = 0 ∧
      w'.curY = (if addInt w.curY height < w.nextY then w.nextY else addInt w.curY height) ∧
      w'.lastY = w.curY ∧ w'.nextY = w.nextY := by
  obtain ⟨m, hm⟩ := Option.isSome_iff_exists.mp hs
  have hN1 : ∃ w1, w.NextWidth width = some w1 := by
    simp [Window.NextWidth, Window.setMutator, hm]
  obtain ⟨w1, h1⟩ := hN1
  have hi1 := NextWidth_InFrame w w1 width h1 hin
  have hf1 := setMutator_fields w w1 _ _ h1
  have hs1 : w1.mutators.isSome = true := by
    unfold Window.NextWidth Window.setMutator at h1
    rw [hm] at h1
    simp only at h1
    injection h1 with h1
    subst h1
    rfl
  obtain ⟨m1, hm1⟩ := Option.isSome_iff_exists.mp hs1
  have hN2 : ∃ w2, w1.NextHeight height = some w2 := by
    simp [Window.NextHeight, Window.setMutator, hm1]
  obtain ⟨w2, h2⟩ := hN2
  have hi2 := NextHeight_InFrame w1 w2 height h2 hi1
  have hf2 := setMutator_fields w1 w2 _ _ h2
  have hs2 : w2.mutators.isSome = true := by
    unfold Window.NextHeight Window.setMutator at h2
    rw [hm1] at h2
    simp only at h2
    injection h2 with h2
    subst h2
    rfl
  have hmh : w2.mutator? nextheightName = some ⟨false, Value.int height⟩ := by
    rw [setMutator_mutator? w1 w2 _ _ h2, if_pos rfl]
  have hmw : w2.mutator? nextwidthName = some ⟨false, Value.int width⟩ := by
    rw [setMutator_mutator? w1 w2 _ _ h2, if_neg (by decide),
      setMutator_mutator? w w1 _ _ h1, if_pos rfl]
  have hH : w2.resolvedHeight 12 = height := by
    unfold Window.resolvedHeight
    rw [hmh]
  have hW : w2.resolvedWidth = width := by
    unfold Window.resolvedWidth
    rw [hmw]
  have cX : w2.curX = w.curX := by
    have a := congrArg Window.curX hf2
    have b := congrArg Window.curX hf1
    exact a.trans b
  have cY : w2.curY = w.curY := by
    have a := congrArg Window.curY hf2
    have b := congrArg Window.curY hf1
    exact a.trans b
  have cN : w2.nextY = w.nextY := by
    have a := congrArg Window.nextY hf2
    have b := congrArg Window.nextY hf1
    exact a.trans b
  obtain ⟨w', hk, hi', hs', x0, y0, l0, n0, _, _⟩ := widget_calls_layout w2 hi2 k
  have hb : w2.boxRect 12 = Rect w.curX w.curY (addInt w.curX width) (addInt w.curY height) := by
    unfold Window.boxRect
    rw [hH, hW, cX, cY]
  refine ⟨w', ?_, hi', hs'.trans hs2, x0, ?_, l0.trans cY, n0.trans cN⟩
  · unfold Window.place
    rw [h1]
    simp only
    rw [h2]
    simp only
    rw [hk, hb]
  · rw [y0]
    show (if addInt w2.curY (w2.resolvedHeight 12) < w2.nextY then w2.nextY
      else addInt w2.curY (w2.resolvedHeight 12)) = _
    rw [hH, cY, cN]

theorem place_spec (w : Window) (hin : w.InFrame = true) (hs : w.mutators.isSome = true)
    (width height : Int) (hh : 0 ≤ height) (hy : w.curY + height ≤ intMax) (k : Widget) :
    ∃ r w', w.place width height k = some (r, w') ∧
      w'.InFrame = true ∧ w'.mutators.isSome = true ∧
      r.Min.Y = w.curY ∧ r.Max.Y = w.curY + height ∧
      w'.curX = 0 ∧
      w'.curY = (if w.curY + height < w.nextY then w.nextY else w.curY + height) ∧
      w'.lastY = w.curY ∧ w'.nextY = w.nextY := by
  obtain ⟨w', hp, hi', hs', x0, y0, l0, n0⟩ := place_layout w hin hs width height k
  have ha : addInt w.curY height = w.curY + height := addInt_of_nonneg _ _ hh hy
  rw [ha] at hp y0
  have hr := Rect_Y_of_le w.curX w.curY (addInt w.curX width) (w.curY + height) (by omega)
  exact ⟨_, w', hp, hi', hs', hr.1, hr.2, x0, y0, l0, n0⟩

theorem placeMore_spec (rest : List (Int × Int × Widget)) :
    ∀ (w : Window), w.InFrame = true → w.mutators.isSome = true → w.curX = 0 →
      (∀ e ∈ rest, 0 ≤ e.2.1) → (∀ e ∈ rest, w.lastY + e.2.1 ≤ intMax) →
      ∃ rects w', w.placeMore rest = some (rects, w') ∧ rects.length = rest.length ∧
        w'.InFrame = true ∧ w'.curX = 0 ∧ w.curY ≤ w'.curY ∧
        ∀ r ∈ rects, r.Max.Y ≤ w'.curY := by
  induction rest with
  | nil =>
    intro w hin _ hx _ _
    exact ⟨[], w, rfl, rfl, hin, hx, le_refl _, by simp⟩
  | cons e rest ih =>
    intro w hin hs _ hh hfit
    obtain ⟨width, height, k⟩ := e
    have hh0 : 0 ≤ height := hh (width, height, k) (List.mem_cons_self _ _)
    have hf0 : w.lastY + height ≤ intMax := hfit (width, height, k) (List.mem_cons_self _ _)
    have hsl : w.SameLine.mutators.isSome = true := by
      rw [SameLine_eq]
      exact hs
    have sY : w.SameLine.curY = w.lastY := by
      rw [SameLine_eq]
    obtain ⟨r, w1, hp, hi1, hs1, _, rmax, x1, y1, l1, _⟩ :=
      place_spec w.SameLine (SameLine_InFrame w hin) hsl width height hh0
        (by rw [sY]; exact hf0) k
    have hl1 : w1.lastY = w.lastY := l1.trans sY
    obtain ⟨rects, w', hm, hl, hi', hx', hy', hb'⟩ := ih w1 hi1 hs1 x1
      (fun e he => hh e (List.mem_cons_of_mem _ he))
      (fun e he => by rw [hl1]; exact hfit e (List.mem_cons_of_mem _ he))
    have sN : w.SameLine.nextY = if w.nextY < w.curY then w.curY else w.nextY := by
      rw [SameLine_eq]
    have hge : w.curY ≤ w1.curY ∧ r.Max.Y ≤ w1.curY := by
      rw [y1, rmax, sN]
      split <;> split <;> omega
    refine ⟨r :: rects, w', ?_, by simp [hl], hi', hx', by omega, ?_⟩
    · simp only [Window.placeMore, hp, hm, Option.map_some']
    · intro r0 hr0
      rcases List.mem_cons.mp hr0 with h | h
      · rw [h]
        omega
      · exact hb' r0 h

/-- C17 (counterexample): in the first frame of a 200 by 100 window, after one
`Text("")` (which leaves the cursor at y 12), a run of one `Text("")` placed
with the non-negative width 200 and the non-negative height
9223372036854775807 has the bottom edge `12 + height` wrap around: the
rectangle of the run is (0,-9223372036854775797)-(200,12), with bottom 12,
and the cursor ends at y 0, above that bottom. -/
theorem C17_run_overflow_counterexample :
    ∃ w1 r w',
      frameWindow.Text [] = some w1 ∧ w1.InFrame = true ∧
      w1.placeRun (200, 9223372036854775807, Widget.text []) [] = some ([r], w') ∧
      r = ⟨⟨0, -9223372036854775797⟩, ⟨200, 12⟩⟩ ∧
      w'.curX = 0 ∧ w'.curY = 0 ∧ w'.curY < r.Max.Y := by
  obtain ⟨w1, hT1, hf1, ho1, hin1⟩ := Text_spec frameWindow [] rfl
  have x1 : w1.curX = 0 := by
    have e := congrArg Window.curX hf1
    exact e
  have y1 : w1.curY = 12 := by
    have e := congrArg Window.curY hf1
    have e2 : (frameWindow.afterBox 12).curY = 12 := by decide
    exact e.trans e2
  have n1 : w1.nextY = 0 := by
    have e := congrArg Window.nextY hf1
    exact e
  have s1 : w1.mutators.isSome = true := by
    obtain ⟨w0, hk, _, hs0, _⟩ := widget_calls_layout frameWindow rfl (Widget.text [])
    unfold Window.widget at hk
    rw [getBox_eq frameWindow 12 rfl] at hk
    simp only [hT1, Option.map_some'] at hk
    injection hk with hk
    injection hk with _ hk
    rw [hk]
    exact hs0
  obtain ⟨w', hp, _, _, x0, y0, _, _⟩ :=
    place_layout w1 hin1 s1 200 9223372036854775807 (Widget.text [])
  rw [x1, y1] at hp
  rw [y1, n1] at y0
  have hr : Rect 0 12 (addInt 0 200) (addInt 12 9223372036854775807) =
      ⟨⟨0, -9223372036854775797⟩, ⟨200, 12⟩⟩ := by decide
  have hc : w'.curY = 0 := y0.trans (by decide)
  rw [hr] at hp
  refine ⟨w1, _, w', hT1, hin1, ?_, rfl, x0, hc, ?_⟩
  · simp only [Window.placeRun, hp, Window.placeMore, Option.map_some']
  · rw [hc]
    decide

/-- C17 (amended): inside a frame (the mutator map allocated, as `StartFrame`
leaves it), for every run of one or more widgets of any kind, each placed
with `NextWidth` and `NextHeight` at any width and a non-negative height that
added to the cursor y at the start of the run does not exceed the largest
int, and joined to the next by `SameLine()`, every call succeeds, and after
the last widget the cursor is at x = 0 and at a y that is at or below the
bottom of every rectangle of the run. -/
theorem C17_run_ends_below_tallest (w : Window) (first : Int × Int × Widget)
    (rest : List (Int × Int × Widget)) (hin : w.InFrame = true)
    (hs : w.mutators.isSome = true)
    (hh : ∀ e ∈ first :: rest, 0 ≤ e.2.1)
    (hfit : ∀ e ∈ first :: rest, w.curY + e.2.1 ≤ intMax) :
    ∃ rects w', w.placeRun first rest = some (rects, w') ∧
      rects.length = rest.length + 1 ∧ w'.curX = 0 ∧
      ∀ r ∈ rects, r.Max.Y ≤ w'.curY := by
  obtain ⟨width, height, k⟩ := first
  have hh0 : 0 ≤ height := hh (width, height, k) (List.mem_cons_self _ _)
  have hf0 : w.curY + height ≤ intMax := hfit (width, height, k) (List.mem_cons_self _ _)
  obtain ⟨r, w1, hp, hi1, hs1, _, rmax, x1, y1, l1, _⟩ :=
    place_spec w hin hs width height hh0 hf0 k
  obtain ⟨rects, w', hm, hl, _, hx', hy', hb'⟩ := placeMore_spec rest w1 hi1 hs1 x1
    (fun e he => hh e (List.mem_cons_of_mem _ he))
    (fun e he => by rw [l1]; exact hfit e (List.mem_cons_of_mem _ he))
  have hge : r.Max.Y ≤ w1.curY := by
    rw [y1, rmax]
    split <;> omega
  refine ⟨r :: rects, w', ?_, by simp [hl], hx', ?_⟩
  · simp only [Window.placeRun, hp, hm, Option.map_some']
  · intro r0 hr0
    rcases List.mem_cons.mp hr0 with h | h
    · rw [h]
      omega
    · exact hb' r0 h

/-- Witness for C17: a run of a box 30 high, a text 10 high, a button 40 high and a box
5 high in the first frame of a 200 by 100 window, where the cursor y is 0. -/
theorem C17_run_ends_below_tallest_witness :
    ∃ rects w', frameWindow.placeRun (50, 30, Widget.box)
        [(20, 10, Widget.text [97]), (30, 40, Widget.button [98] [99]),
          (10, 5, Widget.box)] = some (rects, w') ∧
      rects.length = 4 ∧ w'.curX = 0 ∧ ∀ r ∈ rects, r.Max.Y ≤ w'.curY :=
  C17_run_ends_below_tallest frameWindow (50, 30, Widget.box)
    [(20, 10, Widget.text [97]), (30, 40, Widget.button [98] [99]), (10, 5, Widget.box)]
    rfl rfl (by decide) (by decide)

/-! ## Degenerate geometry -/

theorem Intersect_Empty_left (r s : Rectangle) (h : r.Empty = true) :
    (r.Intersect s).Empty = true := by
  have ht : (Rectangle.mk
      ⟨if r.Min.X < s.Min.X then s.Min.X else r.Min.X,
        if r.Min.Y < s.Min.Y then s.Min.Y else r.Min.Y⟩
      ⟨if r.Max.X > s.Max.X then s.Max.X else r.Max.X,
        if r.Max.Y > s.Max.Y then s.Max.Y else r.Max.Y⟩).Empty = true := by
    simp only [Rectangle.Empty, Bool.or_eq_true, decide_eq_true_eq] at h ⊢
    rcases h with h | h
    · left
      split <;> split <;> omega
    · right
      split <;> split <;> omega
  unfold Rectangle.Intersect
  simp only
  rw [if_pos ht]
  rfl

theorem foldl_keep {α β : Type} (l : List α) (b : β) : l.foldl (fun acc _ => acc) b = b := by
  induction l with
  | nil => rfl
  | cons a l ih => exact ih

/-- The method `box` draws nothing in a rectangle without width or without
height: it returns the window it was given. -/
theorem box_empty (w : Window) (rect : Rectangle) (h : rect.Dx = 0 ∨ rect.Dy = 0) :
    w.box rect = some w := by
  have he : rect.Empty = true := by
    simp only [Rectangle.Empty, Bool.or_eq_true, decide_eq_true_eq]
    unfold Rectangle.Dx Rectangle.Dy at h
    rcases h with h | h
    · left; omega
    · right; omega
  have hc : (clipUniform w.buffer rect).Empty = true := by
    unfold clipUniform
    exact Intersect_Empty_left _ _ (Intersect_Empty_left _ _ he)
  unfold Window.box drawUniform
  rw [if_pos hc]
  simp only
  rcases h with h | h
  · rw [h]
    rfl
  · rw [h]
    simp only [Int.toNat_zero, List.range_zero, List.foldl_nil]
    rw [foldl_keep]

theorem Rect_Dx_zero (x y0 y1 : Int) : (Rect x y0 (addInt x 0) y1).Dx = 0 := by
  rw [addInt_zero]
  unfold Rect Rectangle.Dx
  simp

theorem Rect_Dy_zero (x0 x1 y : Int) : (Rect x0 y x1 (addInt y 0)).Dy = 0 := by
  rw [addInt_zero]
  unfold Rect Rectangle.Dy
  simp

theorem Box_of_empty_rect (w : Window) (hin : w.InFrame = true)
    (h : (w.boxRect 12).Dx = 0 ∨ (w.boxRect 12).Dy = 0) :
    w.Box = some (⟨[], w.boxRect 12⟩, w.afterBox 12) := by
  unfold Window.Box
  rw [getBox_eq w 12 hin]
  simp only
  rw [box_empty _ _ h]
  rfl

/-- C18 (counterexample): in the first frame of a 3 by 20 window, `Box()`,
`NextHeight(-2)`, `Box()` all succeed; the second box obtains the rectangle
(0,10)-(3,12), inside the first box, and turns the pixel (1, 10) from the
background colour to the foreground colour. -/
theorem C18_negative_height_counterexample :
    ∃ s1 w1 w2 s2 w3,
      tinyFrame.Box = some (s1, w1) ∧ w1.NextHeight (-2) = some w2 ∧
      w2.Box = some (s2, w3) ∧ s2.rect = ⟨⟨0, 10⟩, ⟨3, 12⟩⟩ ∧
      w2.buffer.pix 1 10 = ⟨0, 0, 0, 255⟩ ∧ w3.buffer.pix 1 10 = ⟨255, 255, 255, 255⟩ :=
  ⟨_, _, _, _, _, rfl, rfl, rfl, rfl, by decide, by decide⟩

/-- A negative width draws as well: in the first frame of a 3 by 20 window,
`Box()`, `SameLine()`, `NextWidth(-2)`, `Box()` all succeed; the second box
obtains the rectangle (1,0)-(3,12) and turns the pixel (1, 5) from the
background colour to the foreground colour. -/
theorem negative_width_draws :
    ∃ s1 w1 w2 s2 w3,
      tinyFrame.Box = some (s1, w1) ∧ w1.SameLine.NextWidth (-2) = some w2 ∧
      w2.Box = some (s2, w3) ∧ s2.rect = ⟨⟨1, 0⟩, ⟨3, 12⟩⟩ ∧
      w2.buffer.pix 1 5 = ⟨0, 0, 0, 255⟩ ∧ w3.buffer.pix 1 5 = ⟨255, 255, 255, 255⟩ :=
  ⟨_, _, _, _, _, rfl, rfl, rfl, rfl, by decide, by decide⟩

/-- C18 (amended): inside a frame (the mutator map allocated, as `StartFrame`
leaves it), for every width or height override, zero and negative ones
included, set by `NextWidth` or `NextHeight`, the following `Box()` call
completes without fault; and when the override is zero, it leaves the buffer,
hence every pixel, unchanged. -/
theorem C18_degenerate_box (w : Window) (hin : w.InFrame = true)
    (hs : w.mutators.isSome = true) (v : Int) :
    (∃ w1 s w2, w.NextWidth v = some w1 ∧ w1.Box = some (s, w2) ∧
      (v = 0 → w2.buffer = w.buffer)) ∧
    (∃ w1 s w2, w.NextHeight v = some w1 ∧ w1.Box = some (s, w2) ∧
      (v = 0 → w2.buffer = w.buffer)) := by
  obtain ⟨m, hm⟩ := Option.isSome_iff_exists.mp hs
  refine ⟨?_, ?_⟩
  · have hN : ∃ w1, w.NextWidth v = some w1 := by
      simp [Window.NextWidth, Window.setMutator, hm]
    obtain ⟨w1, h1⟩ := hN
    have hi1 := NextWidth_InFrame w w1 v h1 hin
    have hf1 := setMutator_fields w w1 _ _ h1
    obtain ⟨w2, hB, _, _⟩ := Box_spec w1 hi1
    refine ⟨w1, _, w2, h1, hB, ?_⟩
    intro hv
    subst hv
    have hW : w1.resolvedWidth = 0 := by
      unfold Window.resolvedWidth
      rw [setMutator_mutator? w w1 _ _ h1, if_pos rfl]
    have hz : (w1.boxRect 12).Dx = 0 := by
      unfold Window.boxRect
      rw [hW]
      exact Rect_Dx_zero _ _ _
    have hB2 := Box_of_empty_rect w1 hi1 (Or.inl hz)
    rw [hB2] at hB
    injection hB with hB
    injection hB with _ hw
    rw [← hw]
    have e := congrArg Window.buffer hf1
    exact e
  · have hN : ∃ w1, w.NextHeight v = some w1 := by
      simp [Window.NextHeight, Window.setMutator, hm]
    obtain ⟨w1, h1⟩ := hN
    have hi1 := NextHeight_InFrame w w1 v h1 hin
    have hf1 := setMutator_fields w w1 _ _ h1
    obtain ⟨w2, hB, _, _⟩ := Box_spec w1 hi1
    refine ⟨w1, _, w2, h1, hB, ?_⟩
    intro hv
    subst hv
    have hH : w1.resolvedHeight 12 = 0 := by
      unfold Window.resolvedHeight
      rw [setMutator_mutator? w w1 _ _ h1, if_pos rfl]
    have hz : (w1.boxRect 12).Dy = 0 := by
      unfold Window.boxRect
      rw [hH]
      exact Rect_Dy_zero _ _ _
    have hB2 := Box_of_empty_rect w1 hi1 (Or.inr hz)
    rw [hB2] at hB
    injection hB with hB
    injection hB with _ hw
    rw [← hw]
    have e := congrArg Window.buffer hf1
    exact e

/-- Witness for C18: in the first frame of a 3 by 20 window a box of width zero leaves
the buffer as it was. -/
theorem C18_degenerate_box_witness :
    ∃ w1 s w2, tinyFrame.NextWidth 0 = some w1 ∧ w1.Box = some (s, w2) ∧
      w2.buffer = tinyFrame.buffer :=
  match (C18_degenerate_box tinyFrame rfl rfl 0).1 with
  | ⟨w1, s, w2, h1, h2, h3⟩ => ⟨w1, s, w2, h1, h2, h3 rfl⟩

/-! ## Where the text primitive draws -/

theorem getMutator_buffer (w : Window) (b : RGBAImage) (n : GoString) (d : Value) :
    Window.getMutator { w with buffer := b } n d =
      ((w.getMutator n d).1, { (w.getMutator n d).2 with buffer := b }) := by
  rcases w with ⟨W, H, buf, f, fg, bg, cx, cy, ny, nx, ly, cw, fid, inp, cinp, mt, ws, mu, hp⟩
  unfold Window.getMutator
  simp only
  cases mu with
  | none => rfl
  | some m =>
    simp only
    cases mapGet m n with
    | none => rfl
    | some e =>
      simp only
      split <;> rfl

theorem textCalls_buffer (rect : Rectangle) (lines : List GoString) :
    ∀ (i textX : Int) (w : Window) (b : RGBAImage),
      Window.textCalls rect lines i textX { w with buffer := b } =
        Window.textCalls rect lines i textX w := by
  induction lines with
  | nil => intro i textX w b; rfl
  | cons line rest ih =>
    intro i textX w b
    unfold Window.textCalls
    rw [getMutator_buffer]
    generalize w.getMutator centerName (Value.bool false) = p1
    obtain ⟨a, w1⟩ := p1
    cases a with
    | int n => rfl
    | bool c =>
      simp only
      rw [ih]

/-- The buffer that `text` leaves is the buffer it was given after the calls
listed by `Window.textCalls`, drawn with the window's font and foreground
colour on the sub-image of the rectangle. -/
theorem textLoop_draws (rect : Rectangle) (lines : List GoString) :
    ∀ (i textX : Int) (w w' : Window), Window.textLoop rect lines i textX w = some w' →
      drawCalls w.font w.FG rect (Window.textCalls rect lines i textX w) w.buffer =
        some w'.buffer := by
  induction lines with
  | nil =>
    intro i textX w w' h
    simp only [Window.textLoop] at h
    injection h with h
    subst h
    rfl
  | cons line rest ih =>
    intro i textX w w' h
    unfold Window.textLoop at h
    unfold Window.textCalls
    have h1f := getMutator_fields w centerName (Value.bool false)
    generalize w.getMutator centerName (Value.bool false) = p1 at *
    obtain ⟨a, w1⟩ := p1
    cases a with
    | int n => simp at h
    | bool c =>
      simp only at h h1f ⊢
      have e1 : w1.font = w.font := by
        have e := congrArg Window.font h1f
        exact e
      have e2 : w1.FG = w.FG := by
        have e := congrArg Window.FG h1f
        exact e
      have e3 : w1.buffer = w.buffer := by
        have e := congrArg Window.buffer h1f
        exact e
      cases hd : w1.font.DrawString (w1.buffer.SubImage rect)
          (if c = true then textX + Int.tdiv (rect.Dx - w1.font.MeasureString line) 2
            else textX) (rect.Min.Y + i * 8) line w1.FG with
      | none => simp [hd] at h
      | some sub =>
        simp only [hd] at h
        have hrec := ih _ _ _ _ h
        rw [textCalls_buffer] at hrec
        simp only at hrec
        rw [e1, e2, e3] at hd
        rw [e1, e2, e3] at hrec
        unfold drawCalls
        rw [e1, hd]
        simp only
        exact hrec

/-- With no centering pending every line is drawn at the same x, line i at
y = top + 8 * i; for `text` the x is the left edge of the rectangle. -/
theorem textCalls_not_centered (rect : Rectangle) (lines : List GoString) :
    ∀ (i textX : Int) (w : Window), w.mutator? centerName = none →
      Window.textCalls rect lines i textX w = plainCalls rect lines i textX := by
  induction lines with
  | nil => intro i textX w _; rfl
  | cons line rest ih =>
    intro i textX w h
    unfold Window.textCalls plainCalls
    rw [getMutator_absent w centerName (Value.bool false) h]
    simp only [Bool.false_eq_true, if_false]
    rw [ih _ _ w h]

/-- With the one-shot centering of `Center()` pending, the first line is
centered by its own width and every later line is drawn at the x of the first
line. -/
theorem textCalls_centered_once (rect : Rectangle) (line : GoString) (rest : List GoString)
    (i textX : Int) (w : Window)
    (h : w.mutator? centerName = some ⟨false, Value.bool true⟩) :
    Window.textCalls rect (line :: rest) i textX w =
      plainCalls rect (line :: rest) i
        (textX + Int.tdiv (rect.Dx - w.font.MeasureString line) 2) := by
  unfold Window.textCalls plainCalls
  have hv := getMutator_val w centerName (Value.bool false)
  have hs := getMutator_mutator?_same w centerName (Value.bool false)
  have hf := getMutator_fields w centerName (Value.bool false)
  rw [h] at hv hs
  generalize w.getMutator centerName (Value.bool false) = p1 at *
  obtain ⟨a, w1⟩ := p1
  simp only at hv hs hf
  subst hv
  simp only [if_true]
  have e1 : w1.font = w.font := by
    have e := congrArg Window.font hf
    exact e
  rw [textCalls_not_centered rect rest _ _ w1 (by simpa using hs), e1]

/-- C19 (divergence): in the first frame of a 200 by 100 window whose font
measures 8 pixels a byte, `NextWidth(104)`, `NextHeight(44)`, `Center()` and
`Text("a\nbbb")` succeed; `Text` obtains the rectangle (0,0)-(104,44) and
calls the text primitive on its inset (2,2)-(102,42), which draws line 0 at
x = 48 and line 1 at x = 48 too, where centering line 1 by its own width 24
puts it at x = 40. -/
theorem C19_only_first_line_centered :
    (((NewWindow monoFont 200 100).StartFrame.NextWidth 104).bind
      fun w => w.NextHeight 44).bind (fun w => w.Center) = some centeredWindow ∧
    ∃ w1 buf w',
      centeredWindow.getBox 12 = some (⟨⟨0, 0⟩, ⟨104, 44⟩⟩, w1) ∧
      Rectangle.Inset ⟨⟨0, 0⟩, ⟨104, 44⟩⟩ 2 = ⟨⟨2, 2⟩, ⟨102, 42⟩⟩ ∧
      drawUniform w1.buffer ⟨⟨0, 0⟩, ⟨104, 44⟩⟩ w1.BG Op.Over = some buf ∧
      centeredWindow.Text [97, 10, 98, 98, 98] = some w' ∧
      w1.textDraws ⟨⟨2, 2⟩, ⟨102, 42⟩⟩ [97, 10, 98, 98, 98] =
        [(48, 2, [97]), (48, 10, [98, 98, 98])] ∧
      drawCalls w1.font w1.FG ⟨⟨2, 2⟩, ⟨102, 42⟩⟩
        [(48, 2, [97]), (48, 10, [98, 98, 98])] buf = some w'.buffer ∧
      centeredCalls ⟨⟨2, 2⟩, ⟨102, 42⟩⟩ w1.font (splitLines [97, 10, 98, 98, 98]) 0 =
        [(48, 2, [97]), (40, 10, [98, 98, 98])] := by
  refine ⟨rfl, ?_⟩
  have hg : centeredWindow.getBox 12 =
      some (⟨⟨0, 0⟩, ⟨104, 44⟩⟩, centeredWindow.afterBox 12) := getBox_eq centeredWindow 12 rfl
  obtain ⟨buf, hbuf⟩ : ∃ buf, drawUniform (centeredWindow.afterBox 12).buffer
      ⟨⟨0, 0⟩, ⟨104, 44⟩⟩ (centeredWindow.afterBox 12).BG Op.Over = some buf :=
    drawUniform_some _ _ Black _
  obtain ⟨w', hT, _⟩ := Text_spec centeredWindow [97, 10, 98, 98, 98] rfl
  have hT' := hT
  unfold Window.Text at hT'
  rw [hg] at hT'
  simp only [hbuf] at hT'
  have hd := textLoop_draws _ _ _ _ _ _ hT'
  rw [textCalls_buffer] at hd
  have e : Window.textCalls (Rectangle.Inset ⟨⟨0, 0⟩, ⟨104, 44⟩⟩ 2)
      (splitLines [97, 10, 98, 98, 98]) 0 (Rectangle.Inset ⟨⟨0, 0⟩, ⟨104, 44⟩⟩ 2).Min.X
      (centeredWindow.afterBox 12) = [(48, 2, [97]), (48, 10, [98, 98, 98])] := by decide
  rw [e] at hd
  exact ⟨_, buf, w', hg, by decide, hbuf, hT, by decide, hd, by decide⟩

/-! ## Typed characters are a set -/

theorem CharTimes_spec (c : Int) (a : Nat) (k : Nat) :
    ∀ (w : Window), w.input.Chars = some a → a < w.heap.length →
      (w.heap.getD a [] = [] ∨ w.heap.getD a [] = [(c, true)]) →
      ∃ w', w.CharTimes c k = some w' ∧ w'.input = w.input ∧ w'.focusID = w.focusID ∧
        w'.heap.length = w.heap.length ∧
        (0 < k → w'.heap.getD a [] = [(c, true)]) ∧
        (k = 0 → w' = w) := by
  induction k with
  | zero =>
    intro w _ _ _
    exact ⟨w, rfl, rfl, rfl, rfl, fun h => absurd h (Nat.lt_irrefl 0), fun _ => rfl⟩
  | succ k ih =>
    intro w ha hl hc
    have hset : mapSet (w.heap.getD a []) c true = [(c, true)] := by
      rcases hc with h | h
      · rw [h]; rfl
      · rw [h]; simp [mapSet]
    have hC : w.Char c = some { w with heap := w.heap.set a [(c, true)] } := by
      unfold Window.Char heapAssign
      rw [ha]
      simp only [hl, if_true, hset]
    have hl1 : a < (w.heap.set a [(c, true)]).length := by
      rw [List.length_set]
      exact hl
    have hg1 : (w.heap.set a [(c, true)]).getD a [] = [(c, true)] := by
      simp [List.getD, List.getElem?_set_self hl]
    obtain ⟨w', h1, h2, h3, h4, h5, h6⟩ := ih { w with heap := w.heap.set a [(c, true)] }
      ha hl1 (Or.inr hg1)
    refine ⟨w', ?_, h2, h3, ?_, ?_, fun h => absurd h (Nat.succ_ne_zero k)⟩
    · simp only [Window.CharTimes, hC]
      exact h1
    · rw [h4, List.length_set]
    · intro _
      cases k with
      | zero => rw [h6 rfl]; exact hg1
      | succ j => exact h5 (Nat.succ_pos j)

/-- In a frame whose active character map holds the one rune c, not
backspace, `TextField` on a widget that has the focus or is clicked succeeds
and returns the text with `string(c)` appended once, in whatever order the
map is visited. -/
theorem TextField_appends_char (w : Window) (id t : GoString) (c : Int)
    (order : List (Int × Bool)) (hin : w.InFrame = true) (hc : c ≠ 8)
    (hch : w.deref w.curInput.Chars = [(c, true)])
    (hord : order.Perm (w.deref w.curInput.Chars))
    (hfoc : w.focusID = id ∨ (Status.mk id (w.boxRect 12)).Clicked w = true) :
    ∃ s w', w.TextField id t order = some (t ++ runeString c, s, w') ∧
      s.Focused w' = true := by
  obtain ⟨t', w', hT, hw', _, _⟩ := TextField_spec w id t order hin
  obtain ⟨_, _, _, _, ht⟩ := TextField_effect w id t order t' _ w' hT
  have hfoc' : w'.focusID = id := by
    have e := congrArg Window.focusID hw'
    rw [e]
    show (if _ then id else w.focusID) = id
    rcases hfoc with h | h
    · split
      · rfl
      · exact h
    · rw [h]
      rfl
  rw [hch] at hord
  have ho : order = [(c, true)] := List.perm_singleton.mp hord
  have ht' : t' = t ++ runeString c := by
    rw [ht, if_pos hfoc', ho]
    simp [textFieldKey, hc]
  rw [ht'] at hT
  exact ⟨_, w', hT, by simp [Status.Focused, hfoc']⟩

/-- C20: after a `StartFrame`, `Char(c)` called two or more times (n + 2
times) with nothing else typed succeeds, and the next `StartFrame` starts a
frame whose active character map holds c once; there `TextField` on the
focused widget returns the text with `string(c)` appended exactly once, when
c is not backspace, in whatever order the map is visited.  The same holds in
every frame whose active character map holds c alone, for a widget that is
focused or clicked; and a `TextField` call whose status is not focused (so
neither focused before nor clicked) returns its text unchanged whatever was
typed. -/
theorem C20_typed_characters_are_a_set (u : Window) (c : Int) (n : Nat) (id t : GoString)
    (hc : c ≠ 8) (hfoc : u.focusID = id) :
    (∃ w1, u.StartFrame.CharTimes c (n + 2) = some w1 ∧
      w1.StartFrame.deref w1.StartFrame.curInput.Chars = [(c, true)] ∧
      ∀ order : List (Int × Bool),
        order.Perm (w1.StartFrame.deref w1.StartFrame.curInput.Chars) →
        ∃ s w', w1.StartFrame.TextField id t order = some (t ++ runeString c, s, w') ∧
          s.Focused w' = true) ∧
    (∀ (w : Window) (order : List (Int × Bool)), w.InFrame = true →
      w.deref w.curInput.Chars = [(c, true)] → order.Perm (w.deref w.curInput.Chars) →
      (w.focusID = id ∨ (Status.mk id (w.boxRect 12)).Clicked w = true) →
      ∃ s w', w.TextField id t order = some (t ++ runeString c, s, w') ∧
        s.Focused w' = true) ∧
    (∀ (w : Window) (id0 t0 : GoString) (order : List (Int × Bool)) (t' : GoString)
      (s : Status) (w' : Window), w.TextField id0 t0 order = some (t', s, w') →
      s.Focused w' = false → t' = t0) := by
  refine ⟨?_, ?_, ?_⟩
  · have ha : u.StartFrame.input.Chars = some (u.heap.length + 1) := rfl
    have hl : u.heap.length + 1 < u.StartFrame.heap.length := by
      show u.heap.length + 1 < (u.heap ++ [[], []]).length
      simp
    have h0 : u.StartFrame.heap.getD (u.heap.length + 1) [] = [] := by
      show (u.heap ++ [[], []]).getD (u.heap.length + 1) [] = []
      rw [getD_append_empties]
      exact List.getD_eq_default _ _ (Nat.le_succ _)
    obtain ⟨w1, h1, h2, h3, _, h5, _⟩ := CharTimes_spec c (u.heap.length + 1) (n + 2)
      u.StartFrame ha hl (Or.inl h0)
    have hch : w1.StartFrame.deref w1.StartFrame.curInput.Chars = [(c, true)] := by
      have e : w1.StartFrame.curInput.Chars = some (u.heap.length + 1) := by
        show w1.input.Chars = some (u.heap.length + 1)
        rw [h2]
        rfl
      rw [e, StartFrame_deref]
      exact h5 (Nat.succ_pos _)
    refine ⟨w1, h1, hch, ?_⟩
    intro order hord
    refine TextField_appends_char w1.StartFrame id t c order (StartFrame_InFrame _) hc hch
      hord (Or.inl ?_)
    show w1.focusID = id
    rw [h3]
    exact hfoc
  · intro w order hin hch hord hf
    exact TextField_appends_char w id t c order hin hc hch hord hf
  · intro w id0 t0 order t' s w' hT hnf
    obtain ⟨hid, _, _, _, ht⟩ := TextField_effect w id0 t0 order t' s w' hT
    have hne : ¬ w'.focusID = id0 := by
      intro e
      rw [← hid] at e
      simp [Status.Focused, e] at hnf
    rw [ht, if_neg hne]

/-- Witness for C20: "x" typed three times in the first frame of a 200 by 100 window
reaches a text field with the (empty) focus once. -/
theorem C20_typed_characters_are_a_set_witness :
    ∃ w1, (NewWindow blankFont 200 100).StartFrame.CharTimes 120 3 = some w1 ∧
      w1.StartFrame.deref w1.StartFrame.curInput.Chars = [(120, true)] ∧
      ∃ s w', w1.StartFrame.TextField [] [97] [(120, true)] = some ([97, 120], s, w') ∧
        s.Focused w' = true :=
  match (C20_typed_characters_are_a_set (NewWindow blankFont 200 100) 120 1 [] [97]
    (by decide) rfl).1 with
  | ⟨w1, h1, h2, h3⟩ => ⟨w1, h1, h2, h3 [(120, true)] (by rw [h2])⟩

end ImageUI
